import Mathlib

/-!
SpotiFLAC backends: resolution and retrieval engine.

A shallow embedding of the parts of `backend/tidal.go`, `backend/amazon.go` and
`backend/qobuz.go` that decide how a manifest is resolved, how a file or its
segments are fetched and assembled, how upstream calls are paced and retried,
how a conversion job is polled across regions, how a primary endpoint falls
back to a second one, how a track id is read from a URL, and how the answers
of racing mirrors are produced and collected.

Conventions of the embedding.

* A Go `string` is a Lean `String`: the characters Go reads in it.  Every
  pattern the code searches for is plain ASCII, so searching by character
  agrees with searching by byte on well-formed UTF-8 text.  `len(s)` and the
  slice `s[:n]` count bytes (`byteLen`, `sliceBytes`); a slice that cuts a
  character leaves bytes that form no character, each read as U+FFFD.
* A Go `int` is a 64-bit signed integer: a Lean `Int` that is brought back into
  range by `wrapInt64` after every addition, as Go arithmetic does silently.
* Library calls whose result is decided outside the repository
  (`base64.DecodeString`, `json.Unmarshal`, `xml.Unmarshal`, the HTTP client,
  the transcoder) are fields of an environment record; the code under study is
  a function of that record.
* A Go function returning `(values..., err)` is a record with an `err` field of
  type `Option String`; `none` is the `nil` error.
-/

namespace SpotiFLAC

/-! ## Go primitives -/

/-- Smallest value of a Go `int` on a 64-bit target. -/
def minInt64 : Int := -9223372036854775808

/-- Largest value of a Go `int` on a 64-bit target. -/
def maxInt64 : Int := 9223372036854775807

/-- Two's-complement wrap-around of a 64-bit signed integer. -/
def wrapInt64 (x : Int) : Int :=
  (x + 9223372036854775808) % 18446744073709551616 - 9223372036854775808

/-- Worker of `strings.ReplaceAll` for a non-empty `old`: scans left to right,
`skip` counts the characters of a matched occurrence still to be dropped. -/
def replaceAllChars (old new : List Char) : Nat → List Char → List Char
  | _, [] => []
  | skip + 1, _ :: cs => replaceAllChars old new skip cs
  | 0, c :: cs =>
    if old.isPrefixOf (c :: cs) then new ++ replaceAllChars old new (old.length - 1) cs
    else c :: replaceAllChars old new 0 cs

/-- The Go call `strings.ReplaceAll(s, old, new)` for a non-empty `old`:
non-overlapping occurrences are replaced from left to right. -/
def replaceAll (s old new : String) : String :=
  String.mk (replaceAllChars old.data new.data 0 s.data)

/-- The Go call `strings.HasPrefix(s, p)`. -/
def hasPrefix (s p : String) : Bool := p.data.isPrefixOf s.data

/-- The Go call `strings.HasSuffix(s, p)`. -/
def hasSuffix (s p : String) : Bool := p.data.isSuffixOf s.data

/-- The Go call `strings.TrimSuffix(s, p)`. -/
def trimSuffix (s p : String) : String :=
  if hasSuffix s p then String.mk (s.data.take (s.data.length - p.data.length)) else s

/-- The text produced by `fmt.Sprintf("%d", i)`. -/
def decimal (i : Int) : String :=
  match i with
  | Int.ofNat n => Nat.repr n
  | Int.negSucc n => "-" ++ Nat.repr (n + 1)

/-- Value of a run of ASCII digits read in base ten. -/
def digitsValue (ds : List Char) : Nat :=
  ds.foldl (fun acc c => acc * 10 + (c.toNat - 48)) 0

/-- ASCII digit test, the class `\d` of Go regular expressions. -/
def isDigit (c : Char) : Bool := decide (48 ≤ c.toNat) && decide (c.toNat ≤ 57)

/-- The effect of `fmt.Sscanf(text, "%d", &repeat)` on a variable holding `old`,
for `text` a non-empty run of digits: the value is stored when it fits in 64
bits; otherwise the scan reports a range error and leaves the variable alone. -/
def sscanfDecimal (old : Int) (text : List Char) : Int :=
  if (digitsValue text : Int) ≤ maxInt64 then (digitsValue text : Int) else old

/-- The number of bytes a character takes in a Go string, which is UTF-8. -/
def utf8Len (c : Char) : Nat :=
  if c.toNat < 128 then 1 else if c.toNat < 2048 then 2 else if c.toNat < 65536 then 3 else 4

/-- The Go expression `len(s)`: the length of `s` in bytes. -/
def byteLen (s : String) : Nat := (s.data.map utf8Len).sum

/-- The Go slice `s[:n]` for `n` up to `len(s)`, as the characters Go reads in
it: the characters that end within the first `n` bytes and, when byte `n` falls
inside a character, one U+FFFD for each byte of that character before the cut. -/
def sliceBytes : Nat → List Char → List Char
  | _, [] => []
  | n, c :: cs =>
    if utf8Len c ≤ n then c :: sliceBytes (n - utf8Len c) cs
    else List.replicate n (Char.ofNat 65533)

/-! ## Manifest data model (`tidal.go`) -/

/-- The Go struct `TidalBTSManifest`; an absent or null `urls` is the empty list. -/
structure TidalBTSManifest where
  MimeType : String
  Codecs : String
  EncryptionType : String
  URLs : List String
  deriving Repr, DecidableEq

/-- One `S` element of a `SegmentTimeline`. -/
structure TimelineSegment where
  Duration : Int
  Repeat : Int
  deriving Repr, DecidableEq

/-- The `SegmentTemplate` element of the Go struct `MPD`; `Segments` is
`Timeline.Segments`. -/
structure SegmentTemplate where
  Initialization : String
  Media : String
  Segments : List TimelineSegment
  deriving Repr, DecidableEq

/-- The Go struct `MPD`, reduced to the one path the code reads:
`Period.AdaptationSet.Representation.SegmentTemplate`. -/
structure MPD where
  SegmentTemplate : SegmentTemplate
  deriving Repr, DecidableEq

/-- The three library decoders `parseManifest` calls. -/
structure Decoders where
  base64Decode : String → Except String String
  jsonUnmarshalBTS : String → Except String TidalBTSManifest
  xmlUnmarshalMPD : String → Except String MPD

/-- The four values returned by `parseManifest`. -/
structure ManifestResult where
  directURL : String
  initURL : String
  mediaURLs : List String
  err : Option String
  deriving Repr, DecidableEq

/-- A failing return of `parseManifest`: `return "", "", nil, err`. -/
def ManifestResult.failure (msg : String) : ManifestResult :=
  { directURL := "", initURL := "", mediaURLs := [], err := some msg }

/-! ## Pattern extraction on the raw manifest text -/

/-- Match of the regular expression `KEY="([^"]+)"` anchored at the head of the
text: the literal, then the longest run of non-quote characters, which must be
non-empty and followed by a quote.  Returns the captured run. -/
def matchAttrAt (key : List Char) (text : List Char) : Option (List Char) :=
  if (key ++ ['=', '"']).isPrefixOf text then
    let rest := text.drop (key.length + 2)
    let run := rest.takeWhile (fun c => c != '"')
    if run ≠ [] ∧ (rest.drop run.length).head? = some '"' then some run else none
  else none

/-- First submatch of `regexp.MustCompile(KEY="([^"]+)").FindStringSubmatch`:
the capture of the leftmost match, `none` when the expression matches nowhere. -/
def findAttr (key : List Char) : List Char → Option (List Char)
  | [] => none
  | c :: cs =>
    match matchAttrAt key (c :: cs) with
    | some run => some run
    | none => findAttr key cs

/-- Match of `<S d="\d+"(?: r="(\d+)")?` anchored at the head of the text.
Returns the capture of the optional group (empty when it took no part) and the
length of the whole match. -/
def matchSegAt (text : List Char) : Option (List Char × Nat) :=
  if ['<', 'S', ' ', 'd', '=', '"'].isPrefixOf text then
    let rest := text.drop 6
    let d := rest.takeWhile isDigit
    let rest1 := rest.drop d.length
    if d ≠ [] ∧ rest1.head? = some '"' then
      let rest2 := rest1.drop 1
      if [' ', 'r', '=', '"'].isPrefixOf rest2 then
        let rest3 := rest2.drop 4
        let r := rest3.takeWhile isDigit
        if r ≠ [] ∧ (rest3.drop r.length).head? = some '"' then
          some (r, 6 + d.length + 1 + 4 + r.length + 1)
        else some ([], 6 + d.length + 1)
      else some ([], 6 + d.length + 1)
    else none
  else none

/-- The captures of `segRe.FindAllStringSubmatch(manifestStr, -1)`: successive
non-overlapping matches from left to right; `skip` counts the characters of the
last match still to be passed over. -/
def findAllSeg : Nat → List Char → List (List Char)
  | _, [] => []
  | skip + 1, _ :: cs => findAllSeg skip cs
  | 0, c :: cs =>
    match matchSegAt (c :: cs) with
    | some (r, len) => r :: findAllSeg (len - 1) cs
    | none => findAllSeg 0 cs

/-! ## `parseManifest` (`tidal.go`, lines 763-841) -/

/-- Lines 794-809: the initialization URL and media template taken from the
decoded document, replaced by the pattern matches on the raw text when either
of them is empty. -/
def resolveTemplates (segTemplate : SegmentTemplate) (manifestStr : String) : String × String :=
  let initURL := segTemplate.Initialization
  let mediaTemplate := segTemplate.Media
  if initURL = "" ∨ mediaTemplate = "" then
    let initURL :=
      match findAttr "initialization".data manifestStr.data with
      | some m => String.mk m
      | none => initURL
    let mediaTemplate :=
      match findAttr "media".data manifestStr.data with
      | some m => String.mk m
      | none => mediaTemplate
    (initURL, mediaTemplate)
  else (initURL, mediaTemplate)

/-- Lines 818-821: `segmentCount += seg.Repeat + 1` over the decoded timeline. -/
def sumTimeline (segments : List TimelineSegment) : Int :=
  segments.foldl (fun segmentCount seg => wrapInt64 (segmentCount + wrapInt64 (seg.Repeat + 1))) 0

/-- Lines 824-832: the same sum over the pattern matches on the raw text. -/
def sumMatches (captures : List (List Char)) : Int :=
  captures.foldl
    (fun segmentCount m =>
      let repeatCount : Int := if m ≠ [] then sscanfDecimal 0 m else 0
      wrapInt64 (segmentCount + wrapInt64 (repeatCount + 1)))
    0

/-- Lines 818-833: the segment count, from the decoded timeline, or from the
raw text when the timeline gives zero. -/
def countSegments (segTemplate : SegmentTemplate) (manifestStr : String) : Int :=
  let segmentCount := sumTimeline segTemplate.Segments
  if segmentCount = 0 then sumMatches (findAllSeg 0 manifestStr.data) else segmentCount

/-- Lines 835-838: `for i := 1; i <= segmentCount; i++ { append }`, started at
counter `i` with the URLs collected so far.  The counter is a Go `int` and wraps.
`none` means the loop has not finished within `fuel` iterations. -/
def expandLoop (mediaTemplate : String) (segmentCount : Int) :
    Nat → Int → List String → Option (List String)
  | 0, _, _ => none
  | fuel + 1, i, mediaURLs =>
    if i ≤ segmentCount then
      expandLoop mediaTemplate segmentCount fuel (wrapInt64 (i + 1))
        (mediaURLs ++ [replaceAll mediaTemplate "$Number$" (decimal i)])
    else some mediaURLs

/-- Lines 835-838 run from `i = 1`.  `segmentCount + 1` iterations are enough
for the loop to exit whenever it exits at all; `none` is a loop that never
exits. -/
def expandSegments (mediaTemplate : String) (segmentCount : Int) : Option (List String) :=
  expandLoop mediaTemplate segmentCount (segmentCount.toNat + 1) 1 []

/-- The Go function `parseManifest`.  `none` is a call that does not return. -/
def parseManifest (dec : Decoders) (manifestB64 : String) : Option ManifestResult :=
  match dec.base64Decode manifestB64 with
  | .error e => some (ManifestResult.failure ("failed to decode manifest: " ++ e))
  | .ok manifestStr =>
    if hasPrefix manifestStr "\x7b" then
      match dec.jsonUnmarshalBTS manifestStr with
      | .error e => some (ManifestResult.failure ("failed to parse BTS manifest: " ++ e))
      | .ok btsManifest =>
        match btsManifest.URLs with
        | [] => some (ManifestResult.failure "no URLs in BTS manifest")
        | url :: _ => some { directURL := url, initURL := "", mediaURLs := [], err := none }
    else
      match dec.xmlUnmarshalMPD manifestStr with
      | .error e => some (ManifestResult.failure ("failed to parse manifest XML: " ++ e))
      | .ok mpd =>
        let segTemplate := mpd.SegmentTemplate
        let (initURL, mediaTemplate) := resolveTemplates segTemplate manifestStr
        if initURL = "" then
          some (ManifestResult.failure "no initialization URL found in manifest")
        else
          let initURL := replaceAll initURL "&amp;" "&"
          let mediaTemplate := replaceAll mediaTemplate "&amp;" "&"
          let segmentCount := countSegments segTemplate manifestStr
          match expandSegments mediaTemplate segmentCount with
          | none => none
          | some mediaURLs =>
            some { directURL := "", initURL := initURL, mediaURLs := mediaURLs, err := none }

/-! ## Files, HTTP and the transcoder -/

/-- File contents and response bodies. -/
abbrev Bytes := List UInt8

/-- What `client.Get(url)` gives and, for a response, what the following
`io.Copy` of its body does: `body` holds the bytes the copy delivered to the
destination and `copyErr` the error it returned (`none` for `nil`). -/
inductive GetResult where
  | transportError (msg : String)
  | response (statusCode : Int) (body : Bytes) (copyErr : Option String)
  deriving Repr, DecidableEq

/-- The disk, as a map from path to content, and the URLs handed to
`client.Get` so far, oldest first. -/
structure World where
  files : String → Option Bytes
  requests : List String

/-- What one run of the external transcoder does: the error of `cmd.Run`, the
captured standard error, and the content it left at its output path (`none`
when it wrote nothing). -/
structure FFmpegRun where
  err : Option String
  stderr : String
  output : Option Bytes
  deriving Repr, DecidableEq

/-- Everything `DownloadFromManifest` obtains from outside the repository.
`get k url` is the outcome of the request issued after `k` earlier ones;
`runFFmpeg argv input` runs the transcoder on the content of its input file. -/
structure DownloadEnv where
  decoders : Decoders
  get : Nat → String → GetResult
  createErr : String → Option String
  ffmpegPath : Except String String
  validateExecutable : String → Option String
  runFFmpeg : List String → Option Bytes → FFmpegRun

/-- Result of a function that acts on the world and returns `error`. -/
structure Outcome where
  world : World
  err : Option String

/-- Successful `os.Create(path)`: the file exists and is empty. -/
def World.create (w : World) (path : String) : World :=
  { w with files := fun p => if p = path then some [] else w.files p }

/-- Bytes written through the handle opened on `path`. -/
def World.append (w : World) (path : String) (b : Bytes) : World :=
  { w with files := fun p => if p = path then some ((w.files path).getD [] ++ b) else w.files p }

/-- Content left at `path` by another process. -/
def World.store (w : World) (path : String) (b : Bytes) : World :=
  { w with files := fun p => if p = path then some b else w.files p }

/-- The call `os.Remove(path)`. -/
def World.remove (w : World) (path : String) : World :=
  { w with files := fun p => if p = path then none else w.files p }

/-- The call `os.Rename(oldPath, newPath)`; without a file at `oldPath` nothing
changes. -/
def World.rename (w : World) (oldPath newPath : String) : World :=
  match w.files oldPath with
  | none => w
  | some content =>
    { w with files := fun p =>
        if p = newPath then some content else if p = oldPath then none else w.files p }

/-- A request recorded in the log. -/
def World.request (w : World) (url : String) : World :=
  { w with requests := w.requests ++ [url] }

/-! ## `DownloadFromManifest` (`tidal.go`, lines 387-529) -/

/-- Lines 397-425: the direct case. -/
def downloadDirect (env : DownloadEnv) (w : World) (directURL outputPath : String) : Outcome :=
  let w1 := w.request directURL
  match env.get w.requests.length directURL with
  | .transportError e => { world := w1, err := some ("failed to download file: " ++ e) }
  | .response statusCode body copyErr =>
    if statusCode ≠ 200 then
      { world := w1, err := some ("download failed with status " ++ decimal statusCode) }
    else
      match env.createErr outputPath with
      | some e => { world := w1, err := some ("failed to create file: " ++ e) }
      | none =>
        let w2 := (w1.create outputPath).append outputPath body
        match copyErr with
        | some e => { world := w2, err := some ("failed to write file: " ++ e) }
        | none => { world := w2, err := none }

/-- Lines 435-455: the initialization segment, appended to the open temporary
file. -/
def downloadInitSegment (env : DownloadEnv) (w : World) (tempPath initURL : String) : Outcome :=
  let w1 := w.request initURL
  match env.get w.requests.length initURL with
  | .transportError e =>
    { world := w1.remove tempPath, err := some ("failed to download init segment: " ++ e) }
  | .response statusCode body copyErr =>
    if statusCode ≠ 200 then
      { world := w1.remove tempPath
        err := some ("init segment download failed with status " ++ decimal statusCode) }
    else
      let w2 := w1.append tempPath body
      match copyErr with
      | some e =>
        { world := w2.remove tempPath, err := some ("failed to write init segment: " ++ e) }
      | none => { world := w2, err := none }

/-- Lines 461-497: `for i, mediaURL := range mediaURLs`, from index `i` over
the URLs still to fetch. -/
def downloadMediaSegments (env : DownloadEnv) (tempPath : String) :
    Nat → List String → World → Outcome
  | _, [], w => { world := w, err := none }
  | i, mediaURL :: rest, w =>
    let w1 := w.request mediaURL
    match env.get w.requests.length mediaURL with
    | .transportError e =>
      { world := w1.remove tempPath
        err := some ("failed to download segment " ++ decimal (i + 1) ++ ": " ++ e) }
    | .response statusCode body copyErr =>
      if statusCode ≠ 200 then
        { world := w1.remove tempPath
          err := some ("segment " ++ decimal (i + 1) ++ " download failed with status "
            ++ decimal statusCode) }
      else
        let w2 := w1.append tempPath body
        match copyErr with
        | some e =>
          { world := w2.remove tempPath
            err := some ("failed to write segment " ++ decimal (i + 1) ++ ": " ++ e) }
        | none => downloadMediaSegments env tempPath (i + 1) rest w2

/-- Lines 429-499: create the temporary container, fetch the initialization
segment, then every media segment.  Progress and speed reporting
(`SetDownloadProgress`, `SetDownloadSpeed`) has no effect on the files or the
requests and is left out. -/
def assembleSegments (env : DownloadEnv) (w : World) (tempPath initURL : String)
    (mediaURLs : List String) : Outcome :=
  match env.createErr tempPath with
  | some e => { world := w, err := some ("failed to create temp file: " ++ e) }
  | none =>
    let r := downloadInitSegment env (w.create tempPath) tempPath initURL
    match r.err with
    | some e => { world := r.world, err := some e }
    | none => downloadMediaSegments env tempPath 0 mediaURLs r.world

/-- Lines 504-528: locate and validate the transcoder, run it from the
temporary container to `outputPath`, then remove the container, or move it to
the `.m4a` path when the run fails.  `GetFFmpegPath` and `ValidateExecutable`
live outside the two files modelled here and are fields of the environment. -/
def convertToFlac (env : DownloadEnv) (w : World) (tempPath outputPath : String) : Outcome :=
  match env.ffmpegPath with
  | .error e => { world := w, err := some ("ffmpeg not found: " ++ e) }
  | .ok ffmpegPath =>
    match env.validateExecutable ffmpegPath with
    | some e => { world := w, err := some ("invalid ffmpeg executable: " ++ e) }
    | none =>
      let run := env.runFFmpeg
        [ffmpegPath, "-y", "-i", tempPath, "-vn", "-c:a", "flac", outputPath] (w.files tempPath)
      let w1 :=
        match run.output with
        | some b => w.store outputPath b
        | none => w
      match run.err with
      | some e =>
        let m4aPath := trimSuffix outputPath ".flac" ++ ".m4a"
        { world := w1.rename tempPath m4aPath
          err := some ("ffmpeg conversion failed (M4A saved as " ++ m4aPath ++ "): " ++ e
            ++ " - " ++ run.stderr) }
      | none => { world := w1.remove tempPath, err := none }

/-- The Go method `TidalDownloader.DownloadFromManifest`.  `none` is a call
that does not return. -/
def DownloadFromManifest (env : DownloadEnv) (w : World) (manifestB64 outputPath : String) :
    Option Outcome :=
  match parseManifest env.decoders manifestB64 with
  | none => none
  | some parsed =>
    match parsed.err with
    | some e => some { world := w, err := some ("failed to parse manifest: " ++ e) }
    | none =>
      if parsed.directURL ≠ "" then some (downloadDirect env w parsed.directURL outputPath)
      else
        let tempPath := outputPath ++ ".m4a.tmp"
        let r := assembleSegments env w tempPath parsed.initURL parsed.mediaURLs
        match r.err with
        | some e => some { world := r.world, err := some e }
        | none => some (convertToFlac env r.world tempPath outputPath)

/-- Follows the words of the specification, not the code: the salvage location
"output path without its extension, then the container's extension", that is
the path up to the last dot of its final element, followed by `.m4a`. -/
def salvagePathInWords (outputPath : String) : String :=
  let chars := outputPath.data
  let tail := chars.reverse.takeWhile (fun c => c != '.' && c != '/')
  let stem :=
    if (chars.reverse.drop tail.length).head? = some '.' then
      chars.take (chars.length - tail.length - 1)
    else chars
  String.mk stem ++ ".m4a"

/-! ## `AmazonDownloader` (`amazon.go`) -/

/-- One second as a `time.Duration`, in nanoseconds. -/
def second : Int := 1000000000

/-- The constant `time.Minute`. -/
def minute : Int := 60000000000

/-- The pieces of `strings.Split(s, sep)` for a non-empty `sep`; `skip` counts
the characters of a matched separator still to be dropped and `cur` is the
piece being collected. -/
def splitChars (sep : List Char) : Nat → List Char → List Char → List (List Char)
  | _, cur, [] => [cur]
  | skip + 1, cur, _ :: cs => splitChars sep skip cur cs
  | 0, cur, c :: cs =>
    if sep.isPrefixOf (c :: cs) then cur :: splitChars sep (sep.length - 1) [] cs
    else splitChars sep 0 (cur ++ [c]) cs

/-- The Go call `strings.Split(s, sep)` for a non-empty `sep`. -/
def split (s sep : String) : List String :=
  (splitChars sep.data 0 [] s.data).map String.mk

/-- The Go call `strings.Contains(s, sub)`. -/
def containsStr (s sub : String) : Bool :=
  s.data.tails.any (fun t => sub.data.isPrefixOf t)

/-- The rate-limiter fields of the Go struct `AmazonDownloader`.  A zero
`time.Time` is `none`; other times are monotonic clock readings in nanoseconds. -/
structure AmazonDownloader where
  lastAPICallTime : Option Nat
  apiCallCount : Int
  apiCallResetTime : Nat
  deriving Repr, DecidableEq

/-- An HTTP response: the status code and what `io.ReadAll(resp.Body)` gives. -/
structure Response where
  statusCode : Int
  body : Except String String

/-- The Go struct `SongLinkResponse`: platform name and URL of each entry of
`linksByPlatform`. -/
structure SongLinkResponse where
  LinksByPlatform : List (String × String)

/-- The statement that put the caller to sleep. -/
inductive SleepReason where
  | quota
  | spacing
  | cooldown
  deriving Repr, DecidableEq

/-- What `GetAmazonURLFromSpotify` meets outside the repository.  `delay n` is
the time that passes, beyond any requested sleep, at the `n`-th step that reads
or spends time; `respond k id` is the outcome of the request issued after `k`
earlier ones. -/
structure AmazonEnv where
  delay : Nat → Nat
  respond : Nat → String → Except String Response
  jsonUnmarshalSongLink : String → Except String SongLinkResponse

/-- A downloader at work: the monotonic clock, the number of timed steps and
of requests so far, the downloader fields, and two records kept for the
statements below: every value stored in `lastAPICallTime`, oldest first, and
every `time.Sleep` made. -/
structure Session where
  clock : Nat
  tick : Nat
  requests : Nat
  a : AmazonDownloader
  recorded : List Nat
  sleeps : List (SleepReason × Int)

/-- The call `time.Now()`: some time passes, the clock is read. -/
def Session.timeNow (env : AmazonEnv) (s : Session) : Nat × Session :=
  (s.clock + env.delay s.tick, { s with clock := s.clock + env.delay s.tick, tick := s.tick + 1 })

/-- The call `time.Sleep(d)`: at least `d` passes. -/
def Session.sleep (env : AmazonEnv) (s : Session) (reason : SleepReason) (d : Int) : Session :=
  { s with
    clock := s.clock + d.toNat + env.delay s.tick
    tick := s.tick + 1
    sleeps := s.sleeps ++ [(reason, d)] }

/-- The call `a.client.Do(req)`: the request takes some time and is answered. -/
def Session.clientDo (env : AmazonEnv) (s : Session) (spotifyTrackID : String) :
    Except String Response × Session :=
  (env.respond s.requests spotifyTrackID,
    { s with clock := s.clock + env.delay s.tick, tick := s.tick + 1, requests := s.requests + 1 })

/-- Lines 116-117: `a.lastAPICallTime = time.Now(); a.apiCallCount++`. -/
def Session.recordCall (env : AmazonEnv) (s : Session) : Session :=
  let (t, s1) := s.timeNow env
  { s1 with
    a := { s1.a with lastAPICallTime := some t, apiCallCount := wrapInt64 (s1.a.apiCallCount + 1) }
    recorded := s1.recorded ++ [t] }

/-- The constructor `NewAmazonDownloader`, called when the clock reads `t0`. -/
def newSession (t0 : Nat) : Session :=
  { clock := t0, tick := 0, requests := 0
    a := { lastAPICallTime := none, apiCallCount := 0, apiCallResetTime := t0 }
    recorded := [], sleeps := [] }

/-- Lines 68-71: a window that is a minute old is reset.  `now.Sub(t)` is
`now - t`; clock readings less than 292 years apart keep it below the
saturation point of `time.Duration`. -/
def resetWindow (now : Nat) (s : Session) : Session :=
  if (now : Int) - (s.a.apiCallResetTime : Int) ≥ minute then
    { s with a := { s.a with apiCallCount := 0, apiCallResetTime := now } }
  else s

/-- Lines 73-81: with nine calls counted, sleep to the end of the window and
open a new one. -/
def quotaWait (env : AmazonEnv) (now : Nat) (s : Session) : Session :=
  if s.a.apiCallCount ≥ 9 then
    let waitTime := minute - ((now : Int) - (s.a.apiCallResetTime : Int))
    if waitTime > 0 then
      let s1 := s.sleep env SleepReason.quota waitTime
      let (t, s2) := s1.timeNow env
      { s2 with a := { s2.a with apiCallCount := 0, apiCallResetTime := t } }
    else s
  else s

/-- Lines 83-91: sleep until seven seconds separate `now` from the last call. -/
def spacingWait (env : AmazonEnv) (now : Nat) (s : Session) : Session :=
  match s.a.lastAPICallTime with
  | none => s
  | some last =>
    let timeSinceLastCall := (now : Int) - (last : Int)
    let minDelay := 7 * second
    if timeSinceLastCall < minDelay then
      s.sleep env SleepReason.spacing (minDelay - timeSinceLastCall)
    else s

/-- Lines 67-91 of `GetAmazonURLFromSpotify`: `now := time.Now()`, then the
window reset, the quota wait and the spacing wait, all against that `now`. -/
def rateLimitWait (env : AmazonEnv) (s : Session) : Session :=
  let (now, s1) := s.timeNow env
  spacingWait env now (quotaWait env now (resetWindow now s1))

/-- Lines 110-136: `for i := 0; i < maxRetries; i++`, entered at counter `i`
with `fuel = maxRetries - i` iterations left and `resp` the response held so
far.  `.ok resp` is the loop left by `break` or by its condition. -/
def requestLoop (env : AmazonEnv) (spotifyTrackID : String) (maxRetries : Int) :
    Nat → Int → Option Response → Session → Session × Except String (Option Response)
  | 0, _, resp, s => (s, .ok resp)
  | fuel + 1, i, _, s =>
    match s.clientDo env spotifyTrackID with
    | (.error e, s1) => (s1, .error ("failed to get Amazon URL: " ++ e))
    | (.ok resp, s1) =>
      let s2 := s1.recordCall env
      if resp.statusCode = 429 then
        if i < maxRetries - 1 then
          requestLoop env spotifyTrackID maxRetries fuel (i + 1) (some resp)
            (s2.sleep env SleepReason.cooldown (15 * second))
        else
          (s2, .error ("API rate limit exceeded after " ++ decimal maxRetries ++ " retries"))
      else if resp.statusCode ≠ 200 then
        (s2, .error ("API returned status " ++ decimal resp.statusCode))
      else (s2, .ok (some resp))

/-- The excerpt of a body quoted in a decode error (`amazon.go`, lines 151-154;
`qobuz.go`, lines 184-187): `if len(bodyStr) > 200 { bodyStr = bodyStr[:200] +
"..." }`, a cut at 200 bytes. -/
def excerpt (bodyStr : String) : String :=
  if byteLen bodyStr > 200 then String.mk (sliceBytes 200 bodyStr.data) ++ "..." else bodyStr

/-- Lines 139-175: read the body, decode it, pick the `amazonMusic` link and
rewrite a `trackAsin=` link to the track page. -/
def decodeAmazonURL (env : AmazonEnv) (resp : Response) : Except String String :=
  match resp.body with
  | .error e => .error ("failed to read response body: " ++ e)
  | .ok body =>
    if body.data.length = 0 then .error "API returned empty response"
    else
      match env.jsonUnmarshalSongLink body with
      | .error e =>
        .error ("failed to decode response: " ++ e ++ " (response: " ++ excerpt body ++ ")")
      | .ok songLinkResp =>
        match songLinkResp.LinksByPlatform.lookup "amazonMusic" with
        | none => .error "amazon Music link not found"
        | some amazonURL =>
          if amazonURL = "" then .error "amazon Music link not found"
          else if containsStr amazonURL "trackAsin=" then
            match split amazonURL "trackAsin=" with
            | _ :: afterKey :: _ =>
              let trackAsin := (split afterKey "&").headD ""
              .ok ("https://music.amazon.com/tracks/" ++ trackAsin ++ "?musicTerritory=US")
            | _ => .ok amazonURL
          else .ok amazonURL

/-- The Go method `AmazonDownloader.GetAmazonURLFromSpotify`, `maxRetries = 3`.
`http.NewRequest` cannot fail on the URL built at lines 93-97 (a fixed prefix
followed by a query-escaped value), and the loop runs at least once, so it is
never left with a nil `resp`. -/
def GetAmazonURLFromSpotify (env : AmazonEnv) (spotifyTrackID : String) (s : Session) :
    Session × Except String String :=
  let s1 := rateLimitWait env s
  match requestLoop env spotifyTrackID 3 3 0 none s1 with
  | (s2, .error e) => (s2, .error e)
  | (s2, .ok none) => (s2, .error "no response")
  | (s2, .ok (some resp)) => (s2, decodeAmazonURL env resp)

/-- A sequence of calls on one downloader, one per track id. -/
def runCalls (env : AmazonEnv) : List String → Session → Session
  | [], s => s
  | spotifyTrackID :: rest, s => runCalls env rest (GetAmazonURLFromSpotify env spotifyTrackID s).1

/-- Two clock readings at least seven seconds apart, in this order. -/
def spaced (t1 t2 : Nat) : Prop := t1 + 7000000000 ≤ t2

instance spaced_isTrans : IsTrans Nat spaced :=
  ⟨fun a b c h1 h2 => by unfold spaced at *; omega⟩

/-- The recorded calls are spaced, the last of them is what `lastAPICallTime`
holds, and it lies at least `margin` nanoseconds before the clock. -/
def Session.paced (s : Session) (margin : Nat) : Prop :=
  List.Chain' spaced s.recorded ∧
  s.a.lastAPICallTime = s.recorded.getLast? ∧
  ∀ t, s.recorded.getLast? = some t → t + margin ≤ s.clock

/-- The cool-down sleeps among the sleeps made. -/
def cooldowns (sleeps : List (SleepReason × Int)) : List Int :=
  (sleeps.filter (fun x => x.1 = SleepReason.cooldown)).map (fun x => x.2)

/-- A fetch that does not deliver its segment: no response, a status other
than 200, or a copy that stops with an error. -/
def GetResult.failed : GetResult → Bool
  | .transportError _ => true
  | .response statusCode _ copyErr => decide (statusCode ≠ 200) || copyErr.isSome

/-- The error values of lines 440, 446 and 453: what `DownloadFromManifest`
returns when the fetch of the initialization segment ends as given. -/
def initSegmentError : GetResult → String
  | .transportError e => "failed to download init segment: " ++ e
  | .response statusCode _ copyErr =>
    if statusCode ≠ 200 then "init segment download failed with status " ++ decimal statusCode
    else "failed to write init segment: " ++ copyErr.getD ""

/-- The error values of lines 466, 472 and 480 for the media segment numbered
`segment` (counted from 1). -/
def mediaSegmentError (segment : Int) : GetResult → String
  | .transportError e => "failed to download segment " ++ decimal segment ++ ": " ++ e
  | .response statusCode _ copyErr =>
    if statusCode ≠ 200 then
      "segment " ++ decimal segment ++ " download failed with status " ++ decimal statusCode
    else "failed to write segment " ++ decimal segment ++ ": " ++ copyErr.getD ""

/-! ## `getDownloadURLParallel` (`tidal.go`, lines 843-934) -/

/-- The Go call `strings.TrimPrefix(s, p)`. -/
def trimPrefix (s p : String) : String :=
  if hasPrefix s p then String.mk (s.data.drop p.data.length) else s

/-- The Go struct `manifestResult`: what one mirror worker sends on the result
channel.  `err = none` is the `nil` error. -/
structure manifestResult where
  apiURL : String
  manifest : String
  err : Option String
  deriving Repr, DecidableEq

/-- Lines 919-922: `if len(errMsg) > 50 { errMsg = errMsg[:50] + "..." }`, a
message longer than 50 bytes is cut at byte 50 and followed by three dots. -/
def truncateError (errMsg : String) : String :=
  if byteLen errMsg > 50 then String.mk (sliceBytes 50 errMsg.data) ++ "..." else errMsg

/-- How the coordinator ends: it returns its three values, it calls `Error()`
on a nil error, or it waits on a channel that no worker will write to. -/
inductive RaceEnd where
  | returned (apiURL location : String) (err : Option String)
  | panicked
  | blocked
  deriving Repr, DecidableEq

/-- The end of the coordinator and the content of its `errors` slice at that
point, which is what it prints when every mirror has failed. -/
structure RaceOutcome where
  ending : RaceEnd
  errors : List String
  deriving Repr, DecidableEq

/-- Lines 907-933: `for i := 0; i < len(apis); i++ { result := <-resultChan ... }`
with `fuel = len(apis) - i` receives left; `arrivals` are the values the
channel delivers, in the order it delivers them; `n` is `len(apis)`. -/
def drainResults (n : Nat) :
    Nat → List manifestResult → Option String → List String → RaceOutcome
  | 0, _, lastError, errors =>
    { ending := RaceEnd.returned "" ""
        (some ("all " ++ decimal n ++ " APIs failed. Last error: " ++ lastError.getD "<nil>"))
      errors := errors }
  | _ + 1, [], _, errors => { ending := RaceEnd.blocked, errors := errors }
  | fuel + 1, result :: rest, _, errors =>
    if result.err = none ∧ result.manifest ≠ "" then
      if hasPrefix result.manifest "DIRECT:" then
        { ending := RaceEnd.returned result.apiURL (trimPrefix result.manifest "DIRECT:") none
          errors := errors }
      else
        { ending := RaceEnd.returned result.apiURL ("MANIFEST:" ++ result.manifest) none
          errors := errors }
    else
      match result.err with
      | none => { ending := RaceEnd.panicked, errors := errors }
      | some errMsg =>
        drainResults n fuel rest (some errMsg)
          (errors ++ [result.apiURL ++ ": " ++ truncateError errMsg])

/-- The coordinator of the Go function `getDownloadURLParallel`: one worker
per entry of `apis` is started and the results are taken from the channel as
they arrive.  The workers appear here through `arrivals` only. -/
def getDownloadURLParallel (apis : List String) (arrivals : List manifestResult) : RaceOutcome :=
  if apis.length = 0 then
    { ending := RaceEnd.returned "" "" (some "no APIs available"), errors := [] }
  else drainResults apis.length apis.length arrivals none []

/-! ## `DownloadFromService` (`amazon.go`, lines 178-358) -/

/-- The Go struct `DoubleDoubleSubmitResponse`. -/
structure DoubleDoubleSubmitResponse where
  Success : Bool
  ID : String
  deriving Repr, DecidableEq

/-- The Go struct `DoubleDoubleStatusResponse`; `CurrentName` and
`CurrentArtist` are `Current.Name` and `Current.Artist`. -/
structure DoubleDoubleStatusResponse where
  Status : String
  FriendlyStatus : String
  URL : String
  CurrentName : String
  CurrentArtist : String
  deriving Repr, DecidableEq

/-- What `a.client.Do(req)` gives on a JSON endpoint and, for a response, what
`json.NewDecoder(resp.Body).Decode` makes of its body. -/
inductive JsonExchange (α : Type) where
  | transportError (msg : String)
  | response (statusCode : Int) (decoded : Except String α)

/-- Everything `DownloadFromService` obtains from outside the repository.
`submit k url`, `status k url` and `download k url` are the outcome of the
request issued after `k` earlier ones, read as a submit, a status check or a
file download; `newRequestErr url` is the error of `http.NewRequest`. -/
structure ServiceEnv where
  queryEscape : String → String
  filepathJoin : String → String → String
  newRequestErr : String → Option String
  submit : Nat → String → JsonExchange DoubleDoubleSubmitResponse
  status : Nat → String → JsonExchange DoubleDoubleStatusResponse
  download : Nat → String → GetResult
  createErr : String → Option String

/-- The white space `strings.TrimSpace` removes (`unicode.IsSpace`). -/
def isSpace (c : Char) : Bool :=
  [9, 10, 11, 12, 13, 32, 133, 160, 5760, 8232, 8233, 8239, 8287, 12288].contains c.toNat
    || (decide (8192 ≤ c.toNat) && decide (c.toNat ≤ 8202))

/-- The Go call `strings.TrimSpace(s)`. -/
def trimSpace (s : String) : String :=
  String.mk ((s.data.dropWhile isSpace).reverse.dropWhile isSpace).reverse

/-- Lines 301-305: the file name built from the artist and track name of the
job status, with the characters `<>:"/\|?*` removed and the ends trimmed. -/
def sanitizeFileName (artist trackName : String) : String :=
  let fileName := artist ++ " - " ++ trackName ++ ".flac"
  let fileName := "<>:\"/\\|?*".data.foldl
    (fun name char => replaceAll name (String.singleton char) "") fileName
  trimSpace fileName

/-- Lines 269-274: a relative file URL is resolved against the region's base. -/
def resolveFileURL (baseURL fileURL : String) : String :=
  if hasPrefix fileURL "./" then baseURL ++ "/" ++ String.mk (fileURL.data.drop 2)
  else if hasPrefix fileURL "/" then baseURL ++ fileURL
  else fileURL

/-- How the `done` branch (lines 266-327) ends: `return filePath, nil`, the
`return` after a failed copy, or `break` with `lastError` set. -/
inductive FileEnd where
  | saved (filePath : String)
  | aborted (err : String)
  | failed (lastError : String)
  deriving Repr, DecidableEq

/-- Lines 269-327: fetch the finished file and write it under `outputDir`. -/
def fetchFile (env : ServiceEnv) (w : World) (baseURL outputDir : String)
    (status : DoubleDoubleStatusResponse) : World × FileEnd :=
  let fileURL := resolveFileURL baseURL status.URL
  match env.newRequestErr fileURL with
  | some e => (w, FileEnd.failed ("failed to create download request: " ++ e))
  | none =>
    let w1 := w.request fileURL
    match env.download w.requests.length fileURL with
    | .transportError e => (w1, FileEnd.failed ("failed to download file: " ++ e))
    | .response statusCode body copyErr =>
      if statusCode ≠ 200 then
        (w1, FileEnd.failed ("download failed with status " ++ decimal statusCode))
      else
        let filePath :=
          env.filepathJoin outputDir (sanitizeFileName status.CurrentArtist status.CurrentName)
        match env.createErr filePath with
        | some e => (w1, FileEnd.failed ("failed to create file: " ++ e))
        | none =>
          let w2 := (w1.create filePath).append filePath body
          match copyErr with
          | some e => (w2, FileEnd.aborted ("failed to write file: " ++ e))
          | none => (w2, FileEnd.saved filePath)

/-- How the poll loop (lines 235-344) is left: by the `done` branch, by `break`
on status `error` with `lastError` set, or by its condition. -/
inductive PollEnd where
  | done (status : DoubleDoubleStatusResponse)
  | failed (lastError : String)
  | expired
  deriving Repr, DecidableEq

/-- The state in which the poll loop is left: `elapsed` is the Go variable of
that name and `ticks` the number of iterations made, each of which slept
`pollInterval` once. -/
structure PollResult where
  world : World
  elapsed : Int
  ticks : Nat
  ending : PollEnd

/-- Lines 239-343: one status check.  `none` is an iteration that ends by
`continue` or falls through to the next one; the `done` branch is `fetchFile`,
run by the caller. -/
def statusCheck (env : ServiceEnv) (statusURL : String) (w : World) : World × Option PollEnd :=
  match env.newRequestErr statusURL with
  | some _ => (w, none)
  | none =>
    let w1 := w.request statusURL
    match env.status w.requests.length statusURL with
    | .transportError _ => (w1, none)
    | .response statusCode decoded =>
      if statusCode ≠ 200 then (w1, none)
      else
        match decoded with
        | .error _ => (w1, none)
        | .ok status =>
          if status.Status = "done" then (w1, some (PollEnd.done status))
          else if status.Status = "error" then
            let errorMsg :=
              if status.FriendlyStatus = "" then "Unknown error" else status.FriendlyStatus
            (w1, some (PollEnd.failed ("processing failed: " ++ errorMsg)))
          else (w1, none)

/-- Lines 235-344: `for elapsed < maxWait { time.Sleep(pollInterval); elapsed +=
pollInterval; ... }`, entered with the given `elapsed` and `ticks`.  `maxWait`
and `pollInterval` are the constants of lines 231 and 233, kept as parameters;
they are durations far below the 64-bit range, so `elapsed` does not wrap.
`none` means the loop has not finished within `fuel` iterations. -/
def pollLoop (env : ServiceEnv) (statusURL : String) (maxWait pollInterval : Int) :
    Nat → Int → Nat → World → Option PollResult
  | 0, elapsed, ticks, w =>
    if elapsed < maxWait then none
    else some { world := w, elapsed := elapsed, ticks := ticks, ending := PollEnd.expired }
  | fuel + 1, elapsed, ticks, w =>
    if elapsed < maxWait then
      match statusCheck env statusURL w with
      | (w1, some ending) =>
        some { world := w1, elapsed := elapsed + pollInterval, ticks := ticks + 1
               ending := ending }
      | (w1, none) =>
        pollLoop env statusURL maxWait pollInterval fuel (elapsed + pollInterval) (ticks + 1) w1
    else some { world := w, elapsed := elapsed, ticks := ticks, ending := PollEnd.expired }

/-- The number of iterations after which `elapsed`, grown from zero by a
positive `pollInterval` at a time, is no longer below `maxWait`:
`maxWait / pollInterval` rounded up. -/
def ticksNeeded (maxWait pollInterval : Int) : Nat :=
  ((maxWait + pollInterval - 1) / pollInterval).toNat

/-- The poll loop run from `elapsed = 0`, for a positive `pollInterval`. -/
def pollUntilTerminal (env : ServiceEnv) (statusURL : String) (maxWait pollInterval : Int)
    (w : World) : Option PollResult :=
  pollLoop env statusURL maxWait pollInterval (ticksNeeded maxWait pollInterval) 0 0 w

/-- Lines 346-350: once the loop is left without a `return`, an `elapsed` that
has reached `maxWait` makes the failure a timeout. -/
def afterPollLoop (maxWait elapsed : Int) (lastError : Option String) : Option String :=
  if elapsed ≥ maxWait then some "download timeout" else lastError

/-- One iteration of `for _, region := range a.regions`: the world and the
variable `lastError` when it ends, and the values returned if the function
returned from inside it. -/
structure RegionResult where
  world : World
  lastError : Option String
  returned : Option (String × Option String)

/-- Lines 182-354: one region, entered with the given `lastError`.  `none` is
a poll loop that does not finish. -/
def attemptRegion (env : ServiceEnv) (maxWait pollInterval : Int)
    (amazonURL outputDir region : String) (lastError : Option String) (w : World) :
    Option RegionResult :=
  let baseURL := "https://" ++ region ++ ".doubledouble.top"
  let submitURL := baseURL ++ "/dl?url=" ++ env.queryEscape amazonURL
  match env.newRequestErr submitURL with
  | some e =>
    some { world := w, lastError := some ("failed to create request: " ++ e), returned := none }
  | none =>
    let w1 := w.request submitURL
    match env.submit w.requests.length submitURL with
    | .transportError e =>
      some { world := w1, lastError := some ("failed to submit request: " ++ e), returned := none }
    | .response statusCode decoded =>
      if statusCode ≠ 200 then
        some { world := w1, lastError := some ("submit failed with status " ++ decimal statusCode)
               returned := none }
      else
        match decoded with
        | .error e =>
          some { world := w1, lastError := some ("failed to decode submit response: " ++ e)
                 returned := none }
        | .ok submitResp =>
          if submitResp.Success = false ∨ submitResp.ID = "" then
            some { world := w1, lastError := some "submit request failed", returned := none }
          else
            let statusURL := baseURL ++ "/dl/" ++ submitResp.ID
            match pollUntilTerminal env statusURL maxWait pollInterval w1 with
            | none => none
            | some poll =>
              match poll.ending with
              | PollEnd.done status =>
                match fetchFile env poll.world baseURL outputDir status with
                | (w2, FileEnd.saved filePath) =>
                  some { world := w2, lastError := lastError, returned := some (filePath, none) }
                | (w2, FileEnd.aborted e) =>
                  some { world := w2, lastError := lastError, returned := some ("", some e) }
                | (w2, FileEnd.failed e) =>
                  some { world := w2, lastError := afterPollLoop maxWait poll.elapsed (some e)
                         returned := none }
              | PollEnd.failed e =>
                some { world := poll.world
                       lastError := afterPollLoop maxWait poll.elapsed (some e)
                       returned := none }
              | PollEnd.expired =>
                some { world := poll.world
                       lastError := afterPollLoop maxWait poll.elapsed lastError
                       returned := none }

/-- The values `DownloadFromService` returns, and the world it leaves. -/
structure ServiceResult where
  world : World
  filePath : String
  err : Option String

/-- Lines 179-357: the loop over the regions still to try, and the final
`return` when none is left. -/
def regionLoop (env : ServiceEnv) (maxWait pollInterval : Int) (amazonURL outputDir : String) :
    List String → Option String → World → Option ServiceResult
  | [], lastError, w =>
    some { world := w, filePath := ""
           err := some ("all regions failed. Last error: " ++ lastError.getD "<nil>") }
  | region :: rest, lastError, w =>
    match attemptRegion env maxWait pollInterval amazonURL outputDir region lastError w with
    | none => none
    | some r =>
      match r.returned with
      | some (filePath, err) => some { world := r.world, filePath := filePath, err := err }
      | none => regionLoop env maxWait pollInterval amazonURL outputDir rest r.lastError r.world

/-- The Go method `AmazonDownloader.DownloadFromService`; `regions` is
`a.regions`, and the wait policy is the one of lines 231-233: 300 seconds at
most, polled every 3 seconds. -/
def DownloadFromService (env : ServiceEnv) (regions : List String)
    (amazonURL outputDir : String) (w : World) : Option ServiceResult :=
  regionLoop env (300 * second) (3 * second) amazonURL outputDir regions none w

/-- The state after every region of the list has been tried and has failed
without ending the call; `none` when one of them does not fail in that way. -/
def failThrough (env : ServiceEnv) (maxWait pollInterval : Int) (amazonURL outputDir : String) :
    List String → Option String → World → Option (Option String × World)
  | [], lastError, w => some (lastError, w)
  | region :: rest, lastError, w =>
    match attemptRegion env maxWait pollInterval amazonURL outputDir region lastError w with
    | none => none
    | some r =>
      match r.returned with
      | some _ => none
      | none => failThrough env maxWait pollInterval amazonURL outputDir rest r.lastError r.world

/-- A status exchange that reports neither `done` nor `error`: a failed
request, a status other than 200, an undecodable body, or any other job
status. -/
def JsonExchange.quiet : JsonExchange DoubleDoubleStatusResponse → Bool
  | .transportError _ => true
  | .response statusCode decoded =>
    decide (statusCode ≠ 200) ||
      match decoded with
      | .error _ => true
      | .ok status => decide (status.Status ≠ "done") && decide (status.Status ≠ "error")

/-! ## Direct downloads (`tidal.go`, lines 352-385; `qobuz.go`, lines 199-233) -/

/-- The Go method `TidalDownloader.DownloadFile`.  `none` is a call that does
not return (a manifest whose expansion loop never exits). -/
def TidalDownloader.DownloadFile (env : DownloadEnv) (w : World) (url filepath : String) :
    Option Outcome :=
  if hasPrefix url "MANIFEST:" then
    DownloadFromManifest env w (trimPrefix url "MANIFEST:") filepath
  else
    let w1 := w.request url
    match env.get w.requests.length url with
    | .transportError e => some { world := w1, err := some ("failed to download file: " ++ e) }
    | .response statusCode body copyErr =>
      if statusCode ≠ 200 then
        some { world := w1, err := some ("download failed with status " ++ decimal statusCode) }
      else
        match env.createErr filepath with
        | some e => some { world := w1, err := some ("failed to create file: " ++ e) }
        | none =>
          let w2 := (w1.create filepath).append filepath body
          match copyErr with
          | some e => some { world := w2, err := some ("failed to write file: " ++ e) }
          | none => some { world := w2, err := none }

/-- The Go method `QobuzDownloader.DownloadFile`; its own `downloadClient`
differs from the other clients by its timeout only, so requests are answered
by the same field of the environment. -/
def QobuzDownloader.DownloadFile (env : DownloadEnv) (w : World) (url filepath : String) :
    Outcome :=
  let w1 := w.request url
  match env.get w.requests.length url with
  | .transportError e => { world := w1, err := some ("failed to download file: " ++ e) }
  | .response statusCode body copyErr =>
    if statusCode ≠ 200 then
      { world := w1, err := some ("download failed with status " ++ decimal statusCode) }
    else
      match env.createErr filepath with
      | some e => { world := w1, err := some ("failed to create file: " ++ e) }
      | none =>
        let w2 := (w1.create filepath).append filepath body
        match copyErr with
        | some e => { world := w2, err := some ("failed to write file: " ++ e) }
        | none => { world := w2, err := none }

/-! ## `QobuzDownloader.GetDownloadURL` (`qobuz.go`, lines 122-197) -/

/-- What `q.client.Get(url)` gives and, for a response, what `io.ReadAll` makes
of its body: the text read and the error it stopped with (`none` for `nil`). -/
inductive ApiReply where
  | transportError (msg : String)
  | response (statusCode : Int) (body : String) (readErr : Option String)
  deriving Repr, DecidableEq

/-- The call `fmt.Sscanf(text, "%d", &trackID)` on an `int64`, for a `text`
without leading white space: an optional sign, then a non-empty run of digits
whose value fits in 64 bits; what follows the digits is left unread.  A text
that ends before a digit is read gives `io.EOF`. -/
def sscanInt64 (text : List Char) : Except String Int :=
  let sign : List Char :=
    match text with
    | c :: _ => if c = '+' ∨ c = '-' then [c] else []
    | [] => []
  let rest := text.drop sign.length
  let digits := rest.takeWhile isDigit
  if rest = [] then .error "EOF"
  else if digits = [] then .error "expected integer"
  else
    let value : Int :=
      if sign = ['-'] then -(digitsValue digits : Int) else (digitsValue digits : Int)
    if minInt64 ≤ value ∧ value ≤ maxInt64 then .ok value
    else
      .error ("strconv.ParseInt: parsing \"" ++ String.mk (sign ++ digits)
        ++ "\": value out of range")

/-- The Go method `TidalDownloader.GetTrackIDFromURL`. -/
def GetTrackIDFromURL (tidalURL : String) : Except String Int :=
  match split tidalURL "/track/" with
  | _ :: second :: _ =>
    let trackIDStr := (split second "?").headD ""
    let trackIDStr := trimSpace trackIDStr
    match sscanInt64 trackIDStr.data with
    | .error e => .error ("failed to parse track ID: " ++ e)
    | .ok trackID => .ok trackID
  | _ => .error "invalid tidal URL format"

/-! ## The mirror workers (`tidal.go`, lines 857-901) -/

/-- The Go struct `TidalAPIResponse`. -/
structure TidalAPIResponse where
  OriginalTrackURL : String
  deriving Repr, DecidableEq

/-- The Go struct `TidalAPIResponseV2`, reduced to the field the worker reads:
`Manifest` is `Data.Manifest`. -/
structure TidalAPIResponseV2 where
  Manifest : String
  deriving Repr, DecidableEq

/-- What a mirror worker obtains from outside the repository: the reply to its
one request and the two decodings of a body. -/
structure MirrorEnv where
  get : String → ApiReply
  jsonUnmarshalV2 : String → Except String TidalAPIResponseV2
  jsonUnmarshalV1 : String → Except String (List TidalAPIResponse)

/-- Lines 889-898: the first item of a decoded v1 answer that has a track URL. -/
def firstTrackURL (env : MirrorEnv) (body : String) : Option String :=
  match env.jsonUnmarshalV1 body with
  | .error _ => none
  | .ok v1Responses =>
    (v1Responses.find? (fun item => decide (item.OriginalTrackURL ≠ ""))).map
      (fun item => item.OriginalTrackURL)

/-- The goroutine started at line 858 for the mirror `api`: the values it
sends on `resultChan` before it ends, in order. -/
def mirrorWorker (env : MirrorEnv) (trackID : Int) (quality api : String) : List manifestResult :=
  let url := api ++ "/track/?id=" ++ decimal trackID ++ "&quality=" ++ quality
  match env.get url with
  | .transportError e => [{ apiURL := api, manifest := "", err := some e }]
  | .response statusCode body readErr =>
    if statusCode ≠ 200 then
      [{ apiURL := api, manifest := "", err := some ("HTTP " ++ decimal statusCode) }]
    else
      match readErr with
      | some e => [{ apiURL := api, manifest := "", err := some e }]
      | none =>
        let v2Manifest : String :=
          match env.jsonUnmarshalV2 body with
          | .ok v2Response => v2Response.Manifest
          | .error _ => ""
        if v2Manifest ≠ "" then [{ apiURL := api, manifest := v2Manifest, err := none }]
        else
          match firstTrackURL env body with
          | some trackURL => [{ apiURL := api, manifest := "DIRECT:" ++ trackURL, err := none }]
          | none =>
            [{ apiURL := api, manifest := ""
               err := some "no download URL or manifest in response" }]

/-- One step of the channel: a worker sends a value or the coordinator takes
the oldest one. -/
inductive ChanEvent where
  | send (r : manifestResult)
  | receive
  deriving Repr, DecidableEq

/-- The value a step sends, if it is a send. -/
def ChanEvent.sent : ChanEvent → Option manifestResult
  | .send r => some r
  | .receive => none

/-- The buffer of a channel made by `make(chan manifestResult, capacity)` after
the given steps, started with `queued` in it.  `none` is a send that finds the
buffer full and has to wait; a receive on an empty buffer takes nothing. -/
def runChannel (capacity : Nat) : List ChanEvent → List manifestResult →
    Option (List manifestResult)
  | [], queued => some queued
  | .send r :: rest, queued =>
    if queued.length < capacity then runChannel capacity rest (queued ++ [r]) else none
  | .receive :: rest, queued => runChannel capacity rest queued.tail

/-- A status check that fails: no response, a status other than 200, or a body
that does not decode. -/
def JsonExchange.checkFailed : JsonExchange DoubleDoubleStatusResponse → Bool
  | .transportError _ => true
  | .response statusCode decoded =>
    decide (statusCode ≠ 200) ||
      match decoded with
      | .error _ => true
      | .ok _ => false

/-! ## Sample documents -/

/-- Decoders fixed on one document: the transport text `b64` decodes to `text`,
and `text` parses to the given JSON and XML outcomes; any other input is
rejected. -/
def decodersFor (b64 text : String) (json : Except String TidalBTSManifest)
    (xml : Except String MPD) : Decoders :=
  { base64Decode := fun s => if s = b64 then .ok text else .error "illegal base64 data"
    jsonUnmarshalBTS := fun s => if s = text then json else .error "unexpected end of JSON input"
    xmlUnmarshalMPD := fun s => if s = text then xml else .error "EOF" }

/-- A DASH document with one timeline entry `d=1` and the given `r`. -/
def dashText (r : String) : String :=
  "<MPD><Period><AdaptationSet><Representation><SegmentTemplate initialization=\"init.mp4\" media=\"seg-$Number$.m4s\"><SegmentTimeline><S d=\"1\" r=\"" ++ r ++ "\"/></SegmentTimeline></SegmentTemplate></Representation></AdaptationSet></Period></MPD>"

/-- What `xml.Unmarshal` stores for `dashText r` when `r` is the decimal text of `n`. -/
def dashMPD (n : Int) : MPD :=
  { SegmentTemplate :=
      { Initialization := "init.mp4", Media := "seg-$Number$.m4s",
        Segments := [{ Duration := 1, Repeat := n }] } }

/-- Decoders for the DASH document with timeline `[d=1 r=2]`. -/
def sampleDashDecoders : Decoders :=
  decodersFor "dash" (dashText "2") (.error "invalid character") (.ok (dashMPD 2))

/-- Decoders for the DASH document whose single entry repeats `2^63 - 1` times. -/
def overflowDashDecoders : Decoders :=
  decodersFor "dash" (dashText "9223372036854775807") (.error "invalid character")
    (.ok (dashMPD 9223372036854775807))

/-- Decoders for the DASH document whose single entry repeats `2^63 - 2` times. -/
def endlessDashDecoders : Decoders :=
  decodersFor "dash" (dashText "9223372036854775806") (.error "invalid character")
    (.ok (dashMPD 9223372036854775806))

/-- The BTS document of end-to-end scenario 1. -/
def sampleBtsText : String := "\x7b\"urls\":[\"https://host/a.flac\"]\x7d"

/-- Decoders for `sampleBtsText`. -/
def sampleBtsDecoders : Decoders :=
  decodersFor "bts" sampleBtsText
    (.ok { MimeType := "", Codecs := "", EncryptionType := "", URLs := ["https://host/a.flac"] })
    (.error "EOF")

/-- A document that is not well-formed: `SegmentTemplate` is never closed. -/
def malformedDashText : String :=
  "<MPD><SegmentTemplate initialization=\"init.mp4\" media=\"seg-$Number$.m4s\"></MPD>"

/-- Decoders for `malformedDashText`, with the syntax error `xml.Unmarshal` reports. -/
def malformedDashDecoders : Decoders :=
  decodersFor "dash" malformedDashText (.error "invalid character")
    (.error "XML syntax error on line 1: element <SegmentTemplate> closed by </MPD>")

/-- A well-formed document that keeps `SegmentTemplate` beside `Representation`
instead of inside it. -/
def siblingDashText : String :=
  "<MPD><Period><AdaptationSet><SegmentTemplate initialization=\"init.mp4?a=1&amp;b=2\" media=\"seg-$Number$.m4s\"><SegmentTimeline><S d=\"1\" r=\"2\"/></SegmentTimeline></SegmentTemplate><Representation/></AdaptationSet></Period></MPD>"

/-- Decoders for `siblingDashText`: `xml.Unmarshal` succeeds and finds nothing
on the path it reads. -/
def siblingDashDecoders : Decoders :=
  decodersFor "dash" siblingDashText (.error "invalid character")
    (.ok { SegmentTemplate := { Initialization := "", Media := "", Segments := [] } })

/-! ## Sample runs -/

/-- A disk without files and an empty request log. -/
def emptyWorld : World := { files := fun _ => none, requests := [] }

/-- An environment for the scenario-2 manifest in which every request is
answered with status 200 and a one-byte body holding the request number, every
file can be created, and the transcoder lookup, its validation and its run are
as given. -/
def sampleEnv (ffmpegPath : Except String String) (validation : Option String)
    (run : FFmpegRun) : DownloadEnv :=
  { decoders := sampleDashDecoders
    get := fun k _ => .response 200 [UInt8.ofNat k] none
    createErr := fun _ => none
    ffmpegPath := ffmpegPath
    validateExecutable := fun _ => validation
    runFFmpeg := fun _ _ => run }

/-- A transcoder run that fails without writing output. -/
def failedRun : FFmpegRun := { err := some "exit status 1", stderr := "", output := none }

/-- A transcoder run that succeeds. -/
def goodRun : FFmpegRun := { err := none, stderr := "", output := some [102, 76, 97, 67] }

/-- Responses that answer the first `k` requests with status 429 and every
later one with status 200. -/
def throttledEnv (k : Nat) : AmazonEnv :=
  { delay := fun _ => 0
    respond := fun n _ => .ok { statusCode := if n < k then 429 else 200, body := .ok "" }
    jsonUnmarshalSongLink := fun _ => .error "unexpected end of JSON input" }

/-- Responses that answer the first `k` requests with status 429 and the next
one as given. -/
def failingEnv (k : Nat) (final : Except String Response) : AmazonEnv :=
  { delay := fun _ => 0
    respond := fun n _ => if n < k then .ok { statusCode := 429, body := .ok "" } else final
    jsonUnmarshalSongLink := fun _ => .error "unexpected end of JSON input" }

/-- Decoders for a DASH document without any segment template. -/
def bareDashDecoders : Decoders :=
  decodersFor "dash" "<MPD></MPD>" (.error "invalid character")
    (.ok { SegmentTemplate := { Initialization := "", Media := "", Segments := [] } })

/-- The scenario-2 environment in which the request numbered `bad` is answered
as given and every other one with status 200 and a one-byte body. -/
def brokenEnv (bad : Nat) (answer : GetResult) : DownloadEnv :=
  { decoders := sampleDashDecoders
    get := fun k _ => if k = bad then answer else .response 200 [UInt8.ofNat k] none
    createErr := fun _ => none
    ffmpegPath := .ok "ffmpeg"
    validateExecutable := fun _ => none
    runFFmpeg := fun _ _ => goodRun }

/-! ## Sample jobs -/

/-- A status response with status 200 and the given job status. -/
def jobStatus (status friendlyStatus : String) : JsonExchange DoubleDoubleStatusResponse :=
  .response 200 (.ok
    { Status := status, FriendlyStatus := friendlyStatus, URL := "/files/a.flac"
      CurrentName := "So What", CurrentArtist := "Miles Davis" })

/-- A service in which every request can be built, every file can be created,
query escaping is the identity, paths are joined with a slash, and the three
kinds of exchange are as given. -/
def serviceEnv (submit : Nat → JsonExchange DoubleDoubleSubmitResponse)
    (status : Nat → JsonExchange DoubleDoubleStatusResponse) (download : GetResult) :
    ServiceEnv :=
  { queryEscape := fun u => u
    filepathJoin := fun dir name => dir ++ "/" ++ name
    newRequestErr := fun _ => none
    submit := fun k _ => submit k
    status := fun k _ => status k
    download := fun _ _ => download
    createErr := fun _ => none }

/-- A submit response that accepts the job under id 42. -/
def accepted : JsonExchange DoubleDoubleSubmitResponse :=
  .response 200 (.ok { Success := true, ID := "42" })

/-! ## Sample requests -/

/-- A song.link decoder that knows three bodies: `asin` carries an Amazon link
with a `trackAsin` parameter, `plain` a link to a track page, `other` no Amazon
link; any other body does not decode. -/
def songLinkEnv : AmazonEnv :=
  { delay := fun _ => 0
    respond := fun _ _ => .error "no route to host"
    jsonUnmarshalSongLink := fun body =>
      if body = "asin" then
        .ok { LinksByPlatform :=
          [("spotify", "https://open.spotify.com/track/1"),
           ("amazonMusic", "https://music.amazon.com/albums/B0A?trackAsin=B0T&do=play")] }
      else if body = "plain" then
        .ok { LinksByPlatform := [("amazonMusic", "https://music.amazon.com/tracks/B0P")] }
      else if body = "other" then
        .ok { LinksByPlatform := [("spotify", "https://open.spotify.com/track/1")] }
      else .error "invalid character" }

/-- The letter e with an acute accent (U+00E9, two bytes in UTF-8), `n` times. -/
def accented (n : Nat) : String := String.mk (List.replicate n (Char.ofNat 233))

/-- The scenario-1 document after one space: still a JSON object for
`json.Unmarshal`, which skips leading white space. -/
def spacedBtsText : String := " \x7b\"urls\":[\"https://host/a.flac\"]\x7d"

/-- Decoders for `spacedBtsText`: `json.Unmarshal` accepts the object, and
`xml.Unmarshal` finds no element in it and reports `EOF`. -/
def spacedBtsDecoders : Decoders :=
  decodersFor "bts" spacedBtsText
    (.ok { MimeType := "", Codecs := "", EncryptionType := "", URLs := ["https://host/a.flac"] })
    (.error "EOF")

/-- The scenario-1 manifest in an environment that answers every request as
given and lets every file be created. -/
def directEnv (answer : GetResult) : DownloadEnv :=
  { decoders := sampleBtsDecoders
    get := fun _ _ => answer
    createErr := fun _ => none
    ffmpegPath := .ok "ffmpeg"
    validateExecutable := fun _ => none
    runFFmpeg := fun _ _ => goodRun }

/-- A disk that holds one file, `out.flac`, with three bytes in it. -/
def usedWorld : World :=
  { files := fun p => if p = "out.flac" then some [1, 2, 3] else none, requests := [] }

/-- A BTS document whose only URL is the empty string. -/
def emptyUrlBtsText : String := "\x7b\"urls\":[\"\"]\x7d"

/-- Decoders for `emptyUrlBtsText`. -/
def emptyUrlBtsDecoders : Decoders :=
  decodersFor "bts" emptyUrlBtsText
    (.ok { MimeType := "", Codecs := "", EncryptionType := "", URLs := [""] })
    (.error "EOF")

/-- The environment of `emptyUrlBtsDecoders`, where a request for the empty
URL fails as the HTTP client makes it fail. -/
def emptyUrlEnv : DownloadEnv :=
  { decoders := emptyUrlBtsDecoders
    get := fun _ _ => .transportError "Get \"\": unsupported protocol scheme \"\""
    createErr := fun _ => none
    ffmpegPath := .ok "ffmpeg"
    validateExecutable := fun _ => none
    runFFmpeg := fun _ _ => goodRun }

/-- Three mirrors: `a` does not answer, `b` answers with status 503, `c`
answers with a v2 body that carries a manifest; any other mirror answers with a
body that decodes to nothing useful. -/
def sampleMirrors : MirrorEnv :=
  { get := fun url =>
      if url = "a/track/?id=7&quality=LOSSLESS" then .transportError "timeout"
      else if url = "b/track/?id=7&quality=LOSSLESS" then .response 503 "" none
      else if url = "c/track/?id=7&quality=LOSSLESS" then .response 200 "v2" none
      else .response 200 "[]" none
    jsonUnmarshalV2 := fun body =>
      if body = "v2" then .ok { Manifest := "bts" } else .error "cannot unmarshal array"
    jsonUnmarshalV1 := fun body =>
      if body = "[]" then .ok [] else .error "cannot unmarshal object" }

/-- A finished job whose artist and track name hold characters that are not
kept in a file name. -/
def sampleDone : DoubleDoubleStatusResponse :=
  { Status := "done", FriendlyStatus := "", URL := "/files/a.flac"
    CurrentName := "Back: In Black?", CurrentArtist := " AC/DC" }

/-- A job whose first three status checks fail in the three ways (no response,
status 503, undecodable body) and whose fourth reports `done`. -/
def flakyStatus (k : Nat) : JsonExchange DoubleDoubleStatusResponse :=
  if k = 1 then .transportError "connection reset"
  else if k = 2 then .response 503 (.error "EOF")
  else if k = 3 then .response 200 (.error "invalid character")
  else jobStatus "done" ""

set_option maxRecDepth 100000

/-! ## Facts about the Go primitives -/

theorem wrapInt64_of_range {x : Int} (h1 : minInt64 ≤ x) (h2 : x ≤ maxInt64) :
    wrapInt64 x = x := by
  unfold wrapInt64
  unfold minInt64 at h1
  unfold maxInt64 at h2
  omega

theorem wrapInt64_le_max (x : Int) : wrapInt64 x ≤ maxInt64 := by
  unfold wrapInt64 maxInt64
  omega

/-! ## The expansion loop -/

theorem expandLoop_exits (T : String) (n : Int) (hn : n < maxInt64) :
    ∀ (fuel : Nat) (i : Int) (acc : List String), 1 ≤ i → i ≤ n + 1 →
      (n + 1 - i).toNat < fuel →
      expandLoop T n fuel i acc =
        some (acc ++ (List.range (n + 1 - i).toNat).map
          (fun (k : Nat) => replaceAll T "$Number$" (decimal (i + (k : Int))))) := by
  intro fuel
  induction fuel with
  | zero => intro i acc _ _ h; omega
  | succ fuel ih =>
    intro i acc h1 h2 hf
    unfold expandLoop
    by_cases hi : i ≤ n
    · have hw : wrapInt64 (i + 1) = i + 1 := by
        apply wrapInt64_of_range
        · unfold minInt64; omega
        · omega
      rw [if_pos hi, hw, ih (i + 1) _ (by omega) (by omega) (by omega)]
      have hk : (n + 1 - i).toNat = (n + 1 - (i + 1)).toNat + 1 := by omega
      rw [hk, List.range_succ_eq_map, List.map_cons, List.map_map, List.append_assoc]
      congr 2
      simp only [List.singleton_append, Nat.cast_zero, add_zero, List.cons.injEq, true_and]
      apply List.map_congr_left
      intro k _
      simp only [Function.comp, Nat.cast_succ]
      congr 2
      omega
    · have hk : (n + 1 - i).toNat = 0 := by omega
      rw [if_neg hi, hk]
      simp

theorem expandSegments_eq (T : String) (n : Int) (hn : n < maxInt64) :
    expandSegments T n =
      some ((List.range n.toNat).map
        (fun (k : Nat) => replaceAll T "$Number$" (decimal (1 + (k : Int))))) := by
  unfold expandSegments
  by_cases h0 : 0 ≤ n
  · have := expandLoop_exits T n hn (n.toNat + 1) 1 [] (by omega) (by omega) (by omega)
    rw [this]
    have hk : (n + 1 - 1).toNat = n.toNat := by omega
    rw [hk]
    simp
  · have hk : n.toNat = 0 := by omega
    rw [hk]
    unfold expandLoop
    rw [if_neg (by omega)]
    simp

theorem expandLoop_stuck (T : String) :
    ∀ (fuel : Nat) (i : Int) (acc : List String), i ≤ maxInt64 →
      expandLoop T maxInt64 fuel i acc = none := by
  intro fuel
  induction fuel with
  | zero => intro i acc _; rfl
  | succ fuel ih =>
    intro i acc hi
    unfold expandLoop
    rw [if_pos hi]
    exact ih _ _ (wrapInt64_le_max _)

theorem expandSegments_stuck (T : String) : expandSegments T maxInt64 = none := by
  unfold expandSegments
  exact expandLoop_stuck T _ 1 [] (by unfold maxInt64; omega)

/-! ## The segment count -/

theorem sumTimeline_foldl (segs : List TimelineSegment) :
    ∀ acc : Int, 0 ≤ acc → (∀ s ∈ segs, 0 ≤ s.Repeat) →
      acc + (segs.map (fun s => s.Repeat + 1)).sum ≤ maxInt64 →
      segs.foldl (fun segmentCount seg =>
          wrapInt64 (segmentCount + wrapInt64 (seg.Repeat + 1))) acc
        = acc + (segs.map (fun s => s.Repeat + 1)).sum := by
  induction segs with
  | nil => intro acc _ _ _; simp
  | cons s rest ih =>
    intro acc h0 hr hs
    have hs0 : 0 ≤ s.Repeat := hr s (List.mem_cons_self _ _)
    have hrest : ∀ t ∈ rest, 0 ≤ t.Repeat := fun t ht => hr t (List.mem_cons_of_mem _ ht)
    have hsum0 : 0 ≤ (rest.map (fun s => s.Repeat + 1)).sum := by
      apply List.sum_nonneg
      intro x hx
      obtain ⟨t, ht, rfl⟩ := List.mem_map.mp hx
      have := hrest t ht
      omega
    simp only [List.map_cons, List.sum_cons] at hs
    have hw1 : wrapInt64 (s.Repeat + 1) = s.Repeat + 1 := by
      apply wrapInt64_of_range
      · unfold minInt64; omega
      · omega
    have hw2 : wrapInt64 (acc + (s.Repeat + 1)) = acc + (s.Repeat + 1) := by
      apply wrapInt64_of_range
      · unfold minInt64; omega
      · omega
    simp only [List.foldl_cons, List.map_cons, List.sum_cons, hw1, hw2]
    rw [ih (acc + (s.Repeat + 1)) (by omega) hrest (by omega)]
    omega

theorem sumTimeline_eq (segs : List TimelineSegment) (hr : ∀ s ∈ segs, 0 ≤ s.Repeat)
    (hs : (segs.map (fun s => s.Repeat + 1)).sum ≤ maxInt64) :
    sumTimeline segs = (segs.map (fun s => s.Repeat + 1)).sum := by
  unfold sumTimeline
  rw [sumTimeline_foldl segs 0 (le_refl 0) hr (by omega)]
  omega

theorem timeline_sum_pos (segs : List TimelineSegment) (hne : segs ≠ [])
    (hr : ∀ s ∈ segs, 0 ≤ s.Repeat) : 0 < (segs.map (fun s => s.Repeat + 1)).sum := by
  cases segs with
  | nil => exact absurd rfl hne
  | cons s rest =>
    have hs0 : 0 ≤ s.Repeat := hr s (List.mem_cons_self _ _)
    have hsum0 : 0 ≤ (rest.map (fun s => s.Repeat + 1)).sum := by
      apply List.sum_nonneg
      intro x hx
      obtain ⟨t, ht, rfl⟩ := List.mem_map.mp hx
      have := hr t (List.mem_cons_of_mem _ ht)
      omega
    simp only [List.map_cons, List.sum_cons]
    omega

/-! ## The DASH path of `parseManifest` -/

theorem parseManifest_dash (dec : Decoders) (m raw : String) (mpd : MPD)
    (h64 : dec.base64Decode m = .ok raw) (hp : hasPrefix raw "\x7b" = false)
    (hx : dec.xmlUnmarshalMPD raw = .ok mpd)
    (hi : (resolveTemplates mpd.SegmentTemplate raw).1 ≠ "") :
    parseManifest dec m =
      (expandSegments (replaceAll (resolveTemplates mpd.SegmentTemplate raw).2 "&amp;" "&")
          (countSegments mpd.SegmentTemplate raw)).map
        (fun urls =>
          { directURL := ""
            initURL := replaceAll (resolveTemplates mpd.SegmentTemplate raw).1 "&amp;" "&"
            mediaURLs := urls
            err := none }) := by
  unfold parseManifest
  simp only [h64, hp, hx, if_neg hi, Bool.false_eq_true, if_false]
  cases expandSegments (replaceAll (resolveTemplates mpd.SegmentTemplate raw).2 "&amp;" "&")
      (countSegments mpd.SegmentTemplate raw) <;> rfl

theorem resolveTemplates_structured (t : SegmentTemplate) (raw : String)
    (hI : t.Initialization ≠ "") (hM : t.Media ≠ "") :
    resolveTemplates t raw = (t.Initialization, t.Media) := by
  unfold resolveTemplates
  simp [hI, hM]

/-! ## Segmented manifests -/

/-- C1 (as amended): a DASH document whose SegmentTemplate has a non-empty
initialization attribute I, a non-empty media attribute and a timeline of at
least one entry, every repeat non-negative, with the total of (repeat + 1)
below 2^63 - 1, makes parseManifest return without error an empty direct URL,
the init URL I with each "&amp;" replaced by "&", and exactly that total of
media URLs. -/
theorem parseManifest_segmented (dec : Decoders) (m raw : String) (mpd : MPD)
    (h64 : dec.base64Decode m = .ok raw) (hp : hasPrefix raw "\x7b" = false)
    (hx : dec.xmlUnmarshalMPD raw = .ok mpd)
    (hI : mpd.SegmentTemplate.Initialization ≠ "") (hM : mpd.SegmentTemplate.Media ≠ "")
    (hne : mpd.SegmentTemplate.Segments ≠ [])
    (hr : ∀ s ∈ mpd.SegmentTemplate.Segments, 0 ≤ s.Repeat)
    (hs : (mpd.SegmentTemplate.Segments.map (fun s => s.Repeat + 1)).sum < maxInt64) :
    ∃ urls : List String,
      parseManifest dec m =
        some { directURL := ""
               initURL := replaceAll mpd.SegmentTemplate.Initialization "&amp;" "&"
               mediaURLs := urls
               err := none } ∧
      (urls.length : Int) = (mpd.SegmentTemplate.Segments.map (fun s => s.Repeat + 1)).sum := by
  have hres := resolveTemplates_structured mpd.SegmentTemplate raw hI hM
  have hpos := timeline_sum_pos _ hne hr
  have hsum := sumTimeline_eq _ hr (le_of_lt hs)
  have hcount : countSegments mpd.SegmentTemplate raw
      = (mpd.SegmentTemplate.Segments.map (fun s => s.Repeat + 1)).sum := by
    unfold countSegments
    simp only [hsum]
    rw [if_neg (by omega)]
  have hdash := parseManifest_dash dec m raw mpd h64 hp hx (by rw [hres]; exact hI)
  rw [hres, hcount, expandSegments_eq _ _ hs] at hdash
  refine ⟨_, hdash, ?_⟩
  simp only [List.length_map, List.length_range]
  omega

/-- C1 witness: the document of end-to-end scenario 2 (timeline d=1 r=2)
resolves to init.mp4 and the three URLs seg-1.m4s, seg-2.m4s, seg-3.m4s. -/
theorem parseManifest_segmented_witness :
    parseManifest sampleDashDecoders "dash" =
        some { directURL := "", initURL := "init.mp4",
               mediaURLs := ["seg-1.m4s", "seg-2.m4s", "seg-3.m4s"], err := none } ∧
      ∃ urls : List String,
        parseManifest sampleDashDecoders "dash" =
          some { directURL := "", initURL := replaceAll "init.mp4" "&amp;" "&",
                 mediaURLs := urls, err := none } ∧
        (urls.length : Int) = 3 :=
  ⟨by decide,
   parseManifest_segmented sampleDashDecoders "dash" (dashText "2") (dashMPD 2)
     rfl (by decide) rfl (by decide) (by decide) (by decide) (by decide)
     (by decide)⟩

/-- C1 counterexample: one timeline entry with repeat 2^63 - 1 satisfies every
premise of the claim and declares 2^63 segments, yet repeat + 1 wraps to a
negative count and parseManifest returns no media URL at all. -/
theorem parseManifest_segmented_overflow :
    (dashMPD 9223372036854775807).SegmentTemplate.Initialization ≠ "" ∧
    (dashMPD 9223372036854775807).SegmentTemplate.Media ≠ "" ∧
    (dashMPD 9223372036854775807).SegmentTemplate.Segments ≠ [] ∧
    (∀ s ∈ (dashMPD 9223372036854775807).SegmentTemplate.Segments, 0 ≤ s.Repeat) ∧
    ((dashMPD 9223372036854775807).SegmentTemplate.Segments.map (fun s => s.Repeat + 1)).sum
      = 9223372036854775808 ∧
    parseManifest overflowDashDecoders "dash" =
      some { directURL := "", initURL := "init.mp4", mediaURLs := [], err := none } := by
  refine ⟨by decide, by decide, by decide, by decide, by decide, by decide⟩

/-- C2 (as amended): on the DASH path with resolved media template T and
computed segment count n, 0 <= n < 2^63 - 1, parseManifest returns exactly n
media URLs and the i-th one (1 <= i <= n) is T, after "&amp;" -> "&", with
"$Number$" replaced by the decimal text of i. -/
theorem parseManifest_expansion (dec : Decoders) (m raw : String) (mpd : MPD)
    (h64 : dec.base64Decode m = .ok raw) (hp : hasPrefix raw "\x7b" = false)
    (hx : dec.xmlUnmarshalMPD raw = .ok mpd)
    (hi : (resolveTemplates mpd.SegmentTemplate raw).1 ≠ "")
    (h0 : 0 ≤ countSegments mpd.SegmentTemplate raw)
    (hn : countSegments mpd.SegmentTemplate raw < maxInt64) :
    ∃ urls : List String,
      parseManifest dec m =
        some { directURL := ""
               initURL := replaceAll (resolveTemplates mpd.SegmentTemplate raw).1 "&amp;" "&"
               mediaURLs := urls
               err := none } ∧
      (urls.length : Int) = countSegments mpd.SegmentTemplate raw ∧
      ∀ i : Nat, 1 ≤ i → (i : Int) ≤ countSegments mpd.SegmentTemplate raw →
        urls[i - 1]? =
          some (replaceAll (replaceAll (resolveTemplates mpd.SegmentTemplate raw).2 "&amp;" "&")
            "$Number$" (decimal (i : Int))) := by
  have hdash := parseManifest_dash dec m raw mpd h64 hp hx hi
  rw [expandSegments_eq _ _ hn] at hdash
  refine ⟨_, hdash, ?_, ?_⟩
  · simp only [List.length_map, List.length_range]
    omega
  · intro i h1 hle
    have hlt : i - 1 < (countSegments mpd.SegmentTemplate raw).toNat := by omega
    rw [List.getElem?_map, List.getElem?_range hlt]
    have hcast : 1 + ((i - 1 : Nat) : Int) = (i : Int) := by omega
    simp only [Option.map_some', hcast]

/-- C2 witness: the scenario-2 document has count 3 and its second URL is
seg-2.m4s. -/
theorem parseManifest_expansion_witness :
    countSegments (dashMPD 2).SegmentTemplate (dashText "2") = 3 ∧
      ∃ urls : List String,
        parseManifest sampleDashDecoders "dash" =
          some { directURL := ""
                 initURL := replaceAll
                   (resolveTemplates (dashMPD 2).SegmentTemplate (dashText "2")).1 "&amp;" "&"
                 mediaURLs := urls
                 err := none } ∧
        (urls.length : Int) = countSegments (dashMPD 2).SegmentTemplate (dashText "2") ∧
        ∀ i : Nat, 1 ≤ i → (i : Int) ≤ countSegments (dashMPD 2).SegmentTemplate (dashText "2") →
          urls[i - 1]? =
            some (replaceAll
              (replaceAll (resolveTemplates (dashMPD 2).SegmentTemplate (dashText "2")).2
                "&amp;" "&")
              "$Number$" (decimal (i : Int))) :=
  ⟨by decide,
   parseManifest_expansion sampleDashDecoders "dash" (dashText "2") (dashMPD 2)
     rfl (by decide) rfl (by decide) (by decide) (by decide)⟩

/-- C2 counterexample: a computed segment count of 2^63 - 1 (one entry with
repeat 2^63 - 2) is non-negative, but the loop test i <= segmentCount then
holds for every value of the counter, so parseManifest never returns a list. -/
theorem parseManifest_expansion_endless :
    countSegments (dashMPD 9223372036854775806).SegmentTemplate
        (dashText "9223372036854775806") = 9223372036854775807 ∧
    parseManifest endlessDashDecoders "dash" = none := by
  have hc : countSegments (dashMPD 9223372036854775806).SegmentTemplate
      (dashText "9223372036854775806") = maxInt64 := by decide
  refine ⟨hc, ?_⟩
  have hdash := parseManifest_dash endlessDashDecoders "dash" (dashText "9223372036854775806")
    (dashMPD 9223372036854775806) rfl (by decide) rfl (by decide)
  rw [hdash, hc, expandSegments_stuck]
  rfl

/-! ## BTS manifests -/

/-- C3 (as amended): a manifest whose decoded text opens with a brace and
decodes as a JSON object is resolved from its "urls" list: a non-empty list
gives its first element as direct URL with no init URL and no media URLs; an
empty or absent list gives the error "no URLs in BTS manifest". -/
theorem parseManifest_bts (dec : Decoders) (m raw : String) (bts : TidalBTSManifest)
    (h64 : dec.base64Decode m = .ok raw) (hp : hasPrefix raw "\x7b" = true)
    (hj : dec.jsonUnmarshalBTS raw = .ok bts) :
    (∀ (url : String) (rest : List String), bts.URLs = url :: rest →
      parseManifest dec m =
        some { directURL := url, initURL := "", mediaURLs := [], err := none }) ∧
    (bts.URLs = [] →
      parseManifest dec m = some (ManifestResult.failure "no URLs in BTS manifest")) := by
  constructor
  · intro url rest hu
    unfold parseManifest
    simp only [h64, hp, hj, hu, if_true]
  · intro hu
    unfold parseManifest
    simp only [h64, hp, hj, hu, if_true]

/-- C3 witness: the BTS document of end-to-end scenario 1 resolves to the
direct URL https://host/a.flac. -/
theorem parseManifest_bts_witness :
    parseManifest sampleBtsDecoders "bts" =
      some { directURL := "https://host/a.flac", initURL := "", mediaURLs := [], err := none } :=
  (parseManifest_bts sampleBtsDecoders "bts" sampleBtsText
    { MimeType := "", Codecs := "", EncryptionType := "", URLs := ["https://host/a.flac"] }
    rfl (by decide) rfl).1 "https://host/a.flac" [] rfl

/-- C3 counterexample: the scenario-1 object written after one space is a JSON
object with a non-empty "urls" list, as json.Unmarshal reads it, yet
parseManifest does not return its first URL: the text does not begin with a
brace, so it is handed to xml.Unmarshal and the call fails. -/
theorem parseManifest_spaced_object_rejected :
    spacedBtsDecoders.jsonUnmarshalBTS spacedBtsText =
      .ok { MimeType := "", Codecs := "", EncryptionType := "",
            URLs := ["https://host/a.flac"] } ∧
    spacedBtsDecoders.base64Decode "bts" = .ok spacedBtsText ∧
    parseManifest spacedBtsDecoders "bts" =
      some (ManifestResult.failure "failed to parse manifest XML: EOF") ∧
    parseManifest spacedBtsDecoders "bts" ≠
      some { directURL := "https://host/a.flac", initURL := "", mediaURLs := [], err := none } := by
  refine ⟨rfl, rfl, by decide, by decide⟩

/-! ## Pattern extraction -/

theorem quoteRun_split (rest : List Char)
    (h : (rest.drop (rest.takeWhile (fun c => c != '"')).length).head? = some '"') :
    ∃ post, rest = rest.takeWhile (fun c => c != '"') ++ '"' :: post := by
  have hsplit := List.takeWhile_append_dropWhile (fun c => c != '"') (l := rest)
  have hdrop : rest.drop (rest.takeWhile (fun c => c != '"')).length
      = rest.dropWhile (fun c => c != '"') := by
    calc rest.drop (rest.takeWhile (fun c => c != '"')).length
        = (rest.takeWhile (fun c => c != '"') ++ rest.dropWhile (fun c => c != '"')).drop
            (rest.takeWhile (fun c => c != '"')).length := by rw [hsplit]
      _ = rest.dropWhile (fun c => c != '"') := List.drop_left _ _
  rw [hdrop] at h
  cases hd : rest.dropWhile (fun c => c != '"') with
  | nil => rw [hd] at h; simp at h
  | cons a post =>
    rw [hd] at h
    simp only [List.head?_cons, Option.some.injEq] at h
    refine ⟨post, ?_⟩
    rw [h] at hd
    rw [← hd]
    exact hsplit.symm

theorem matchAttrAt_nil (key : List Char) : matchAttrAt key [] = none := by
  unfold matchAttrAt
  have : (key ++ ['=', '"']).isPrefixOf ([] : List Char) = false := by cases key <;> rfl
  simp [this]

theorem matchAttrAt_sound (key text run : List Char) (h : matchAttrAt key text = some run) :
    run ≠ [] ∧ '"' ∉ run ∧ ∃ post, text = (key ++ ['=', '"']) ++ (run ++ '"' :: post) := by
  unfold matchAttrAt at h
  split at h
  · rename_i hpre
    rw [List.isPrefixOf_iff_prefix] at hpre
    obtain ⟨rest, hrest⟩ := hpre
    have hdrop : text.drop (key.length + 2) = rest := by
      rw [← hrest]
      exact List.drop_left' (by simp)
    simp only [hdrop] at h
    split at h
    · rename_i hrun
      simp only [Option.some.injEq] at h
      obtain ⟨post, hpost⟩ := quoteRun_split rest hrun.2
      refine ⟨h ▸ hrun.1, ?_, post, ?_⟩
      · intro hmem
        rw [← h] at hmem
        have := List.mem_takeWhile_imp hmem
        simp at this
      · rw [← hrest, ← h, ← hpost]
    · exact absurd h (by simp)
  · exact absurd h (by simp)

theorem matchAttrAt_complete (key I post : List Char) (hI : I ≠ []) (hq : '"' ∉ I) :
    matchAttrAt key ((key ++ ['=', '"']) ++ (I ++ '"' :: post)) = some I := by
  unfold matchAttrAt
  have hpre : (key ++ ['=', '"']).isPrefixOf ((key ++ ['=', '"']) ++ (I ++ '"' :: post)) = true := by
    rw [List.isPrefixOf_iff_prefix]
    exact List.prefix_append _ _
  have hdrop : ((key ++ ['=', '"']) ++ (I ++ '"' :: post)).drop (key.length + 2)
      = I ++ '"' :: post := List.drop_left' (by simp)
  have hall : ∀ a ∈ I, (fun c => c != '"') a = true := by
    intro a ha
    have : a ≠ '"' := fun e => hq (e ▸ ha)
    simpa using this
  have htake : (I ++ '"' :: post).takeWhile (fun c => c != '"') = I := by
    rw [List.takeWhile_append_of_pos hall, List.takeWhile_cons_of_neg (by simp)]
    simp
  simp only [hpre, hdrop, htake, if_true, List.drop_left, List.head?_cons]
  rw [if_pos ⟨hI, trivial⟩]

theorem findAttr_sound (key : List Char) :
    ∀ (text J : List Char), findAttr key text = some J →
      J ≠ [] ∧ '"' ∉ J ∧
        ∃ pre post, text = pre ++ ((key ++ ['=', '"']) ++ (J ++ '"' :: post)) := by
  intro text
  induction text with
  | nil => intro J h; simp [findAttr] at h
  | cons c cs ih =>
    intro J h
    unfold findAttr at h
    cases hm : matchAttrAt key (c :: cs) with
    | some run =>
      rw [hm] at h
      simp only [Option.some.injEq] at h
      obtain ⟨h1, h2, post, h3⟩ := matchAttrAt_sound key _ _ hm
      subst h
      exact ⟨h1, h2, [], post, by simpa using h3⟩
    | none =>
      rw [hm] at h
      obtain ⟨h1, h2, pre, post, h3⟩ := ih J h
      exact ⟨h1, h2, c :: pre, post, by rw [h3]; rfl⟩

theorem findAttr_of_match (key text run : List Char) (h : matchAttrAt key text = some run) :
    findAttr key text = some run := by
  cases text with
  | nil => rw [matchAttrAt_nil] at h; exact absurd h (by simp)
  | cons c cs => unfold findAttr; rw [h]

theorem findAttr_complete (key I post : List Char) (hI : I ≠ []) (hq : '"' ∉ I) :
    ∀ pre : List Char,
      ∃ J, findAttr key (pre ++ ((key ++ ['=', '"']) ++ (I ++ '"' :: post))) = some J := by
  intro pre
  induction pre with
  | nil =>
    exact ⟨I, by
      rw [List.nil_append]
      exact findAttr_of_match _ _ _ (matchAttrAt_complete key I post hI hq)⟩
  | cons c cs ih =>
    obtain ⟨J, hJ⟩ := ih
    rw [List.cons_append]
    unfold findAttr
    cases hm : matchAttrAt key (c :: (cs ++ ((key ++ ['=', '"']) ++ (I ++ '"' :: post)))) with
    | some run => exact ⟨run, rfl⟩
    | none => exact ⟨J, hJ⟩

theorem resolveTemplates_fallback (t : SegmentTemplate) (raw : String) (J : List Char)
    (hempty : t.Initialization = "" ∨ t.Media = "")
    (hJ : findAttr "initialization".data raw.data = some J) :
    resolveTemplates t raw =
      (String.mk J,
        match findAttr "media".data raw.data with
        | some M => String.mk M
        | none => t.Media) := by
  unfold resolveTemplates
  simp only [hJ, if_pos hempty]

theorem string_mk_ne_empty (J : List Char) (h : J ≠ []) : String.mk J ≠ "" := by
  intro e
  apply h
  have := congrArg String.data e
  simpa using this

/-- C4 (as amended): for a manifest that is not a BTS object and that
xml.Unmarshal accepts with an empty initialization or media attribute,
parseManifest takes both from the pattern matches on the raw text: whenever the
raw text contains initialization="I" with I non-empty and quote-free (and the
segment count stays below 2^63 - 1), it succeeds, and its init URL is the capture
J of the leftmost such occurrence with "&amp;" replaced by "&"; the media URLs
expand the media="..." capture (the decoded attribute when there is none) over
the segment count. -/
theorem parseManifest_fallback (dec : Decoders) (m raw : String) (mpd : MPD)
    (h64 : dec.base64Decode m = .ok raw) (hp : hasPrefix raw "\x7b" = false)
    (hx : dec.xmlUnmarshalMPD raw = .ok mpd)
    (hempty : mpd.SegmentTemplate.Initialization = "" ∨ mpd.SegmentTemplate.Media = "")
    (pre I post : List Char)
    (hraw : raw.data = pre ++ (("initialization".data ++ ['=', '"']) ++ (I ++ '"' :: post)))
    (hI : I ≠ []) (hq : '"' ∉ I)
    (hn : countSegments mpd.SegmentTemplate raw < maxInt64) :
    ∃ (J : List Char) (urls : List String),
      findAttr "initialization".data raw.data = some J ∧ J ≠ [] ∧
      (∃ pre2 post2,
        raw.data = pre2 ++ (("initialization".data ++ ['=', '"']) ++ (J ++ '"' :: post2))) ∧
      parseManifest dec m =
        some { directURL := ""
               initURL := replaceAll (String.mk J) "&amp;" "&"
               mediaURLs := urls
               err := none } ∧
      expandSegments
        (replaceAll
          (match findAttr "media".data raw.data with
            | some M => String.mk M
            | none => mpd.SegmentTemplate.Media) "&amp;" "&")
        (countSegments mpd.SegmentTemplate raw) = some urls := by
  obtain ⟨J, hJ⟩ := findAttr_complete "initialization".data I post hI hq pre
  rw [← hraw] at hJ
  obtain ⟨hJne, _, pre2, post2, hsplit⟩ := findAttr_sound _ _ _ hJ
  have hres := resolveTemplates_fallback mpd.SegmentTemplate raw J hempty hJ
  have hdash := parseManifest_dash dec m raw mpd h64 hp hx
    (by rw [hres]; exact string_mk_ne_empty J hJne)
  rw [hres] at hdash
  simp only [expandSegments_eq _ _ hn] at hdash ⊢
  exact ⟨J, _, hJ, hJne, ⟨pre2, post2, hsplit⟩, hdash, rfl⟩

/-- C4 witness: a well-formed document that keeps SegmentTemplate outside
Representation decodes to empty fields; the pattern matches supply init URL,
template and timeline, and parseManifest returns the three segment URLs. -/
theorem parseManifest_fallback_witness :
    parseManifest siblingDashDecoders "dash" =
        some { directURL := "", initURL := "init.mp4?a=1&b=2",
               mediaURLs := ["seg-1.m4s", "seg-2.m4s", "seg-3.m4s"], err := none } ∧
      ∃ (J : List Char) (urls : List String),
        findAttr "initialization".data siblingDashText.data = some J ∧ J ≠ [] ∧
        (∃ pre2 post2,
          siblingDashText.data
            = pre2 ++ (("initialization".data ++ ['=', '"']) ++ (J ++ '"' :: post2))) ∧
        parseManifest siblingDashDecoders "dash" =
          some { directURL := ""
                 initURL := replaceAll (String.mk J) "&amp;" "&"
                 mediaURLs := urls
                 err := none } ∧
        expandSegments
          (replaceAll
            (match findAttr "media".data siblingDashText.data with
              | some M => String.mk M
              | none => "") "&amp;" "&")
          (countSegments { Initialization := "", Media := "", Segments := [] } siblingDashText)
          = some urls :=
  ⟨by decide,
   parseManifest_fallback siblingDashDecoders "dash" siblingDashText
     { SegmentTemplate := { Initialization := "", Media := "", Segments := [] } }
     rfl (by decide) rfl (Or.inl rfl)
     "<MPD><Period><AdaptationSet><SegmentTemplate ".data "init.mp4?a=1&amp;b=2".data
     " media=\"seg-$Number$.m4s\"><SegmentTimeline><S d=\"1\" r=\"2\"/></SegmentTimeline></SegmentTemplate><Representation/></AdaptationSet></Period></MPD>".data
     (by decide) (by decide) (by decide) (by decide)⟩

/-- C4 counterexample: a document that is not well-formed contains
initialization="init.mp4" in its raw text, yet parseManifest returns the XML
parse error without trying the pattern extraction. -/
theorem parseManifest_fallback_malformed :
    hasPrefix malformedDashText "\x7b" = false ∧
    findAttr "initialization".data malformedDashText.data = some "init.mp4".data ∧
    parseManifest malformedDashDecoders "dash" =
      some (ManifestResult.failure
        "failed to parse manifest XML: XML syntax error on line 1: element <SegmentTemplate> closed by </MPD>") := by
  refine ⟨by decide, by decide, by decide⟩

/-! ## Paths -/

theorem tempPath_ne_outputPath (outputPath : String) : outputPath ++ ".m4a.tmp" ≠ outputPath := by
  intro h
  have := congrArg String.length h
  simp only [String.length_append] at this
  have h8 : ".m4a.tmp".length = 8 := by decide
  omega

theorem trimSuffix_length_le (s p : String) : (trimSuffix s p).length ≤ s.length := by
  unfold trimSuffix
  split
  · show (s.data.take (s.data.length - p.data.length)).length ≤ s.data.length
    rw [List.length_take]
    omega
  · exact le_refl _

theorem m4aPath_ne_tempPath (outputPath : String) :
    trimSuffix outputPath ".flac" ++ ".m4a" ≠ outputPath ++ ".m4a.tmp" := by
  intro h
  have := congrArg String.length h
  simp only [String.length_append] at this
  have h8 : ".m4a.tmp".length = 8 := by decide
  have h4 : ".m4a".length = 4 := by decide
  have := trimSuffix_length_le outputPath ".flac"
  omega

theorem m4aPath_ne_outputPath (outputPath : String) :
    trimSuffix outputPath ".flac" ++ ".m4a" ≠ outputPath := by
  intro h
  have hlen := congrArg String.length h
  simp only [String.length_append] at hlen
  have h4 : ".m4a".length = 4 := by decide
  unfold trimSuffix at hlen
  split at hlen
  · rename_i hs
    have hsuf : ".flac".data <:+ outputPath.data := by
      unfold hasSuffix at hs
      exact List.isSuffixOf_iff_suffix.mp hs
    have h5 : ".flac".data.length = 5 := by decide
    have hge : 5 ≤ outputPath.data.length := h5 ▸ hsuf.length_le
    have ht : (String.mk (outputPath.data.take (outputPath.data.length - ".flac".data.length))).length
        = outputPath.data.length - 5 := by
      show (outputPath.data.take (outputPath.data.length - ".flac".data.length)).length = _
      rw [List.length_take, h5]
      omega
    have ho : outputPath.length = outputPath.data.length := rfl
    omega
  · omega

theorem trimSuffix_append (base p : String) : trimSuffix (base ++ p) p = base := by
  unfold trimSuffix
  have hs : hasSuffix (base ++ p) p = true := by
    unfold hasSuffix
    rw [List.isSuffixOf_iff_suffix, String.data_append]
    exact List.suffix_append _ _
  rw [if_pos hs]
  have : (base ++ p).data.take ((base ++ p).data.length - p.data.length) = base.data := by
    rw [String.data_append]
    exact List.take_left' (by simp)
  rw [this]

/-! ## Segment assembly -/

theorem downloadMediaSegments_ok (env : DownloadEnv) (tempPath : String) :
    ∀ (urls : List String) (bodies : List Bytes) (i : Nat) (w : World) (c : Bytes),
      w.files tempPath = some c →
      bodies.length = urls.length →
      (∀ (k : Nat) (hk : k < urls.length) (hb : k < bodies.length),
        env.get (w.requests.length + k) urls[k] = .response 200 bodies[k] none) →
      (downloadMediaSegments env tempPath i urls w).err = none ∧
      (downloadMediaSegments env tempPath i urls w).world.requests = w.requests ++ urls ∧
      (downloadMediaSegments env tempPath i urls w).world.files tempPath
        = some (c ++ bodies.flatten) := by
  intro urls
  induction urls with
  | nil =>
    intro bodies i w c hc hlen _
    have hb : bodies = [] := List.length_eq_zero.mp (by simpa using hlen)
    subst hb
    exact ⟨rfl, by simp [downloadMediaSegments], by simp [downloadMediaSegments, hc]⟩
  | cons url rest ih =>
    intro bodies i w c hc hlen hget
    cases bodies with
    | nil => simp at hlen
    | cons b bs =>
      have h0 := hget 0 (by simp) (by simp)
      simp only [Nat.add_zero, List.getElem_cons_zero] at h0
      have hrest : ∀ (k : Nat) (hk : k < rest.length) (hb : k < bs.length),
          env.get (((w.request url).append tempPath b).requests.length + k) rest[k]
            = .response 200 bs[k] none := by
        intro k hk hb
        have := hget (k + 1) (by simp; omega) (by simp; omega)
        simp only [List.getElem_cons_succ] at this
        rw [← this]
        simp only [World.append, World.request, List.length_append, List.length_singleton]
        congr 1
        omega
      have hstep : downloadMediaSegments env tempPath i (url :: rest) w
          = downloadMediaSegments env tempPath (i + 1) rest ((w.request url).append tempPath b) := by
        rw [downloadMediaSegments]
        simp only [h0]
        rfl
      have hc2 : ((w.request url).append tempPath b).files tempPath = some (c ++ b) := by
        simp [World.append, World.request, hc]
      obtain ⟨h1, h2, h3⟩ :=
        ih bs (i + 1) ((w.request url).append tempPath b) (c ++ b) hc2 (by simpa using hlen) hrest
      rw [hstep]
      refine ⟨h1, ?_, ?_⟩
      · rw [h2]
        simp [World.append, World.request]
      · rw [h3]
        simp

theorem downloadMediaSegments_keeps (env : DownloadEnv) (tempPath : String) :
    ∀ (urls : List String) (i : Nat) (w : World),
      (downloadMediaSegments env tempPath i urls w).err = none →
      (w.files tempPath).isSome = true →
      ((downloadMediaSegments env tempPath i urls w).world.files tempPath).isSome = true := by
  intro urls
  induction urls with
  | nil => intro i w _ h; exact h
  | cons url rest ih =>
    intro i w herr hsome
    rw [downloadMediaSegments] at herr ⊢
    cases hg : env.get w.requests.length url with
    | transportError e => simp [hg] at herr
    | response statusCode body copyErr =>
      simp only [hg] at herr ⊢
      by_cases hs : statusCode = 200
      · subst hs
        cases copyErr with
        | some e => simp at herr
        | none =>
          simp only [ne_eq, not_true_eq_false, if_false] at herr ⊢
          exact ih _ _ herr (by simp [World.append, World.request])
      · simp [hs] at herr

theorem assembleSegments_keeps (env : DownloadEnv) (w : World) (tempPath initURL : String)
    (mediaURLs : List String)
    (herr : (assembleSegments env w tempPath initURL mediaURLs).err = none) :
    ((assembleSegments env w tempPath initURL mediaURLs).world.files tempPath).isSome = true := by
  unfold assembleSegments at herr ⊢
  cases hcr : env.createErr tempPath with
  | some e => simp [hcr] at herr
  | none =>
    simp only [hcr] at herr ⊢
    cases hi : (downloadInitSegment env (w.create tempPath) tempPath initURL).err with
    | some e => simp [hi] at herr
    | none =>
      simp only [hi] at herr ⊢
      apply downloadMediaSegments_keeps _ _ _ _ _ herr
      unfold downloadInitSegment at hi ⊢
      cases hg : env.get (w.create tempPath).requests.length initURL with
      | transportError e => simp [hg] at hi
      | response statusCode body copyErr =>
        simp only [hg] at hi ⊢
        by_cases hs : statusCode = 200
        · subst hs
          cases copyErr with
          | some e => simp at hi
          | none => simp [World.append, World.request]
        · simp [hs] at hi

theorem DownloadFromManifest_segmented (env : DownloadEnv) (w : World)
    (m outputPath initURL : String) (mediaURLs : List String)
    (hparse : parseManifest env.decoders m =
      some { directURL := "", initURL := initURL, mediaURLs := mediaURLs, err := none })
    (hasm : (assembleSegments env w (outputPath ++ ".m4a.tmp") initURL mediaURLs).err = none) :
    DownloadFromManifest env w m outputPath =
      some (convertToFlac env
        (assembleSegments env w (outputPath ++ ".m4a.tmp") initURL mediaURLs).world
        (outputPath ++ ".m4a.tmp") outputPath) := by
  unfold DownloadFromManifest
  simp only [hparse, ne_eq, not_true_eq_false, if_false, hasm]

theorem convertToFlac_requests (env : DownloadEnv) (w : World) (tempPath outputPath : String) :
    (convertToFlac env w tempPath outputPath).world.requests = w.requests := by
  unfold convertToFlac
  cases env.ffmpegPath with
  | error e => rfl
  | ok ffmpegPath =>
    simp only
    cases env.validateExecutable ffmpegPath with
    | some e => rfl
    | none =>
      simp only
      cases (env.runFFmpeg [ffmpegPath, "-y", "-i", tempPath, "-vn", "-c:a", "flac", outputPath]
        (w.files tempPath)).err <;>
      cases (env.runFFmpeg [ffmpegPath, "-y", "-i", tempPath, "-vn", "-c:a", "flac", outputPath]
        (w.files tempPath)).output <;>
      simp only [World.rename, World.store, World.remove] <;>
      (try split) <;> rfl

/-- C5: in the segmented case of DownloadFromManifest, when the temporary file
can be created and the init segment and all n media segments come back with
status 200 and are copied without error, the requests issued are exactly the
init URL followed by the media URLs in list order, one request each, the
temporary container holds bytes(init) ++ bytes(segment 1) ++ ... ++
bytes(segment n) when assembly ends, and the call goes on to the conversion
step from that state without any further request. -/
theorem DownloadFromManifest_assembles (env : DownloadEnv) (w : World)
    (m outputPath initURL : String) (mediaURLs : List String)
    (initBody : Bytes) (mediaBodies : List Bytes)
    (hparse : parseManifest env.decoders m =
      some { directURL := "", initURL := initURL, mediaURLs := mediaURLs, err := none })
    (hcreate : env.createErr (outputPath ++ ".m4a.tmp") = none)
    (hinit : env.get w.requests.length initURL = .response 200 initBody none)
    (hlen : mediaBodies.length = mediaURLs.length)
    (hmedia : ∀ (k : Nat) (hk : k < mediaURLs.length) (hb : k < mediaBodies.length),
      env.get (w.requests.length + 1 + k) mediaURLs[k] = .response 200 mediaBodies[k] none) :
    (assembleSegments env w (outputPath ++ ".m4a.tmp") initURL mediaURLs).err = none ∧
    (assembleSegments env w (outputPath ++ ".m4a.tmp") initURL mediaURLs).world.requests
      = w.requests ++ initURL :: mediaURLs ∧
    (assembleSegments env w (outputPath ++ ".m4a.tmp") initURL mediaURLs).world.files
        (outputPath ++ ".m4a.tmp")
      = some (initBody ++ mediaBodies.flatten) ∧
    DownloadFromManifest env w m outputPath =
      some (convertToFlac env
        (assembleSegments env w (outputPath ++ ".m4a.tmp") initURL mediaURLs).world
        (outputPath ++ ".m4a.tmp") outputPath) ∧
    (convertToFlac env
        (assembleSegments env w (outputPath ++ ".m4a.tmp") initURL mediaURLs).world
        (outputPath ++ ".m4a.tmp") outputPath).world.requests
      = w.requests ++ initURL :: mediaURLs := by
  have hinit2 : downloadInitSegment env (w.create (outputPath ++ ".m4a.tmp"))
      (outputPath ++ ".m4a.tmp") initURL
      = { world := ((w.create (outputPath ++ ".m4a.tmp")).request initURL).append
            (outputPath ++ ".m4a.tmp") initBody
          err := none } := by
    unfold downloadInitSegment
    have : (w.create (outputPath ++ ".m4a.tmp")).requests = w.requests := rfl
    simp only [this, hinit]
    rfl
  have hasmEq : assembleSegments env w (outputPath ++ ".m4a.tmp") initURL mediaURLs
      = downloadMediaSegments env (outputPath ++ ".m4a.tmp") 0 mediaURLs
          (((w.create (outputPath ++ ".m4a.tmp")).request initURL).append
            (outputPath ++ ".m4a.tmp") initBody) := by
    unfold assembleSegments
    simp only [hcreate, hinit2]
  have hfile : ((((w.create (outputPath ++ ".m4a.tmp")).request initURL).append
      (outputPath ++ ".m4a.tmp") initBody).files (outputPath ++ ".m4a.tmp")) = some initBody := by
    simp [World.append, World.request, World.create]
  have hmedia2 : ∀ (k : Nat) (hk : k < mediaURLs.length) (hb : k < mediaBodies.length),
      env.get ((((w.create (outputPath ++ ".m4a.tmp")).request initURL).append
        (outputPath ++ ".m4a.tmp") initBody).requests.length + k) mediaURLs[k]
        = .response 200 mediaBodies[k] none := by
    intro k hk hb
    rw [← hmedia k hk hb]
    simp [World.append, World.request, World.create]
  obtain ⟨h1, h2, h3⟩ := downloadMediaSegments_ok env (outputPath ++ ".m4a.tmp") mediaURLs
    mediaBodies 0 _ initBody hfile hlen hmedia2
  rw [← hasmEq] at h1 h2 h3
  have hreq : (assembleSegments env w (outputPath ++ ".m4a.tmp") initURL mediaURLs).world.requests
      = w.requests ++ initURL :: mediaURLs := by
    rw [h2]
    simp [World.append, World.request, World.create]
  refine ⟨h1, hreq, h3, DownloadFromManifest_segmented env w m outputPath initURL mediaURLs
    hparse h1, ?_⟩
  rw [convertToFlac_requests, hreq]

/-- C5 witness: the scenario-2 manifest with every request answered 200 and a
one-byte body: four requests, init.mp4 first, and the container holds the four
bodies in request order. -/
theorem DownloadFromManifest_assembles_witness :
    (assembleSegments (sampleEnv (.ok "ffmpeg") none goodRun) emptyWorld ("song.flac" ++ ".m4a.tmp")
        "init.mp4" ["seg-1.m4s", "seg-2.m4s", "seg-3.m4s"]).err = none ∧
    (assembleSegments (sampleEnv (.ok "ffmpeg") none goodRun) emptyWorld ("song.flac" ++ ".m4a.tmp")
        "init.mp4" ["seg-1.m4s", "seg-2.m4s", "seg-3.m4s"]).world.requests
      = emptyWorld.requests ++ "init.mp4" :: ["seg-1.m4s", "seg-2.m4s", "seg-3.m4s"] ∧
    (assembleSegments (sampleEnv (.ok "ffmpeg") none goodRun) emptyWorld ("song.flac" ++ ".m4a.tmp")
        "init.mp4" ["seg-1.m4s", "seg-2.m4s", "seg-3.m4s"]).world.files
        ("song.flac" ++ ".m4a.tmp")
      = some ([0] ++ [[1], [2], [3]].flatten) ∧
    DownloadFromManifest (sampleEnv (.ok "ffmpeg") none goodRun) emptyWorld "dash" "song.flac" =
      some (convertToFlac (sampleEnv (.ok "ffmpeg") none goodRun)
        (assembleSegments (sampleEnv (.ok "ffmpeg") none goodRun) emptyWorld
          ("song.flac" ++ ".m4a.tmp") "init.mp4" ["seg-1.m4s", "seg-2.m4s", "seg-3.m4s"]).world
        ("song.flac" ++ ".m4a.tmp") "song.flac") ∧
    (convertToFlac (sampleEnv (.ok "ffmpeg") none goodRun)
        (assembleSegments (sampleEnv (.ok "ffmpeg") none goodRun) emptyWorld
          ("song.flac" ++ ".m4a.tmp") "init.mp4" ["seg-1.m4s", "seg-2.m4s", "seg-3.m4s"]).world
        ("song.flac" ++ ".m4a.tmp") "song.flac").world.requests
      = emptyWorld.requests ++ "init.mp4" :: ["seg-1.m4s", "seg-2.m4s", "seg-3.m4s"] :=
  DownloadFromManifest_assembles (sampleEnv (.ok "ffmpeg") none goodRun) emptyWorld "dash" "song.flac"
    "init.mp4" ["seg-1.m4s", "seg-2.m4s", "seg-3.m4s"] [0] [[1], [2], [3]]
    (by decide) rfl rfl rfl
    (by
      intro k hk hb
      have hk3 : k < 3 := hk
      interval_cases k <;> rfl)

/-! ## After assembly: the transcoder -/

/-- C6 (evaluation at the failing input): with the scenario-2 manifest fully
assembled, a failed transcoder lookup, or a transcoder rejected by validation,
makes DownloadFromManifest return an error while the assembled container is
still on disk at outputPath + ".m4a.tmp". -/
theorem DownloadFromManifest_leaves_temp_without_transcoder :
    (DownloadFromManifest (sampleEnv (.error "ffmpeg not found") none goodRun) emptyWorld
        "dash" "song.flac").map (fun r => (r.err, r.world.files "song.flac.m4a.tmp"))
      = some (some "ffmpeg not found: ffmpeg not found", some [0, 1, 2, 3]) ∧
    (DownloadFromManifest (sampleEnv (.ok "ffmpeg") (some "not a regular file") goodRun)
        emptyWorld "dash" "song.flac").map (fun r => (r.err, r.world.files "song.flac.m4a.tmp"))
      = some (some "invalid ffmpeg executable: not a regular file", some [0, 1, 2, 3]) := by
  constructor <;> decide

/-- C7 (as amended): when all segments were assembled into the temporary
container and the transcoder run fails, DownloadFromManifest returns an error,
the assembled container is on disk at TrimSuffix(outputPath, ".flac") + ".m4a"
and no longer at the temporary path; for outputPath = base + ".flac" that
location is base + ".m4a". -/
theorem DownloadFromManifest_salvage (env : DownloadEnv) (w : World)
    (m outputPath initURL : String) (mediaURLs : List String) (ffmpegPath e : String)
    (hparse : parseManifest env.decoders m =
      some { directURL := "", initURL := initURL, mediaURLs := mediaURLs, err := none })
    (hasm : (assembleSegments env w (outputPath ++ ".m4a.tmp") initURL mediaURLs).err = none)
    (hff : env.ffmpegPath = .ok ffmpegPath)
    (hval : env.validateExecutable ffmpegPath = none)
    (hrun : (env.runFFmpeg
        [ffmpegPath, "-y", "-i", outputPath ++ ".m4a.tmp", "-vn", "-c:a", "flac", outputPath]
        ((assembleSegments env w (outputPath ++ ".m4a.tmp") initURL mediaURLs).world.files
          (outputPath ++ ".m4a.tmp"))).err = some e) :
    ∃ r : Outcome,
      DownloadFromManifest env w m outputPath = some r ∧
      r.err.isSome = true ∧
      ((assembleSegments env w (outputPath ++ ".m4a.tmp") initURL mediaURLs).world.files
        (outputPath ++ ".m4a.tmp")).isSome = true ∧
      r.world.files (trimSuffix outputPath ".flac" ++ ".m4a")
        = (assembleSegments env w (outputPath ++ ".m4a.tmp") initURL mediaURLs).world.files
            (outputPath ++ ".m4a.tmp") ∧
      r.world.files (outputPath ++ ".m4a.tmp") = none ∧
      ∀ base : String, outputPath = base ++ ".flac" →
        trimSuffix outputPath ".flac" ++ ".m4a" = base ++ ".m4a" := by
  have hsome := assembleSegments_keeps env w (outputPath ++ ".m4a.tmp") initURL mediaURLs hasm
  refine ⟨_, DownloadFromManifest_segmented env w m outputPath initURL mediaURLs hparse hasm,
    ?_, hsome, ?_, ?_, ?_⟩
  · unfold convertToFlac
    simp only [hff, hval, hrun]
    rfl
  · obtain ⟨content, hcontent⟩ := Option.isSome_iff_exists.mp hsome
    unfold convertToFlac
    simp only [hff, hval, hrun]
    cases (env.runFFmpeg
        [ffmpegPath, "-y", "-i", outputPath ++ ".m4a.tmp", "-vn", "-c:a", "flac", outputPath]
        ((assembleSegments env w (outputPath ++ ".m4a.tmp") initURL mediaURLs).world.files
          (outputPath ++ ".m4a.tmp"))).output with
    | none => simp [World.rename, hcontent]
    | some b => simp [World.rename, World.store, hcontent, tempPath_ne_outputPath]
  · obtain ⟨content, hcontent⟩ := Option.isSome_iff_exists.mp hsome
    unfold convertToFlac
    simp only [hff, hval, hrun]
    have hne := (m4aPath_ne_tempPath outputPath).symm
    cases (env.runFFmpeg
        [ffmpegPath, "-y", "-i", outputPath ++ ".m4a.tmp", "-vn", "-c:a", "flac", outputPath]
        ((assembleSegments env w (outputPath ++ ".m4a.tmp") initURL mediaURLs).world.files
          (outputPath ++ ".m4a.tmp"))).output with
    | none => simp [World.rename, hcontent, hne]
    | some b => simp [World.rename, World.store, hcontent, tempPath_ne_outputPath, hne]
  · intro base hbase
    rw [hbase, trimSuffix_append]

/-- C7 witness: for song.flac and a failing transcoder run, the four assembled
bytes end up at song.m4a and the temporary path is free. -/
theorem DownloadFromManifest_salvage_witness :
    (DownloadFromManifest (sampleEnv (.ok "ffmpeg") none failedRun) emptyWorld "dash"
        "song.flac").map
        (fun r => (r.err.isSome, r.world.files "song.m4a", r.world.files "song.flac.m4a.tmp"))
      = some (true, some [0, 1, 2, 3], none) ∧
    ∃ r : Outcome,
      DownloadFromManifest (sampleEnv (.ok "ffmpeg") none failedRun) emptyWorld "dash"
        "song.flac" = some r ∧
      r.err.isSome = true ∧
      ((assembleSegments (sampleEnv (.ok "ffmpeg") none failedRun) emptyWorld
        ("song.flac" ++ ".m4a.tmp") "init.mp4" ["seg-1.m4s", "seg-2.m4s", "seg-3.m4s"]).world.files
        ("song.flac" ++ ".m4a.tmp")).isSome = true ∧
      r.world.files (trimSuffix "song.flac" ".flac" ++ ".m4a")
        = (assembleSegments (sampleEnv (.ok "ffmpeg") none failedRun) emptyWorld
            ("song.flac" ++ ".m4a.tmp") "init.mp4"
            ["seg-1.m4s", "seg-2.m4s", "seg-3.m4s"]).world.files ("song.flac" ++ ".m4a.tmp") ∧
      r.world.files ("song.flac" ++ ".m4a.tmp") = none ∧
      ∀ base : String, "song.flac" = base ++ ".flac" →
        trimSuffix "song.flac" ".flac" ++ ".m4a" = base ++ ".m4a" :=
  ⟨by decide,
   DownloadFromManifest_salvage (sampleEnv (.ok "ffmpeg") none failedRun) emptyWorld "dash"
     "song.flac" "init.mp4" ["seg-1.m4s", "seg-2.m4s", "seg-3.m4s"] "ffmpeg" "exit status 1"
     (by decide) (by decide) rfl rfl rfl⟩

/-- C7 counterexample: for the output path song.mp3 the path without its
extension followed by .m4a is song.m4a; after a failed transcoder run nothing is
there, and the assembled container sits at song.mp3.m4a. -/
theorem DownloadFromManifest_salvage_other_extension :
    salvagePathInWords "song.mp3" = "song.m4a" ∧
    (DownloadFromManifest (sampleEnv (.ok "ffmpeg") none failedRun) emptyWorld "dash"
        "song.mp3").map
        (fun r => (r.err.isSome, r.world.files "song.m4a", r.world.files "song.mp3.m4a"))
      = some (true, none, some [0, 1, 2, 3]) := by
  constructor <;> decide

/-! ## Pacing of upstream calls -/

theorem resetWindow_same (now : Nat) (s : Session) :
    (resetWindow now s).recorded = s.recorded ∧
    (resetWindow now s).a.lastAPICallTime = s.a.lastAPICallTime ∧
    (resetWindow now s).clock = s.clock ∧
    (resetWindow now s).requests = s.requests ∧
    (resetWindow now s).sleeps = s.sleeps := by
  unfold resetWindow
  split <;> exact ⟨rfl, rfl, rfl, rfl, rfl⟩

theorem quotaWait_same (env : AmazonEnv) (now : Nat) (s : Session) :
    (quotaWait env now s).recorded = s.recorded ∧
    (quotaWait env now s).a.lastAPICallTime = s.a.lastAPICallTime ∧
    s.clock ≤ (quotaWait env now s).clock ∧
    (quotaWait env now s).requests = s.requests ∧
    cooldowns (quotaWait env now s).sleeps = cooldowns s.sleeps := by
  unfold quotaWait
  split
  · simp only
    split
    · refine ⟨rfl, rfl, ?_, rfl, ?_⟩
      · simp only [Session.timeNow, Session.sleep]
        omega
      · simp [Session.timeNow, Session.sleep, cooldowns]
    · exact ⟨rfl, rfl, le_refl _, rfl, rfl⟩
  · exact ⟨rfl, rfl, le_refl _, rfl, rfl⟩

theorem spacingWait_same (env : AmazonEnv) (now : Nat) (s : Session) :
    (spacingWait env now s).recorded = s.recorded ∧
    (spacingWait env now s).a.lastAPICallTime = s.a.lastAPICallTime ∧
    s.clock ≤ (spacingWait env now s).clock ∧
    (spacingWait env now s).requests = s.requests ∧
    cooldowns (spacingWait env now s).sleeps = cooldowns s.sleeps ∧
    (∀ last, s.a.lastAPICallTime = some last → now ≤ s.clock →
      last + 7000000000 ≤ (spacingWait env now s).clock) := by
  unfold spacingWait
  cases h : s.a.lastAPICallTime with
  | none => exact ⟨rfl, h, le_refl _, rfl, rfl, by intro last hl; simp at hl⟩
  | some last =>
    simp only
    split
    · rename_i hlt
      refine ⟨rfl, h, ?_, rfl, ?_, ?_⟩
      · simp only [Session.sleep]; omega
      · simp [Session.sleep, cooldowns]
      · intro l hl hnow
        simp only [Option.some.injEq] at hl
        subst hl
        simp only [Session.sleep, second] at hlt ⊢
        omega
    · rename_i hge
      refine ⟨rfl, h, le_refl _, rfl, rfl, ?_⟩
      intro l hl hnow
      simp only [Option.some.injEq] at hl
      subst hl
      simp only [second] at hge
      omega

theorem rateLimitWait_paced (env : AmazonEnv) (s : Session) (h : s.paced 0) :
    (rateLimitWait env s).paced 7000000000 ∧
    (rateLimitWait env s).requests = s.requests ∧
    cooldowns (rateLimitWait env s).sleeps = cooldowns s.sleeps := by
  unfold rateLimitWait
  simp only [Session.timeNow]
  generalize hs1 : ({ s with clock := s.clock + env.delay s.tick, tick := s.tick + 1 } : Session) = s1
  have hr1 : s1.recorded = s.recorded := by rw [← hs1]
  have hl1 : s1.a.lastAPICallTime = s.a.lastAPICallTime := by rw [← hs1]
  have hc1 : s1.clock = s.clock + env.delay s.tick := by rw [← hs1]
  have hq1 : s1.requests = s.requests := by rw [← hs1]
  have hsl1 : s1.sleeps = s.sleeps := by rw [← hs1]
  obtain ⟨ra, rb, rc, rd, re⟩ := resetWindow_same (s.clock + env.delay s.tick) s1
  obtain ⟨qa, qb, qc, qd, qe⟩ :=
    quotaWait_same env (s.clock + env.delay s.tick) (resetWindow (s.clock + env.delay s.tick) s1)
  obtain ⟨pa, pb, pc, pd, pe, pf⟩ :=
    spacingWait_same env (s.clock + env.delay s.tick)
      (quotaWait env (s.clock + env.delay s.tick) (resetWindow (s.clock + env.delay s.tick) s1))
  obtain ⟨h1, h2, h3⟩ := h
  refine ⟨⟨?_, ?_, ?_⟩, ?_, ?_⟩
  · rw [pa, qa, ra, hr1]; exact h1
  · rw [pb, qb, rb, hl1, pa, qa, ra, hr1]; exact h2
  · intro t ht
    rw [pa, qa, ra, hr1] at ht
    apply pf t
    · rw [qb, rb, hl1, h2]; exact ht
    · omega
  · rw [pd, qd, rd, hq1]
  · rw [pe, qe, re, hsl1]

theorem recordCall_facts (env : AmazonEnv) (s : Session) :
    (s.recordCall env).recorded = s.recorded ++ [s.clock + env.delay s.tick] ∧
    (s.recordCall env).a.lastAPICallTime = some (s.clock + env.delay s.tick) ∧
    (s.recordCall env).clock = s.clock + env.delay s.tick ∧
    (s.recordCall env).requests = s.requests ∧
    (s.recordCall env).sleeps = s.sleeps :=
  ⟨rfl, rfl, rfl, rfl, rfl⟩

theorem recordCall_paced (env : AmazonEnv) (s s0 : Session) (h : s0.paced 7000000000)
    (hr : s.recorded = s0.recorded) (hc : s0.clock ≤ s.clock) :
    (s.recordCall env).paced 0 := by
  obtain ⟨h1, h2, h3⟩ := h
  obtain ⟨ra, rb, rc, _, _⟩ := recordCall_facts env s
  refine ⟨?_, ?_, ?_⟩
  · rw [ra, hr]
    apply List.Chain'.append h1 (List.chain'_singleton _)
    intro x hx y hy
    simp only [List.head?_cons, Option.mem_def, Option.some.injEq] at hy
    have := h3 x hx
    unfold spaced
    omega
  · rw [ra, rb, List.getLast?_concat]
  · intro t ht
    rw [ra, List.getLast?_concat] at ht
    simp only [Option.some.injEq] at ht
    rw [rc]
    omega

theorem paced_mono (s s1 : Session) (m : Nat) (h : s.paced m)
    (hr : s1.recorded = s.recorded) (hl : s1.a.lastAPICallTime = s.a.lastAPICallTime)
    (hc : s.clock ≤ s1.clock) : s1.paced 0 := by
  obtain ⟨h1, h2, h3⟩ := h
  refine ⟨hr ▸ h1, by rw [hl, hr]; exact h2, ?_⟩
  intro t ht
  rw [hr] at ht
  have := h3 t ht
  omega

theorem requestLoop_paced (env : AmazonEnv) (spotifyTrackID : String) (maxRetries : Int) :
    ∀ (fuel : Nat) (i : Int) (prev : Option Response) (s : Session),
      s.paced 7000000000 →
      (requestLoop env spotifyTrackID maxRetries fuel i prev s).1.paced 0 := by
  intro fuel
  induction fuel with
  | zero =>
    intro i prev s h
    exact paced_mono s s _ h rfl rfl (le_refl _)
  | succ fuel ih =>
    intro i prev s h
    unfold requestLoop
    simp only [Session.clientDo]
    cases hresp : env.respond s.requests spotifyTrackID with
    | error e =>
      simp only
      exact paced_mono s _ _ h rfl rfl (Nat.le_add_right _ _)
    | ok resp =>
      simp only
      have hrec := recordCall_paced env
        { s with clock := s.clock + env.delay s.tick, tick := s.tick + 1,
                 requests := s.requests + 1 } s h rfl (Nat.le_add_right _ _)
      split
      · split
        · apply ih
          obtain ⟨h1, h2, h3⟩ := hrec
          refine ⟨h1, h2, ?_⟩
          intro t ht
          have := h3 t ht
          simp only [Session.sleep, second] at this ⊢
          omega
        · exact hrec
      · split
        · exact hrec
        · exact hrec

theorem GetAmazonURLFromSpotify_paced (env : AmazonEnv) (spotifyTrackID : String) (s : Session)
    (h : s.paced 0) : (GetAmazonURLFromSpotify env spotifyTrackID s).1.paced 0 := by
  have hloop := requestLoop_paced env spotifyTrackID 3 3 0 none (rateLimitWait env s)
    (rateLimitWait_paced env s h).1
  unfold GetAmazonURLFromSpotify
  simp only
  split <;> rename_i heq <;> rw [heq] at hloop <;> exact hloop

theorem newSession_paced (t0 : Nat) : (newSession t0).paced 0 :=
  ⟨List.chain'_nil, rfl, by intro t ht; simp [newSession] at ht⟩

theorem runCalls_paced (env : AmazonEnv) :
    ∀ (ids : List String) (s : Session), s.paced 0 → (runCalls env ids s).paced 0 := by
  intro ids
  induction ids with
  | nil => intro s h; exact h
  | cons spotifyTrackID rest ih =>
    intro s h
    exact ih _ (GetAmazonURLFromSpotify_paced env spotifyTrackID s h)

theorem spaced_window_length :
    ∀ (l : List Nat) (lo hi : Nat), List.Pairwise spaced l →
      (∀ x ∈ l, lo ≤ x ∧ x ≤ hi) → l = [] ∨ lo + l.length * 7000000000 ≤ hi + 7000000000 := by
  intro l
  induction l with
  | nil => intro lo hi _ _; exact Or.inl rfl
  | cons x rest ih =>
    intro lo hi hp hb
    right
    rw [List.pairwise_cons] at hp
    have hx := hb x (List.mem_cons_self _ _)
    rcases ih (x + 7000000000) hi hp.2 (fun y hy =>
        ⟨hp.1 y hy, (hb y (List.mem_cons_of_mem _ hy)).2⟩) with hnil | hlen
    · subst hnil
      simp only [List.length_singleton]
      omega
    · simp only [List.length_cons]
      omega

/-- C9: for every sequence of GetAmazonURLFromSpotify calls on one new
AmazonDownloader, whatever time the clock lets pass at each step and however
the upstream answers, any two consecutive values stored in lastAPICallTime
(retries inside one invocation included) are at least 7 seconds apart. -/
theorem GetAmazonURLFromSpotify_spacing (env : AmazonEnv) (ids : List String) (t0 : Nat)
    (i : Nat) (h : i + 1 < (runCalls env ids (newSession t0)).recorded.length) :
    (runCalls env ids (newSession t0)).recorded[i] + 7000000000
      ≤ (runCalls env ids (newSession t0)).recorded[i + 1] := by
  have hp := (runCalls_paced env ids (newSession t0) (newSession_paced t0)).1
  have := List.chain'_iff_get.mp hp i (by omega)
  simpa [spaced] using this

/-- C9 witness: three calls answered 200 with no time lost give recorded
calls at 0, 7 and 14 seconds. -/
theorem GetAmazonURLFromSpotify_spacing_witness :
    (runCalls (throttledEnv 0) ["a", "b", "c"] (newSession 0)).recorded
        = [0, 7000000000, 14000000000] ∧
      (runCalls (throttledEnv 0) ["a", "b", "c"] (newSession 0)).recorded[0]?.getD 0 + 7000000000
        ≤ (runCalls (throttledEnv 0) ["a", "b", "c"] (newSession 0)).recorded[1]?.getD 0 := by
  have h : (runCalls (throttledEnv 0) ["a", "b", "c"] (newSession 0)).recorded
      = [0, 7000000000, 14000000000] := by decide
  have hlen : 0 + 1 < (runCalls (throttledEnv 0) ["a", "b", "c"] (newSession 0)).recorded.length := by
    rw [h]; decide
  have := GetAmazonURLFromSpotify_spacing (throttledEnv 0) ["a", "b", "c"] 0 0 hlen
  refine ⟨h, ?_⟩
  rw [List.getElem?_eq_getElem (by omega), List.getElem?_eq_getElem hlen]
  exact this

/-- C8: for every sequence of GetAmazonURLFromSpotify calls on one new
AmazonDownloader, under a monotone clock on which a sleep of d lasts at least
d, at most 9 recorded upstream calls fall in any window of 60 seconds
[t, t + 60 s], whatever its start t. -/
theorem GetAmazonURLFromSpotify_quota (env : AmazonEnv) (ids : List String) (t0 t : Nat) :
    ((runCalls env ids (newSession t0)).recorded.filter
      (fun c => decide (t ≤ c ∧ c ≤ t + 60000000000))).length ≤ 9 := by
  have hp := (runCalls_paced env ids (newSession t0) (newSession_paced t0)).1
  have hpw := (List.chain'_iff_pairwise.mp hp).filter
    (fun c => decide (t ≤ c ∧ c ≤ t + 60000000000))
  rcases spaced_window_length _ t (t + 60000000000) hpw (by
      intro x hx
      have := (List.mem_filter.mp hx).2
      simpa using this) with hnil | hlen
  · rw [hnil]; simp
  · omega

/-! ## Retry on throttling -/

theorem requestLoop_retry (env : AmazonEnv) (spotifyTrackID : String) (maxRetries : Int)
    (fuel : Nat) (i : Int) (prev : Option Response) (s : Session) (resp : Response)
    (hresp : env.respond s.requests spotifyTrackID = .ok resp)
    (hstatus : resp.statusCode = 429) (hi : i < maxRetries - 1) :
    requestLoop env spotifyTrackID maxRetries (fuel + 1) i prev s =
      requestLoop env spotifyTrackID maxRetries fuel (i + 1) (some resp)
        (((s.clientDo env spotifyTrackID).2.recordCall env).sleep env SleepReason.cooldown
          (15 * second)) := by
  rw [requestLoop]
  simp only [Session.clientDo, hresp, hstatus, if_true, if_pos hi]

theorem requestLoop_exhausted (env : AmazonEnv) (spotifyTrackID : String) (maxRetries : Int)
    (fuel : Nat) (i : Int) (prev : Option Response) (s : Session) (resp : Response)
    (hresp : env.respond s.requests spotifyTrackID = .ok resp)
    (hstatus : resp.statusCode = 429) (hi : ¬ i < maxRetries - 1) :
    requestLoop env spotifyTrackID maxRetries (fuel + 1) i prev s =
      ((s.clientDo env spotifyTrackID).2.recordCall env,
        .error ("API rate limit exceeded after " ++ decimal maxRetries ++ " retries")) := by
  rw [requestLoop]
  simp only [Session.clientDo, hresp, hstatus, if_true, if_neg hi]

theorem requestLoop_success (env : AmazonEnv) (spotifyTrackID : String) (maxRetries : Int)
    (fuel : Nat) (i : Int) (prev : Option Response) (s : Session) (resp : Response)
    (hresp : env.respond s.requests spotifyTrackID = .ok resp)
    (hstatus : resp.statusCode = 200) :
    requestLoop env spotifyTrackID maxRetries (fuel + 1) i prev s =
      ((s.clientDo env spotifyTrackID).2.recordCall env, .ok (some resp)) := by
  rw [requestLoop]
  simp only [Session.clientDo, hresp, hstatus]
  simp

theorem retryStep_facts (env : AmazonEnv) (spotifyTrackID : String) (s : Session) :
    (((s.clientDo env spotifyTrackID).2.recordCall env).sleep env SleepReason.cooldown
        (15 * second)).requests = s.requests + 1 ∧
    cooldowns (((s.clientDo env spotifyTrackID).2.recordCall env).sleep env SleepReason.cooldown
        (15 * second)).sleeps = cooldowns s.sleeps ++ [15 * second] ∧
    ((s.clientDo env spotifyTrackID).2.recordCall env).requests = s.requests + 1 ∧
    cooldowns ((s.clientDo env spotifyTrackID).2.recordCall env).sleeps = cooldowns s.sleeps := by
  refine ⟨rfl, ?_, rfl, rfl⟩
  simp [Session.sleep, Session.recordCall, Session.clientDo, Session.timeNow, cooldowns]

theorem requestLoop_requests_le (env : AmazonEnv) (spotifyTrackID : String) (maxRetries : Int) :
    ∀ (fuel : Nat) (i : Int) (prev : Option Response) (s : Session),
      (requestLoop env spotifyTrackID maxRetries fuel i prev s).1.requests ≤ s.requests + fuel := by
  intro fuel
  induction fuel with
  | zero => intro i prev s; exact le_refl _
  | succ fuel ih =>
    intro i prev s
    unfold requestLoop
    simp only [Session.clientDo]
    cases hresp : env.respond s.requests spotifyTrackID with
    | error e => simp only; omega
    | ok resp =>
      simp only
      split
      · split
        · have := ih (i + 1) (some resp)
            ((Session.recordCall env
              { s with clock := s.clock + env.delay s.tick, tick := s.tick + 1,
                       requests := s.requests + 1 }).sleep env SleepReason.cooldown (15 * second))
          have hq : ((Session.recordCall env
              { s with clock := s.clock + env.delay s.tick, tick := s.tick + 1,
                       requests := s.requests + 1 }).sleep env SleepReason.cooldown
              (15 * second)).requests = s.requests + 1 := rfl
          omega
        · show s.requests + 1 ≤ _
          omega
      · split
        · show s.requests + 1 ≤ _
          omega
        · show s.requests + 1 ≤ _
          omega

theorem GetAmazonURLFromSpotify_of_loop (env : AmazonEnv) (spotifyTrackID : String)
    (s : Session) :
    (GetAmazonURLFromSpotify env spotifyTrackID s).1
      = (requestLoop env spotifyTrackID 3 3 0 none (rateLimitWait env s)).1 := by
  unfold GetAmazonURLFromSpotify
  simp only
  split <;> rename_i heq <;> rw [heq]

theorem GetAmazonURLFromSpotify_of_loop_ok (env : AmazonEnv) (spotifyTrackID : String)
    (s s2 : Session) (resp : Response)
    (h : requestLoop env spotifyTrackID 3 3 0 none (rateLimitWait env s) = (s2, .ok (some resp))) :
    GetAmazonURLFromSpotify env spotifyTrackID s = (s2, decodeAmazonURL env resp) := by
  unfold GetAmazonURLFromSpotify
  simp only [h]

theorem GetAmazonURLFromSpotify_of_loop_error (env : AmazonEnv) (spotifyTrackID : String)
    (s s2 : Session) (e : String)
    (h : requestLoop env spotifyTrackID 3 3 0 none (rateLimitWait env s) = (s2, .error e)) :
    GetAmazonURLFromSpotify env spotifyTrackID s = (s2, .error e) := by
  unfold GetAmazonURLFromSpotify
  simp only [h]

/-- C10: in GetAmazonURLFromSpotify (maxRetries = 3), if the first k responses
(k <= 2) have status 429 and the next one has status 200, exactly k + 1 requests
are issued, exactly k cool-down sleeps of 15 seconds are made, and the call goes
on to decode that response; if the first three responses all have status 429,
exactly 3 requests are issued (with 2 cool-down sleeps) and the call fails with
"API rate limit exceeded after 3 retries"; in every case at most 3 requests are
issued. -/
theorem GetAmazonURLFromSpotify_throttled (env : AmazonEnv) (spotifyTrackID : String)
    (s : Session) (resp : Nat → Response) :
    (∀ k : Nat, k ≤ 2 →
      (∀ j : Nat, j ≤ k → env.respond (s.requests + j) spotifyTrackID = .ok (resp j)) →
      (∀ j : Nat, j < k → (resp j).statusCode = 429) →
      (resp k).statusCode = 200 →
      (GetAmazonURLFromSpotify env spotifyTrackID s).1.requests = s.requests + (k + 1) ∧
      cooldowns (GetAmazonURLFromSpotify env spotifyTrackID s).1.sleeps
        = cooldowns s.sleeps ++ List.replicate k (15 * second) ∧
      (GetAmazonURLFromSpotify env spotifyTrackID s).2 = decodeAmazonURL env (resp k)) ∧
    ((∀ j : Nat, j ≤ 2 → env.respond (s.requests + j) spotifyTrackID = .ok (resp j)) →
      (∀ j : Nat, j ≤ 2 → (resp j).statusCode = 429) →
      (GetAmazonURLFromSpotify env spotifyTrackID s).1.requests = s.requests + 3 ∧
      cooldowns (GetAmazonURLFromSpotify env spotifyTrackID s).1.sleeps
        = cooldowns s.sleeps ++ List.replicate 2 (15 * second) ∧
      (GetAmazonURLFromSpotify env spotifyTrackID s).2
        = .error "API rate limit exceeded after 3 retries") ∧
    (GetAmazonURLFromSpotify env spotifyTrackID s).1.requests ≤ s.requests + 3 := by
  obtain ⟨_, hq, hcd⟩ : True ∧ (rateLimitWait env s).requests = s.requests ∧
      cooldowns (rateLimitWait env s).sleeps = cooldowns s.sleeps := by
    refine ⟨trivial, ?_, ?_⟩
    · unfold rateLimitWait
      simp only [Session.timeNow]
      rw [(spacingWait_same env _ _).2.2.2.1, (quotaWait_same env _ _).2.2.2.1,
        (resetWindow_same _ _).2.2.2.1]
    · unfold rateLimitWait
      simp only [Session.timeNow]
      rw [(spacingWait_same env _ _).2.2.2.2.1, (quotaWait_same env _ _).2.2.2.2,
        (resetWindow_same _ _).2.2.2.2]
  generalize hs1 : rateLimitWait env s = s1 at hq hcd
  refine ⟨?_, ?_, ?_⟩
  · intro k hk hresp h429 h200
    have hr0 := hresp 0 (Nat.zero_le _)
    rw [Nat.add_zero, ← hq] at hr0
    obtain ⟨f1, f2, f3, f4⟩ := retryStep_facts env spotifyTrackID s1
    interval_cases k
    · have hloop := requestLoop_success env spotifyTrackID 3 2 0 none s1 (resp 0) hr0 h200
      rw [← hs1] at hloop
      rw [GetAmazonURLFromSpotify_of_loop_ok env spotifyTrackID s _ _ hloop]
      rw [hs1]
      exact ⟨by rw [f3, hq], by rw [f4, hcd]; simp, rfl⟩
    · have hloop1 := requestLoop_retry env spotifyTrackID 3 2 0 none s1 (resp 0) hr0
        (h429 0 (by omega)) (by omega)
      have hr1 := hresp 1 (le_refl _)
      rw [← hq, ← f1] at hr1
      obtain ⟨g1, g2, g3, g4⟩ := retryStep_facts env spotifyTrackID
        (((s1.clientDo env spotifyTrackID).2.recordCall env).sleep env SleepReason.cooldown
          (15 * second))
      have hloop2 := requestLoop_success env spotifyTrackID 3 1 (0 + 1) (some (resp 0)) _
        (resp 1) hr1 h200
      rw [← hloop1, ← hs1] at hloop2
      rw [GetAmazonURLFromSpotify_of_loop_ok env spotifyTrackID s _ _ hloop2]
      rw [hs1]
      exact ⟨by rw [g3, f1, hq], by rw [g4, f2, hcd]; rfl, rfl⟩
    · have hloop1 := requestLoop_retry env spotifyTrackID 3 2 0 none s1 (resp 0) hr0
        (h429 0 (by omega)) (by omega)
      have hr1 := hresp 1 (by omega)
      rw [← hq, ← f1] at hr1
      obtain ⟨g1, g2, g3, g4⟩ := retryStep_facts env spotifyTrackID
        (((s1.clientDo env spotifyTrackID).2.recordCall env).sleep env SleepReason.cooldown
          (15 * second))
      have hloop2 := requestLoop_retry env spotifyTrackID 3 1 (0 + 1) (some (resp 0)) _
        (resp 1) hr1 (h429 1 (by omega)) (by omega)
      have hr2 := hresp 2 (le_refl _)
      have h12 : s.requests + 2 = s1.requests + 1 + 1 := by omega
      rw [h12, ← f1, ← g1] at hr2
      obtain ⟨k1, k2, k3, k4⟩ := retryStep_facts env spotifyTrackID
        ((((((s1.clientDo env spotifyTrackID).2.recordCall env).sleep env SleepReason.cooldown
          (15 * second)).clientDo env spotifyTrackID).2.recordCall env).sleep env
          SleepReason.cooldown (15 * second))
      have hloop3 := requestLoop_success env spotifyTrackID 3 0 (0 + 1 + 1) (some (resp 1)) _
        (resp 2) hr2 h200
      rw [← hloop2, ← hloop1, ← hs1] at hloop3
      rw [GetAmazonURLFromSpotify_of_loop_ok env spotifyTrackID s _ _ hloop3]
      rw [hs1]
      refine ⟨by rw [k3, g1, f1, hq], ?_, rfl⟩
      rw [k4, g2, f2, hcd]
      simp [List.replicate]
  · intro hresp h429
    have hr0 := hresp 0 (Nat.zero_le _)
    rw [Nat.add_zero, ← hq] at hr0
    obtain ⟨f1, f2, f3, f4⟩ := retryStep_facts env spotifyTrackID s1
    have hloop1 := requestLoop_retry env spotifyTrackID 3 2 0 none s1 (resp 0) hr0
      (h429 0 (by omega)) (by omega)
    have hr1 := hresp 1 (by omega)
    rw [← hq, ← f1] at hr1
    obtain ⟨g1, g2, g3, g4⟩ := retryStep_facts env spotifyTrackID
      (((s1.clientDo env spotifyTrackID).2.recordCall env).sleep env SleepReason.cooldown
        (15 * second))
    have hloop2 := requestLoop_retry env spotifyTrackID 3 1 (0 + 1) (some (resp 0)) _
      (resp 1) hr1 (h429 1 (by omega)) (by omega)
    have hr2 := hresp 2 (le_refl _)
    have h12 : s.requests + 2 = s1.requests + 1 + 1 := by omega
    rw [h12, ← f1, ← g1] at hr2
    obtain ⟨k1, k2, k3, k4⟩ := retryStep_facts env spotifyTrackID
      ((((((s1.clientDo env spotifyTrackID).2.recordCall env).sleep env SleepReason.cooldown
        (15 * second)).clientDo env spotifyTrackID).2.recordCall env).sleep env
        SleepReason.cooldown (15 * second))
    have hloop3 := requestLoop_exhausted env spotifyTrackID 3 0 (0 + 1 + 1) (some (resp 1)) _
      (resp 2) hr2 (h429 2 (le_refl _)) (by omega)
    rw [← hloop2, ← hloop1, ← hs1] at hloop3
    rw [GetAmazonURLFromSpotify_of_loop_error env spotifyTrackID s _ _ hloop3]
    rw [hs1]
    refine ⟨by rw [k3, g1, f1, hq], ?_, ?_⟩
    · rw [k4, g2, f2, hcd]
      simp [List.replicate]
    · have : decimal 3 = "3" := by decide
      simp only [this]
      rfl
  · rw [GetAmazonURLFromSpotify_of_loop]
    have := requestLoop_requests_le env spotifyTrackID 3 3 0 none (rateLimitWait env s)
    rw [hs1] at this ⊢
    omega

/-- C10 witness: two 429 responses and then a 200 on a new downloader: three
requests, two cool-down sleeps of 15 seconds, and the third response is
decoded. -/
theorem GetAmazonURLFromSpotify_throttled_witness :
    (GetAmazonURLFromSpotify (throttledEnv 2) "t" (newSession 0)).1.requests
      = (newSession 0).requests + (2 + 1) ∧
    cooldowns (GetAmazonURLFromSpotify (throttledEnv 2) "t" (newSession 0)).1.sleeps
      = cooldowns (newSession 0).sleeps ++ List.replicate 2 (15 * second) ∧
    (GetAmazonURLFromSpotify (throttledEnv 2) "t" (newSession 0)).2
      = decodeAmazonURL (throttledEnv 2) { statusCode := 200, body := .ok "" } :=
  (GetAmazonURLFromSpotify_throttled (throttledEnv 2) "t" (newSession 0)
    (fun j => { statusCode := if j < 2 then 429 else 200, body := .ok "" })).1 2 (le_refl _)
    (by intro j hj; interval_cases j <;> rfl)
    (by intro j hj; interval_cases j <;> rfl)
    rfl

/-! ## Failure without retry -/

theorem rateLimitWait_requests (env : AmazonEnv) (s : Session) :
    (rateLimitWait env s).requests = s.requests ∧
    cooldowns (rateLimitWait env s).sleeps = cooldowns s.sleeps := by
  constructor
  · unfold rateLimitWait
    simp only [Session.timeNow]
    rw [(spacingWait_same env _ _).2.2.2.1, (quotaWait_same env _ _).2.2.2.1,
      (resetWindow_same _ _).2.2.2.1]
  · unfold rateLimitWait
    simp only [Session.timeNow]
    rw [(spacingWait_same env _ _).2.2.2.2.1, (quotaWait_same env _ _).2.2.2.2,
      (resetWindow_same _ _).2.2.2.2]

theorem requestLoop_transport (env : AmazonEnv) (spotifyTrackID : String) (maxRetries : Int)
    (fuel : Nat) (i : Int) (prev : Option Response) (s : Session) (e : String)
    (hresp : env.respond s.requests spotifyTrackID = .error e) :
    requestLoop env spotifyTrackID maxRetries (fuel + 1) i prev s =
      ((s.clientDo env spotifyTrackID).2, .error ("failed to get Amazon URL: " ++ e)) := by
  rw [requestLoop]
  simp only [Session.clientDo, hresp]

theorem requestLoop_status (env : AmazonEnv) (spotifyTrackID : String) (maxRetries : Int)
    (fuel : Nat) (i : Int) (prev : Option Response) (s : Session) (resp : Response)
    (hresp : env.respond s.requests spotifyTrackID = .ok resp)
    (h200 : resp.statusCode ≠ 200) (h429 : resp.statusCode ≠ 429) :
    requestLoop env spotifyTrackID maxRetries (fuel + 1) i prev s =
      ((s.clientDo env spotifyTrackID).2.recordCall env,
        .error ("API returned status " ++ decimal resp.statusCode)) := by
  rw [requestLoop]
  simp only [Session.clientDo, hresp, if_neg h429, ne_eq, h200, not_false_eq_true, if_true]

theorem requestLoop_after_retries (env : AmazonEnv) (spotifyTrackID : String)
    (maxRetries : Int) (resp : Nat → Response) :
    ∀ (k fuel : Nat) (i : Int) (prev : Option Response) (s : Session),
      (∀ j : Nat, j < k →
        env.respond (s.requests + j) spotifyTrackID = .ok (resp j) ∧ (resp j).statusCode = 429) →
      i + (k : Int) < maxRetries →
      ∃ (prev1 : Option Response) (s1 : Session),
        requestLoop env spotifyTrackID maxRetries (fuel + 1 + k) i prev s
          = requestLoop env spotifyTrackID maxRetries (fuel + 1) (i + (k : Int)) prev1 s1 ∧
        s1.requests = s.requests + k ∧
        cooldowns s1.sleeps = cooldowns s.sleeps ++ List.replicate k (15 * second) := by
  intro k
  induction k generalizing resp with
  | zero =>
    intro fuel i prev s _ _
    exact ⟨prev, s, by simp, rfl, by simp⟩
  | succ k ih =>
    intro fuel i prev s h429 hi
    obtain ⟨h0r, h0s⟩ := h429 0 (Nat.succ_pos _)
    rw [Nat.add_zero] at h0r
    obtain ⟨f1, f2, _, _⟩ := retryStep_facts env spotifyTrackID s
    have hstep := requestLoop_retry env spotifyTrackID maxRetries (fuel + 1 + k) i prev s
      (resp 0) h0r h0s (by push_cast at hi; omega)
    obtain ⟨prev1, s1, hloop, hq, hcd⟩ := ih (fun j => resp (j + 1)) fuel (i + 1) (some (resp 0))
      (((s.clientDo env spotifyTrackID).2.recordCall env).sleep env SleepReason.cooldown
        (15 * second))
      (by
        intro j hj
        have := h429 (j + 1) (by omega)
        rw [f1]
        have hidx : s.requests + 1 + j = s.requests + (j + 1) := by omega
        rw [hidx]
        exact this)
      (by push_cast at hi; omega)
    refine ⟨prev1, s1, ?_, ?_, ?_⟩
    · have hf : fuel + 1 + (k + 1) = fuel + 1 + k + 1 := by omega
      rw [hf, hstep, hloop]
      congr 1
      push_cast
      omega
    · rw [hq, f1]; omega
    · rw [hcd, f2, List.append_assoc]
      congr 1

/-- C11: in GetAmazonURLFromSpotify, if an attempt (reached after k <= 2
throttled responses) ends in a transport error or in a response whose status
is neither 200 nor 429, the call returns an error at once: the request count
stops at k + 1 and the only cool-down sleeps are the k made for the earlier
429 responses. -/
theorem GetAmazonURLFromSpotify_generic_failure (env : AmazonEnv) (spotifyTrackID : String)
    (s : Session) (resp : Nat → Response) (k : Nat) (hk : k ≤ 2)
    (h429 : ∀ j : Nat, j < k →
      env.respond (s.requests + j) spotifyTrackID = .ok (resp j) ∧ (resp j).statusCode = 429) :
    (∀ e : String, env.respond (s.requests + k) spotifyTrackID = .error e →
      (GetAmazonURLFromSpotify env spotifyTrackID s).1.requests = s.requests + (k + 1) ∧
      cooldowns (GetAmazonURLFromSpotify env spotifyTrackID s).1.sleeps
        = cooldowns s.sleeps ++ List.replicate k (15 * second) ∧
      (GetAmazonURLFromSpotify env spotifyTrackID s).2
        = .error ("failed to get Amazon URL: " ++ e)) ∧
    (∀ r : Response, env.respond (s.requests + k) spotifyTrackID = .ok r →
      r.statusCode ≠ 200 → r.statusCode ≠ 429 →
      (GetAmazonURLFromSpotify env spotifyTrackID s).1.requests = s.requests + (k + 1) ∧
      cooldowns (GetAmazonURLFromSpotify env spotifyTrackID s).1.sleeps
        = cooldowns s.sleeps ++ List.replicate k (15 * second) ∧
      (GetAmazonURLFromSpotify env spotifyTrackID s).2
        = .error ("API returned status " ++ decimal r.statusCode)) := by
  obtain ⟨hq, hcd⟩ := rateLimitWait_requests env s
  obtain ⟨prev1, s1, hloop, hq1, hcd1⟩ :=
    requestLoop_after_retries env spotifyTrackID 3 resp k (2 - k) 0 none (rateLimitWait env s)
      (by intro j hj; rw [hq]; exact h429 j hj) (by omega)
  have hfuel : 2 - k + 1 + k = 3 := by omega
  rw [hfuel] at hloop
  rw [hq] at hq1
  rw [hcd] at hcd1
  constructor
  · intro e he
    rw [← hq1] at he
    have hfin := requestLoop_transport env spotifyTrackID 3 (2 - k) (0 + (k : Int)) prev1 s1 e he
    rw [← hloop] at hfin
    rw [GetAmazonURLFromSpotify_of_loop_error env spotifyTrackID s _ _ hfin]
    exact ⟨by show s1.requests + 1 = _; omega, hcd1, rfl⟩
  · intro r hr h200 hn429
    rw [← hq1] at hr
    have hfin := requestLoop_status env spotifyTrackID 3 (2 - k) (0 + (k : Int)) prev1 s1 r hr
      h200 hn429
    rw [← hloop] at hfin
    rw [GetAmazonURLFromSpotify_of_loop_error env spotifyTrackID s _ _ hfin]
    obtain ⟨_, _, f3, f4⟩ := retryStep_facts env spotifyTrackID s1
    exact ⟨by rw [f3]; omega, by rw [f4]; exact hcd1, rfl⟩

/-- C11 witness: one 429 followed by a 503 on a new downloader: two requests,
the single cool-down sleep of the 429, and the error "API returned status
503". -/
theorem GetAmazonURLFromSpotify_generic_failure_witness :
    (GetAmazonURLFromSpotify
        (failingEnv 1 (.ok { statusCode := 503, body := .ok "" })) "t" (newSession 0)).1.requests
      = (newSession 0).requests + (1 + 1) ∧
    cooldowns (GetAmazonURLFromSpotify
        (failingEnv 1 (.ok { statusCode := 503, body := .ok "" })) "t" (newSession 0)).1.sleeps
      = cooldowns (newSession 0).sleeps ++ List.replicate 1 (15 * second) ∧
    (GetAmazonURLFromSpotify
        (failingEnv 1 (.ok { statusCode := 503, body := .ok "" })) "t" (newSession 0)).2
      = .error ("API returned status " ++ decimal 503) :=
  (GetAmazonURLFromSpotify_generic_failure
    (failingEnv 1 (.ok { statusCode := 503, body := .ok "" })) "t" (newSession 0)
    (fun _ => { statusCode := 429, body := .ok "" }) 1 (by decide)
    (by intro j hj; interval_cases j; exact ⟨rfl, rfl⟩)).2
    { statusCode := 503, body := .ok "" } rfl (by decide) (by decide)

/-! ## No initialization URL -/

theorem findAttr_none_iff (key text : List Char) :
    findAttr key text = none ↔
      ¬ ∃ pre I post, text = pre ++ ((key ++ ['=', '"']) ++ (I ++ '"' :: post)) ∧
        I ≠ [] ∧ '"' ∉ I := by
  constructor
  · intro hnone hex
    obtain ⟨pre, I, post, htext, hI, hq⟩ := hex
    obtain ⟨J, hJ⟩ := findAttr_complete key I post hI hq pre
    rw [← htext, hnone] at hJ
    exact absurd hJ (by simp)
  · intro hno
    cases hf : findAttr key text with
    | none => rfl
    | some J =>
      obtain ⟨hJ, hq, pre, post, htext⟩ := findAttr_sound key text J hf
      exact absurd ⟨pre, J, post, htext, hJ, hq⟩ hno

theorem resolveTemplates_init_empty_iff (t : SegmentTemplate) (raw : String) :
    (resolveTemplates t raw).1 = "" ↔
      t.Initialization = "" ∧ findAttr "initialization".data raw.data = none := by
  unfold resolveTemplates
  by_cases hI : t.Initialization = ""
  · cases hf : findAttr "initialization".data raw.data with
    | none => simp [hI]
    | some J =>
      have hJ := (findAttr_sound _ _ _ hf).1
      simp only [hI, true_or, if_true, true_and]
      constructor
      · intro h
        exact absurd h (string_mk_ne_empty J hJ)
      · intro h
        exact absurd h (by simp)
  · by_cases hM : t.Media = ""
    · cases hf : findAttr "initialization".data raw.data with
      | none => simp [hI, hM]
      | some J =>
        have hJ := (findAttr_sound _ _ _ hf).1
        simp only [hI, hM, or_true, if_true, false_and, iff_false]
        exact string_mk_ne_empty J hJ
    · simp [hI, hM]

/-- C19: for a non-BTS manifest whose XML decodes, parseManifest returns the
error "no initialization URL found in manifest", with empty direct URL, empty
init URL and no media URLs, exactly when the decoded initialization attribute
is empty and the raw text holds no initialization="I" with I non-empty. -/
theorem parseManifest_missing_initialization (dec : Decoders) (m raw : String) (mpd : MPD)
    (h64 : dec.base64Decode m = .ok raw) (hp : hasPrefix raw "\x7b" = false)
    (hx : dec.xmlUnmarshalMPD raw = .ok mpd) :
    parseManifest dec m =
        some { directURL := "", initURL := "", mediaURLs := []
               err := some "no initialization URL found in manifest" } ↔
      (mpd.SegmentTemplate.Initialization = "" ∧
        ¬ ∃ pre I post,
          raw.data = pre ++ (("initialization".data ++ ['=', '"']) ++ (I ++ '"' :: post)) ∧
          I ≠ [] ∧ '"' ∉ I) := by
  rw [← findAttr_none_iff, ← resolveTemplates_init_empty_iff]
  by_cases hi : (resolveTemplates mpd.SegmentTemplate raw).1 = ""
  · simp only [hi, iff_true]
    unfold parseManifest
    simp only [h64, hp, hx, Bool.false_eq_true, if_false, hi, if_true]
    rfl
  · simp only [hi, iff_false]
    rw [parseManifest_dash dec m raw mpd h64 hp hx hi]
    cases expandSegments
        (replaceAll (resolveTemplates mpd.SegmentTemplate raw).2 "&amp;" "&")
        (countSegments mpd.SegmentTemplate raw) with
    | none => simp
    | some urls => simp

/-- C19 witness: a document without any segment template fails with the
missing-initialization error, and its text holds no initialization pattern. -/
theorem parseManifest_missing_initialization_witness :
    parseManifest bareDashDecoders "dash" =
        some { directURL := "", initURL := "", mediaURLs := []
               err := some "no initialization URL found in manifest" } ∧
      ¬ ∃ pre I post,
        "<MPD></MPD>".data = pre ++ (("initialization".data ++ ['=', '"']) ++ (I ++ '"' :: post)) ∧
        I ≠ [] ∧ '"' ∉ I :=
  ⟨by decide,
   ((parseManifest_missing_initialization bareDashDecoders "dash" "<MPD></MPD>"
      { SegmentTemplate := { Initialization := "", Media := "", Segments := [] } }
      rfl (by decide) rfl).mp (by decide)).2⟩

/-! ## A segment that fails -/

theorem downloadMediaSegments_fails (env : DownloadEnv) (tempPath : String) :
    ∀ (j : Nat) (urls : List String) (bodies : Nat → Bytes) (i : Nat) (w : World) (g : GetResult)
      (hj : j < urls.length),
      (∀ (k : Nat) (hk : k < urls.length), k < j →
        env.get (w.requests.length + k) urls[k] = .response 200 (bodies k) none) →
      env.get (w.requests.length + j) urls[j] = g →
      g.failed = true →
      (downloadMediaSegments env tempPath i urls w).err =
        some (mediaSegmentError (((i + j : Nat) : Int) + 1) g) ∧
      (downloadMediaSegments env tempPath i urls w).world.files tempPath = none ∧
      (downloadMediaSegments env tempPath i urls w).world.requests
        = w.requests ++ urls.take (j + 1) := by
  intro j
  induction j with
  | zero =>
    intro urls bodies i w g hj _ hg hfail
    cases urls with
    | nil => simp at hj
    | cons url rest =>
      simp only [Nat.add_zero, List.getElem_cons_zero] at hg
      rw [downloadMediaSegments]
      cases g with
      | transportError e =>
        simp only [hg, mediaSegmentError]
        exact ⟨rfl, by simp [World.remove], by simp [World.remove, World.request]⟩
      | response statusCode body copyErr =>
        simp only [hg, mediaSegmentError]
        by_cases hs : statusCode = 200
        · subst hs
          cases copyErr with
          | none => simp [GetResult.failed] at hfail
          | some e =>
            simp only [ne_eq, not_true_eq_false, if_false]
            exact ⟨rfl, by simp [World.remove], by simp [World.remove, World.request, World.append]⟩
        · simp only [ne_eq, hs, not_false_eq_true, if_true]
          exact ⟨rfl, by simp [World.remove], by simp [World.remove, World.request]⟩
  | succ j ih =>
    intro urls bodies i w g hj hok hg hfail
    cases urls with
    | nil => simp at hj
    | cons url rest =>
      have h0 := hok 0 (by simp) (Nat.succ_pos _)
      simp only [Nat.add_zero, List.getElem_cons_zero] at h0
      have hstep : downloadMediaSegments env tempPath i (url :: rest) w
          = downloadMediaSegments env tempPath (i + 1) rest
              ((w.request url).append tempPath (bodies 0)) := by
        rw [downloadMediaSegments]
        simp only [h0]
        rfl
      have hlen : ((w.request url).append tempPath (bodies 0)).requests.length
          = w.requests.length + 1 := by
        simp [World.append, World.request]
      have hj2 : j < rest.length := by simpa using hj
      obtain ⟨h1, h2, h3⟩ := ih rest (fun k => bodies (k + 1)) (i + 1)
        ((w.request url).append tempPath (bodies 0)) g hj2
        (by
          intro k hk hkj
          have := hok (k + 1) (by simp; omega) (by omega)
          simp only [List.getElem_cons_succ] at this
          rw [hlen, ← this]
          congr 1
          omega)
        (by
          simp only [List.getElem_cons_succ] at hg
          rw [hlen, ← hg]
          congr 1
          omega)
        hfail
      rw [hstep]
      have hidx : i + 1 + j = i + (j + 1) := by omega
      rw [hidx] at h1
      refine ⟨h1, h2, ?_⟩
      rw [h3]
      simp [World.append, World.request]

/-- C20: in the segmented case of DownloadFromManifest, when the fetch of the
init segment, or of media segment j + 1 after the init segment and the media
segments before it were fetched, fails (transport error, status other than
200, or write error), the call returns the error naming that segment, the
temporary container is gone from the disk, and the requests made stop at the
failed one. -/
theorem DownloadFromManifest_segment_failure (env : DownloadEnv) (w : World)
    (m outputPath initURL : String) (mediaURLs : List String) (g : GetResult)
    (hparse : parseManifest env.decoders m =
      some { directURL := "", initURL := initURL, mediaURLs := mediaURLs, err := none })
    (hcreate : env.createErr (outputPath ++ ".m4a.tmp") = none)
    (hfail : g.failed = true) :
    (env.get w.requests.length initURL = g →
      ∃ r : Outcome,
        DownloadFromManifest env w m outputPath = some r ∧
        r.err =
          some (initSegmentError g) ∧
        r.world.files (outputPath ++ ".m4a.tmp") = none ∧
        r.world.requests = w.requests ++ [initURL]) ∧
    (∀ (j : Nat) (hj : j < mediaURLs.length) (initBody : Bytes) (bodies : Nat → Bytes),
      env.get w.requests.length initURL = .response 200 initBody none →
      (∀ (k : Nat) (hk : k < mediaURLs.length), k < j →
        env.get (w.requests.length + 1 + k) mediaURLs[k] = .response 200 (bodies k) none) →
      env.get (w.requests.length + 1 + j) mediaURLs[j] = g →
      ∃ r : Outcome,
        DownloadFromManifest env w m outputPath = some r ∧
        r.err =
          some (mediaSegmentError ((j : Int) + 1) g) ∧
        r.world.files (outputPath ++ ".m4a.tmp") = none ∧
        r.world.requests = w.requests ++ initURL :: mediaURLs.take (j + 1)) := by
  constructor
  · intro hg
    have hinit :
        (downloadInitSegment env (w.create (outputPath ++ ".m4a.tmp"))
          (outputPath ++ ".m4a.tmp") initURL).err = some (initSegmentError g) ∧
        (downloadInitSegment env (w.create (outputPath ++ ".m4a.tmp"))
          (outputPath ++ ".m4a.tmp") initURL).world.files (outputPath ++ ".m4a.tmp") = none ∧
        (downloadInitSegment env (w.create (outputPath ++ ".m4a.tmp"))
          (outputPath ++ ".m4a.tmp") initURL).world.requests = w.requests ++ [initURL] := by
      unfold downloadInitSegment
      have hreq : (w.create (outputPath ++ ".m4a.tmp")).requests = w.requests := rfl
      rw [hreq]
      cases g with
      | transportError e =>
        simp only [hg, initSegmentError]
        exact ⟨trivial, by simp [World.remove], by simp [World.remove, World.request, World.create]⟩
      | response statusCode body copyErr =>
        simp only [hg, initSegmentError]
        by_cases hs : statusCode = 200
        · subst hs
          cases copyErr with
          | none => simp [GetResult.failed] at hfail
          | some e =>
            simp only [ne_eq, not_true_eq_false, if_false]
            exact ⟨rfl, by simp [World.remove],
              by simp [World.remove, World.request, World.append, World.create]⟩
        · simp only [ne_eq, hs, not_false_eq_true, if_true]
          exact ⟨trivial, by simp [World.remove],
            by simp [World.remove, World.request, World.create]⟩
    obtain ⟨h1, h2, h3⟩ := hinit
    refine ⟨{ world := (downloadInitSegment env (w.create (outputPath ++ ".m4a.tmp"))
        (outputPath ++ ".m4a.tmp") initURL).world, err := some (initSegmentError g) },
      ?_, rfl, h2, h3⟩
    unfold DownloadFromManifest
    simp only [hparse, ne_eq, not_true_eq_false, if_false]
    unfold assembleSegments
    simp only [hcreate, h1]
  · intro j hj initBody bodies hinit hok hg
    have hinit2 : downloadInitSegment env (w.create (outputPath ++ ".m4a.tmp"))
        (outputPath ++ ".m4a.tmp") initURL
        = { world := ((w.create (outputPath ++ ".m4a.tmp")).request initURL).append
              (outputPath ++ ".m4a.tmp") initBody
            err := none } := by
      unfold downloadInitSegment
      have : (w.create (outputPath ++ ".m4a.tmp")).requests = w.requests := rfl
      simp only [this, hinit]
      rfl
    have hlen : (((w.create (outputPath ++ ".m4a.tmp")).request initURL).append
        (outputPath ++ ".m4a.tmp") initBody).requests.length = w.requests.length + 1 := by
      simp [World.append, World.request, World.create]
    obtain ⟨h1, h2, h3⟩ := downloadMediaSegments_fails env (outputPath ++ ".m4a.tmp") j mediaURLs
      bodies 0 (((w.create (outputPath ++ ".m4a.tmp")).request initURL).append
        (outputPath ++ ".m4a.tmp") initBody) g hj
      (by intro k hk hkj; rw [hlen]; exact hok k hk hkj)
      (by rw [hlen]; exact hg) hfail
    simp only [Nat.zero_add] at h1
    have hD : DownloadFromManifest env w m outputPath
        = some (Outcome.mk
            (downloadMediaSegments env (outputPath ++ ".m4a.tmp") 0 mediaURLs
              (((w.create (outputPath ++ ".m4a.tmp")).request initURL).append
                (outputPath ++ ".m4a.tmp") initBody)).world
            (some (mediaSegmentError ((j : Int) + 1) g))) := by
      unfold DownloadFromManifest
      simp only [hparse, ne_eq, not_true_eq_false, if_false]
      unfold assembleSegments
      simp only [hcreate, hinit2, h1]
    refine ⟨_, hD, rfl, h2, ?_⟩
    show (downloadMediaSegments env (outputPath ++ ".m4a.tmp") 0 mediaURLs
      (((w.create (outputPath ++ ".m4a.tmp")).request initURL).append
        (outputPath ++ ".m4a.tmp") initBody)).world.requests = _
    rw [h3]
    simp [World.append, World.request, World.create]

/-- C20 witness: in the scenario-2 download the third request (media segment
2) is answered 404: the call fails with "segment 2 download failed with status
404", the temporary container is gone, and seg-3.m4s is never requested. -/
theorem DownloadFromManifest_segment_failure_witness :
    (DownloadFromManifest (brokenEnv 2 (.response 404 [] none)) emptyWorld "dash" "song.flac").map
        (fun r => (r.err, r.world.files "song.flac.m4a.tmp", r.world.requests))
      = some (some "segment 2 download failed with status 404", none,
          ["init.mp4", "seg-1.m4s", "seg-2.m4s"]) ∧
    ∃ r : Outcome,
      DownloadFromManifest (brokenEnv 2 (.response 404 [] none)) emptyWorld "dash" "song.flac"
        = some r ∧
      r.err = some (mediaSegmentError (((1 : Nat) : Int) + 1) (.response 404 [] none)) ∧
      r.world.files ("song.flac" ++ ".m4a.tmp") = none ∧
      r.world.requests
        = emptyWorld.requests ++ "init.mp4" :: ["seg-1.m4s", "seg-2.m4s", "seg-3.m4s"].take (1 + 1) :=
  ⟨by decide,
   (DownloadFromManifest_segment_failure (brokenEnv 2 (.response 404 [] none)) emptyWorld "dash"
      "song.flac" "init.mp4" ["seg-1.m4s", "seg-2.m4s", "seg-3.m4s"] (.response 404 [] none)
      (by decide) rfl rfl).2 1 (by decide) [0] (fun k => [UInt8.ofNat (k + 1)]) rfl
      (by intro k hk hkj; interval_cases k; rfl) rfl⟩

/-! ## Racing the mirrors -/

theorem drainResults_failures (n : Nat) :
    ∀ (pre : List manifestResult) (fuel : Nat) (rest : List manifestResult)
      (lastError : Option String) (errors : List String),
      (∀ r ∈ pre, r.err ≠ none) →
      drainResults n (fuel + pre.length) (pre ++ rest) lastError errors =
        drainResults n fuel rest (pre.foldl (fun _ r => r.err) lastError)
          (errors ++ pre.map (fun r => r.apiURL ++ ": " ++ truncateError (r.err.getD ""))) := by
  intro pre
  induction pre with
  | nil => intro fuel rest lastError errors _; simp
  | cons r pre ih =>
    intro fuel rest lastError errors hpre
    have hr : r.err ≠ none := hpre r (List.mem_cons_self _ _)
    obtain ⟨e, he⟩ := Option.ne_none_iff_exists'.mp hr
    have hlen : fuel + (r :: pre).length = fuel + pre.length + 1 := by simp; omega
    rw [hlen, List.cons_append, drainResults]
    simp only [he, false_and, if_false, reduceCtorEq]
    rw [ih fuel rest (some e) _ (fun x hx => hpre x (List.mem_cons_of_mem _ hx))]
    simp [he]

theorem trimPrefix_append (p s : String) : trimPrefix (p ++ s) p = s := by
  unfold trimPrefix hasPrefix
  rw [String.data_append]
  have hpre : p.data.isPrefixOf (p.data ++ s.data) = true :=
    List.isPrefixOf_iff_prefix.mpr (List.prefix_append _ _)
  simp only [hpre, if_true, List.drop_left]

theorem truncateError_short (errMsg : String) (h : byteLen errMsg ≤ 50) :
    truncateError errMsg = errMsg := by
  unfold truncateError
  rw [if_neg (by omega)]

theorem truncateError_long (errMsg : String) (h : 50 < byteLen errMsg) :
    truncateError errMsg = String.mk (sliceBytes 50 errMsg.data) ++ "..." := by
  unfold truncateError
  rw [if_pos h]

theorem sliceBytes_whole (n : Nat) (cs rest : List Char)
    (h : (cs.map utf8Len).sum = n) (hrest : rest ≠ []) :
    sliceBytes n (cs ++ rest) = cs := by
  induction cs generalizing n with
  | nil =>
    simp only [List.map_nil, List.sum_nil] at h
    subst h
    cases rest with
    | nil => exact absurd rfl hrest
    | cons c cs =>
      have hpos : ¬ utf8Len c ≤ 0 := by
        unfold utf8Len
        split
        · omega
        · split
          · omega
          · split <;> omega
      simp [sliceBytes, hpos]
  | cons c cs ih =>
    simp only [List.map_cons, List.sum_cons] at h
    have hle : utf8Len c ≤ n := by omega
    simp only [List.cons_append, sliceBytes, hle, if_true]
    exact congrArg (fun l => c :: l) (ih (n - utf8Len c) (by omega))

theorem truncateError_sample :
    truncateError (accented 30) = accented 25 ++ "..." ∧
    truncateError (accented 25) = accented 25 ∧
    truncateError (String.mk (List.replicate 49 'x') ++ accented 1 ++ "tail") =
      String.mk (List.replicate 49 'x') ++ String.singleton (Char.ofNat 65533) ++ "..." := by
  refine ⟨by decide, by decide, by decide⟩

theorem excerpt_sample :
    excerpt (accented 150) = accented 100 ++ "..." ∧
    excerpt (accented 100) = accented 100 ∧
    excerpt (String.mk (List.replicate 199 'x') ++ accented 1) =
      String.mk (List.replicate 199 'x') ++ String.singleton (Char.ofNat 65533) ++ "..." := by
  refine ⟨by decide, by decide, by decide⟩

theorem decodeAmazonURL_sample :
    decodeAmazonURL songLinkEnv { statusCode := 200, body := .ok "asin" }
      = .ok "https://music.amazon.com/tracks/B0T?musicTerritory=US" ∧
    decodeAmazonURL songLinkEnv { statusCode := 200, body := .ok "plain" }
      = .ok "https://music.amazon.com/tracks/B0P" ∧
    decodeAmazonURL songLinkEnv { statusCode := 200, body := .ok "other" }
      = .error "amazon Music link not found" ∧
    decodeAmazonURL songLinkEnv { statusCode := 200, body := .ok "" }
      = .error "API returned empty response" ∧
    decodeAmazonURL songLinkEnv { statusCode := 200, body := .error "unexpected EOF" }
      = .error "failed to read response body: unexpected EOF" ∧
    decodeAmazonURL songLinkEnv { statusCode := 200, body := .ok (accented 150) }
      = .error ("failed to decode response: invalid character (response: " ++ accented 100
          ++ "...)") :=
  ⟨rfl, rfl, rfl, rfl, rfl, rfl⟩

/-- C17: for every arrival order of the N mirror outcomes with a success in it,
getDownloadURLParallel returns the endpoint and the location of the first
success in arrival order: the URL that follows "DIRECT:" for a direct link, and
"MANIFEST:" followed by the manifest otherwise.  The failure list collected at
that point is exactly the outcomes that arrived before it, one entry each and
in their order: the endpoint, a colon and a space, then the message, cut at
byte 50 and followed by three dots when it is longer than 50 bytes.  When the
success arrives last, after N - 1 failures, the list has length N - 1. -/
theorem getDownloadURLParallel_first_success (apis : List String)
    (pre post : List manifestResult) (win : manifestResult)
    (hlen : apis.length = pre.length + 1 + post.length)
    (hpre : ∀ r ∈ pre, r.err ≠ none)
    (hwin : win.err = none ∧ win.manifest ≠ "") :
    (∀ url : String, win.manifest = "DIRECT:" ++ url →
      (getDownloadURLParallel apis (pre ++ win :: post)).ending =
        RaceEnd.returned win.apiURL url none) ∧
    (hasPrefix win.manifest "DIRECT:" = false →
      (getDownloadURLParallel apis (pre ++ win :: post)).ending =
        RaceEnd.returned win.apiURL ("MANIFEST:" ++ win.manifest) none) ∧
    (getDownloadURLParallel apis (pre ++ win :: post)).errors =
      pre.map (fun r => r.apiURL ++ ": " ++
        if 50 < byteLen (r.err.getD "") then
          String.mk (sliceBytes 50 (r.err.getD "").data) ++ "..."
        else r.err.getD "") ∧
    (getDownloadURLParallel apis (pre ++ win :: post)).errors.length = pre.length ∧
    (post = [] → (getDownloadURLParallel apis (pre ++ win :: post)).errors.length
      = apis.length - 1) := by
  have hne : ¬ apis.length = 0 := by omega
  have hfuel : post.length + 1 + pre.length = apis.length := by omega
  have hrun : getDownloadURLParallel apis (pre ++ win :: post) =
      drainResults apis.length (post.length + 1) (win :: post)
        (pre.foldl (fun _ r => r.err) none)
        (pre.map (fun r => r.apiURL ++ ": " ++ truncateError (r.err.getD ""))) := by
    have hdrain :=
      drainResults_failures apis.length pre (post.length + 1) (win :: post) none [] hpre
    rw [hfuel, List.nil_append] at hdrain
    unfold getDownloadURLParallel
    rw [if_neg hne, hdrain]
  have hentries : pre.map (fun r => r.apiURL ++ ": " ++ truncateError (r.err.getD "")) =
      pre.map (fun r => r.apiURL ++ ": " ++
        if 50 < byteLen (r.err.getD "") then
          String.mk (sliceBytes 50 (r.err.getD "").data) ++ "..."
        else r.err.getD "") := rfl
  rw [hrun, drainResults]
  simp only [hwin.1, hwin.2, ne_eq, not_false_eq_true, and_self, if_true]
  refine ⟨?_, ?_, ?_, ?_, ?_⟩
  · intro url hurl
    have hd : hasPrefix win.manifest "DIRECT:" = true := by
      rw [hurl]
      unfold hasPrefix
      rw [String.data_append]
      exact List.isPrefixOf_iff_prefix.mpr (List.prefix_append _ _)
    simp only [hd, if_true]
    rw [hurl, trimPrefix_append]
  · intro hd
    simp only [hd, Bool.false_eq_true, if_false]
  · split <;> exact hentries
  · split <;> simp
  · intro hpost
    rw [hpost] at hlen
    simp only [List.length_nil, Nat.add_zero] at hlen
    split <;> simp <;> omega

/-- C17 witness: three mirrors, two failures arriving before the one success,
the first of them with a message of 30 two-byte letters: the link after
"DIRECT:" is returned, and the failure list has the two entries, the first cut
after 25 letters. -/
theorem getDownloadURLParallel_first_success_witness :
    (getDownloadURLParallel ["https://a.example", "https://b.example", "https://c.example"]
        ([{ apiURL := "https://b.example", manifest := "", err := some (accented 30) },
          { apiURL := "https://c.example", manifest := "", err := some "timeout" }] ++
          { apiURL := "https://a.example", manifest := "DIRECT:https://host/a.flac", err := none }
            :: [])).ending
      = RaceEnd.returned "https://a.example" "https://host/a.flac" none ∧
    (getDownloadURLParallel ["https://a.example", "https://b.example", "https://c.example"]
        ([{ apiURL := "https://b.example", manifest := "", err := some (accented 30) },
          { apiURL := "https://c.example", manifest := "", err := some "timeout" }] ++
          { apiURL := "https://a.example", manifest := "DIRECT:https://host/a.flac", err := none }
            :: [])).errors
      = ["https://b.example: " ++ accented 25 ++ "...", "https://c.example: timeout"] ∧
    (getDownloadURLParallel ["https://a.example", "https://b.example", "https://c.example"]
        ([{ apiURL := "https://b.example", manifest := "", err := some (accented 30) },
          { apiURL := "https://c.example", manifest := "", err := some "timeout" }] ++
          { apiURL := "https://a.example", manifest := "DIRECT:https://host/a.flac", err := none }
            :: [])).errors.length = 3 - 1 := by
  have h := getDownloadURLParallel_first_success
    ["https://a.example", "https://b.example", "https://c.example"]
    [{ apiURL := "https://b.example", manifest := "", err := some (accented 30) },
     { apiURL := "https://c.example", manifest := "", err := some "timeout" }] []
    { apiURL := "https://a.example", manifest := "DIRECT:https://host/a.flac", err := none }
    (by decide) (by decide) (by decide)
  exact ⟨h.1 "https://host/a.flac" rfl, h.2.2.1.trans (by decide), h.2.2.2.2 rfl⟩

/-- C18 (as amended): when every one of the N mirrors fails, the error value
returned by getDownloadURLParallel is "all N APIs failed. Last error: " followed
by the untruncated error of the mirror whose outcome arrived last; the reason
of each mirror (the endpoint, a colon and a space, then the message, cut at
byte 50 and followed by three dots when it is longer than 50 bytes) is in the
list the function prints, in arrival order, and not in the returned error. -/
theorem getDownloadURLParallel_all_failed (apis : List String)
    (earlier : List manifestResult) (last : manifestResult) (lastMsg : String)
    (hlen : apis.length = earlier.length + 1)
    (hearlier : ∀ r ∈ earlier, r.err ≠ none)
    (hlast : last.err = some lastMsg) :
    getDownloadURLParallel apis (earlier ++ [last]) =
      { ending := RaceEnd.returned "" ""
          (some ("all " ++ decimal apis.length ++ " APIs failed. Last error: " ++ lastMsg))
        errors := (earlier ++ [last]).map
          (fun r => r.apiURL ++ ": " ++
            if 50 < byteLen (r.err.getD "") then
              String.mk (sliceBytes 50 (r.err.getD "").data) ++ "..."
            else r.err.getD "") } := by
  have hne : ¬ apis.length = 0 := by omega
  have hall : ∀ r ∈ earlier ++ [last], r.err ≠ none := by
    intro r hr
    rcases List.mem_append.mp hr with h | h
    · exact hearlier r h
    · simp only [List.mem_singleton] at h
      rw [h, hlast]
      simp
  have hfuel : 0 + (earlier ++ [last]).length = apis.length := by simp; omega
  have hdrain := drainResults_failures apis.length (earlier ++ [last]) 0 [] none [] hall
  rw [hfuel, List.append_nil, List.nil_append] at hdrain
  have hentries : (earlier ++ [last]).map
        (fun r => r.apiURL ++ ": " ++ truncateError (r.err.getD "")) =
      (earlier ++ [last]).map (fun r => r.apiURL ++ ": " ++
        if 50 < byteLen (r.err.getD "") then
          String.mk (sliceBytes 50 (r.err.getD "").data) ++ "..."
        else r.err.getD "") := rfl
  unfold getDownloadURLParallel
  rw [if_neg hne, hdrain, drainResults, hentries]
  simp [hlast]

/-- C18 witness: two mirrors failing, in this order of arrival, with a message
of 49 letters x, an accented letter and "tail" (55 bytes, byte 50 inside the
accented letter) and with HTTP 500: the first entry of the printed list is cut
at byte 50, and the returned error names the last failure only. -/
theorem getDownloadURLParallel_all_failed_witness :
    getDownloadURLParallel ["https://a.example", "https://b.example"]
        ([{ apiURL := "https://a.example", manifest := ""
            err := some (String.mk (List.replicate 49 'x') ++ accented 1 ++ "tail") }] ++
          [{ apiURL := "https://b.example", manifest := "", err := some "HTTP 500" }]) =
      { ending := RaceEnd.returned "" "" (some "all 2 APIs failed. Last error: HTTP 500")
        errors :=
          ["https://a.example: " ++ String.mk (List.replicate 49 'x')
              ++ String.singleton (Char.ofNat 65533) ++ "...",
           "https://b.example: HTTP 500"] } :=
  (getDownloadURLParallel_all_failed ["https://a.example", "https://b.example"]
    [{ apiURL := "https://a.example", manifest := ""
       err := some (String.mk (List.replicate 49 'x') ++ accented 1 ++ "tail") }]
    { apiURL := "https://b.example", manifest := "", err := some "HTTP 500" } "HTTP 500"
    (by decide) (by decide) rfl).trans (by decide)

/-- C18 counterexample: with two mirrors failing with HTTP 404 and HTTP 500 the
returned error is "all 2 APIs failed. Last error: HTTP 500"; neither the first
mirror's endpoint nor its message occurs in it. -/
theorem getDownloadURLParallel_drops_reasons :
    (getDownloadURLParallel ["https://a.example", "https://b.example"]
        [{ apiURL := "https://a.example", manifest := "", err := some "HTTP 404" },
         { apiURL := "https://b.example", manifest := "", err := some "HTTP 500" }]).ending
      = RaceEnd.returned "" "" (some "all 2 APIs failed. Last error: HTTP 500") ∧
    containsStr "all 2 APIs failed. Last error: HTTP 500" "https://a.example" = false ∧
    containsStr "all 2 APIs failed. Last error: HTTP 500" "HTTP 404" = false := by
  refine ⟨by decide, by decide, by decide⟩

/-! ## The poll loop -/

theorem ticksNeeded_reaches (maxWait pollInterval : Int) (hI : 0 < pollInterval) :
    maxWait ≤ (ticksNeeded maxWait pollInterval : Int) * pollInterval := by
  unfold ticksNeeded
  by_cases hq : 0 ≤ (maxWait + pollInterval - 1) / pollInterval
  · rw [Int.toNat_of_nonneg hq]
    have := Int.lt_ediv_add_one_mul_self (maxWait + pollInterval - 1) hI
    rw [add_mul, one_mul] at this
    omega
  · have hneg : maxWait + pollInterval - 1 < 0 := by
      by_contra hc
      exact hq (Int.ediv_nonneg (by omega) (by omega))
    have h0 : ((maxWait + pollInterval - 1) / pollInterval).toNat = 0 := by omega
    rw [h0]
    simp only [Nat.cast_zero, zero_mul]
    omega

theorem ticksNeeded_least (maxWait pollInterval : Int) (hI : 0 < pollInterval) (m : Nat)
    (hm : m < ticksNeeded maxWait pollInterval) : (m : Int) * pollInterval < maxWait := by
  unfold ticksNeeded at hm
  have hle : (m : Int) + 1 ≤ (maxWait + pollInterval - 1) / pollInterval := by omega
  have := (Int.le_ediv_iff_mul_le hI).mp hle
  rw [add_mul, one_mul] at this
  omega

theorem pollLoop_mono (env : ServiceEnv) (statusURL : String) (maxWait pollInterval : Int) :
    ∀ (fuel : Nat) (elapsed : Int) (ticks : Nat) (w : World) (r : PollResult),
      pollLoop env statusURL maxWait pollInterval fuel elapsed ticks w = some r →
      pollLoop env statusURL maxWait pollInterval (fuel + 1) elapsed ticks w = some r := by
  intro fuel
  induction fuel with
  | zero =>
    intro elapsed ticks w r h
    simp only [pollLoop] at h ⊢
    by_cases hlt : elapsed < maxWait
    · simp [hlt] at h
    · simpa [hlt] using h
  | succ fuel ih =>
    intro elapsed ticks w r h
    simp only [pollLoop] at h ⊢
    by_cases hlt : elapsed < maxWait
    · simp only [hlt, if_true] at h ⊢
      cases hc : statusCheck env statusURL w with
      | mk w1 ending =>
        cases ending with
        | some e => simpa [hc] using h
        | none =>
          simp only [hc] at h ⊢
          exact ih _ _ _ _ h
    · simpa [hlt] using h

theorem pollLoop_mono_le (env : ServiceEnv) (statusURL : String) (maxWait pollInterval : Int)
    (fuel fuel1 : Nat) (hle : fuel ≤ fuel1) (elapsed : Int) (ticks : Nat) (w : World)
    (r : PollResult)
    (h : pollLoop env statusURL maxWait pollInterval fuel elapsed ticks w = some r) :
    pollLoop env statusURL maxWait pollInterval fuel1 elapsed ticks w = some r := by
  induction fuel1 with
  | zero =>
    have : fuel = 0 := by omega
    rw [this] at h
    exact h
  | succ n ih =>
    by_cases hn : fuel ≤ n
    · exact pollLoop_mono env statusURL maxWait pollInterval n elapsed ticks w r (ih hn)
    · have : fuel = n + 1 := by omega
      rw [this] at h
      exact h

theorem pollLoop_expired_elapsed (env : ServiceEnv) (statusURL : String)
    (maxWait pollInterval : Int) :
    ∀ (fuel : Nat) (elapsed : Int) (ticks : Nat) (w : World) (r : PollResult),
      pollLoop env statusURL maxWait pollInterval fuel elapsed ticks w = some r →
      r.ending = PollEnd.expired → maxWait ≤ r.elapsed := by
  intro fuel
  induction fuel with
  | zero =>
    intro elapsed ticks w r h hend
    simp only [pollLoop] at h
    by_cases hlt : elapsed < maxWait
    · simp [hlt] at h
    · simp only [hlt, if_false, Option.some.injEq] at h
      rw [← h]
      show maxWait ≤ elapsed
      omega
  | succ fuel ih =>
    intro elapsed ticks w r h hend
    simp only [pollLoop] at h
    by_cases hlt : elapsed < maxWait
    · simp only [hlt, if_true] at h
      cases hc : statusCheck env statusURL w with
      | mk w1 ending =>
        cases ending with
        | some e =>
          simp only [hc, Option.some.injEq] at h
          rw [← h] at hend
          simp only at hend
          unfold statusCheck at hc
          revert hc
          cases env.newRequestErr statusURL with
          | some _ => simp
          | none =>
            simp only
            cases env.status w.requests.length statusURL with
            | transportError _ => simp
            | response statusCode decoded =>
              simp only
              split
              · simp
              · cases decoded with
                | error _ => simp
                | ok status =>
                  simp only
                  split
                  · intro hc
                    simp only [Prod.mk.injEq, Option.some.injEq] at hc
                    rw [← hc.2] at hend
                    exact absurd hend (by simp)
                  · split
                    · intro hc
                      simp only [Prod.mk.injEq, Option.some.injEq] at hc
                      rw [← hc.2] at hend
                      exact absurd hend (by simp)
                    · simp
        | none =>
          simp only [hc] at h
          exact ih _ _ _ _ h hend
    · simp only [hlt, if_false, Option.some.injEq] at h
      rw [← h]
      show maxWait ≤ elapsed
      omega

theorem statusCheck_quiet (env : ServiceEnv) (statusURL : String)
    (hq : ∀ k : Nat, (env.status k statusURL).quiet = true) (w : World) :
    (statusCheck env statusURL w).2 = none := by
  unfold statusCheck
  cases env.newRequestErr statusURL with
  | some _ => rfl
  | none =>
    simp only
    have := hq w.requests.length
    cases hs : env.status w.requests.length statusURL with
    | transportError _ => rfl
    | response statusCode decoded =>
      rw [hs] at this
      simp only
      by_cases hcode : statusCode = 200
      · subst hcode
        cases decoded with
        | error _ => rfl
        | ok status =>
          simp only [JsonExchange.quiet, ne_eq, not_true_eq_false, decide_False, Bool.false_or,
            Bool.and_eq_true, decide_eq_true_eq] at this
          simp [this.1, this.2]
      · simp [hcode]

theorem pollLoop_quiet (env : ServiceEnv) (statusURL : String) (maxWait pollInterval : Int)
    (hq : ∀ w : World, (statusCheck env statusURL w).2 = none) :
    ∀ (n fuel : Nat) (elapsed : Int) (ticks : Nat) (w : World),
      n ≤ fuel →
      maxWait ≤ elapsed + (n : Int) * pollInterval →
      (∀ m : Nat, m < n → elapsed + (m : Int) * pollInterval < maxWait) →
      ∃ w1 : World,
        pollLoop env statusURL maxWait pollInterval fuel elapsed ticks w =
          some { world := w1, elapsed := elapsed + (n : Int) * pollInterval, ticks := ticks + n
                 ending := PollEnd.expired } := by
  intro n
  induction n with
  | zero =>
    intro fuel elapsed ticks w _ hreach _
    simp only [Nat.cast_zero, zero_mul, add_zero] at hreach ⊢
    have hlt : ¬ elapsed < maxWait := by omega
    cases fuel with
    | zero => exact ⟨w, by rw [pollLoop]; simp [hlt]⟩
    | succ fuel => exact ⟨w, by rw [pollLoop]; simp [hlt]⟩
  | succ n ih =>
    intro fuel elapsed ticks w hfuel hreach hbelow
    have hlt : elapsed < maxWait := by
      have := hbelow 0 (Nat.succ_pos _)
      simpa using this
    cases fuel with
    | zero => omega
    | succ fuel =>
      have hnone := hq w
      cases hc : statusCheck env statusURL w with
      | mk w1 ending =>
        rw [hc] at hnone
        simp only at hnone
        subst hnone
        have hcast : elapsed + ((n + 1 : Nat) : Int) * pollInterval
            = elapsed + pollInterval + (n : Int) * pollInterval := by
          push_cast
          ring
        obtain ⟨w2, hw2⟩ := ih fuel (elapsed + pollInterval) (ticks + 1) w1 (by omega)
          (by rw [← hcast]; exact hreach)
          (by
            intro m hm
            have := hbelow (m + 1) (by omega)
            have hc2 : elapsed + ((m + 1 : Nat) : Int) * pollInterval
                = elapsed + pollInterval + (m : Int) * pollInterval := by
              push_cast
              ring
            rw [hc2] at this
            exact this)
        refine ⟨w2, ?_⟩
        rw [pollLoop]
        simp only [hlt, if_true, hc, hw2, hcast]
        have : ticks + 1 + n = ticks + (n + 1) := by omega
        rw [this]

theorem pollUntilTerminal_quiet (env : ServiceEnv) (statusURL : String)
    (maxWait pollInterval : Int) (hI : 0 < pollInterval)
    (hq : ∀ k : Nat, (env.status k statusURL).quiet = true) (w : World) :
    ∃ w1 : World,
      pollUntilTerminal env statusURL maxWait pollInterval w =
        some { world := w1
               elapsed := (ticksNeeded maxWait pollInterval : Int) * pollInterval
               ticks := ticksNeeded maxWait pollInterval
               ending := PollEnd.expired } := by
  obtain ⟨w1, hw1⟩ := pollLoop_quiet env statusURL maxWait pollInterval
    (statusCheck_quiet env statusURL hq) (ticksNeeded maxWait pollInterval)
    (ticksNeeded maxWait pollInterval) 0 0 w (le_refl _)
    (by simpa using ticksNeeded_reaches maxWait pollInterval hI)
    (by
      intro m hm
      simpa using ticksNeeded_least maxWait pollInterval hI m hm)
  refine ⟨w1, ?_⟩
  unfold pollUntilTerminal
  rw [hw1]
  simp

theorem statusCheck_world (env : ServiceEnv) (statusURL : String) (w : World)
    (hnew : env.newRequestErr statusURL = none) :
    (statusCheck env statusURL w).1 = w.request statusURL := by
  unfold statusCheck
  simp only [hnew]
  cases env.status w.requests.length statusURL with
  | transportError _ => rfl
  | response statusCode decoded =>
    simp only
    split
    · rfl
    · cases decoded with
      | error _ => rfl
      | ok status =>
        simp only
        split
        · rfl
        · split <;> rfl

theorem statusCheck_keeps (env : ServiceEnv) (statusURL : String) (w : World)
    (status : DoubleDoubleStatusResponse) (hnew : env.newRequestErr statusURL = none)
    (hs : env.status w.requests.length statusURL = .response 200 (.ok status))
    (h1 : status.Status ≠ "done") (h2 : status.Status ≠ "error") :
    statusCheck env statusURL w = (w.request statusURL, none) := by
  unfold statusCheck
  simp [hnew, hs, h1, h2]

theorem statusCheck_done (env : ServiceEnv) (statusURL : String) (w : World)
    (status : DoubleDoubleStatusResponse) (hnew : env.newRequestErr statusURL = none)
    (hs : env.status w.requests.length statusURL = .response 200 (.ok status))
    (hd : status.Status = "done") :
    statusCheck env statusURL w = (w.request statusURL, some (PollEnd.done status)) := by
  unfold statusCheck
  simp [hnew, hs, hd]

theorem pollLoop_requests (env : ServiceEnv) (statusURL : String) (maxWait pollInterval : Int)
    (hnew : env.newRequestErr statusURL = none) :
    ∀ (fuel : Nat) (elapsed : Int) (ticks : Nat) (w : World) (r : PollResult),
      pollLoop env statusURL maxWait pollInterval fuel elapsed ticks w = some r →
      ticks ≤ r.ticks ∧
      r.world.requests = w.requests ++ List.replicate (r.ticks - ticks) statusURL := by
  intro fuel
  induction fuel with
  | zero =>
    intro elapsed ticks w r h
    simp only [pollLoop] at h
    by_cases hlt : elapsed < maxWait
    · simp [hlt] at h
    · simp only [hlt, if_false, Option.some.injEq] at h
      rw [← h]
      simp
  | succ fuel ih =>
    intro elapsed ticks w r h
    simp only [pollLoop] at h
    by_cases hlt : elapsed < maxWait
    · simp only [hlt, if_true] at h
      have hw := statusCheck_world env statusURL w hnew
      cases hc : statusCheck env statusURL w with
      | mk w1 ending =>
        rw [hc] at hw
        simp only at hw
        subst hw
        cases ending with
        | some e =>
          simp only [hc, Option.some.injEq] at h
          rw [← h]
          simp [World.request]
        | none =>
          simp only [hc] at h
          obtain ⟨h1, h2⟩ := ih _ _ _ _ h
          refine ⟨by omega, ?_⟩
          rw [h2]
          have hk : r.ticks - ticks = (r.ticks - (ticks + 1)) + 1 := by omega
          rw [hk, List.replicate_succ]
          simp [World.request]
    · simp only [hlt, if_false, Option.some.injEq] at h
      rw [← h]
      simp

theorem attemptRegion_submitted (env : ServiceEnv) (maxWait pollInterval : Int)
    (amazonURL outputDir region : String) (lastError : Option String) (w : World)
    (submitResp : DoubleDoubleSubmitResponse)
    (hnew : env.newRequestErr
      ("https://" ++ region ++ ".doubledouble.top" ++ "/dl?url=" ++ env.queryEscape amazonURL)
      = none)
    (hsub : env.submit w.requests.length
      ("https://" ++ region ++ ".doubledouble.top" ++ "/dl?url=" ++ env.queryEscape amazonURL)
      = .response 200 (.ok submitResp))
    (hok : submitResp.Success = true) (hid : submitResp.ID ≠ "") (poll : PollResult)
    (hpoll : pollUntilTerminal env
      ("https://" ++ region ++ ".doubledouble.top" ++ "/dl/" ++ submitResp.ID) maxWait pollInterval
      (w.request
        ("https://" ++ region ++ ".doubledouble.top" ++ "/dl?url=" ++ env.queryEscape amazonURL))
      = some poll) :
    attemptRegion env maxWait pollInterval amazonURL outputDir region lastError w =
      match poll.ending with
      | PollEnd.done status =>
        match fetchFile env poll.world ("https://" ++ region ++ ".doubledouble.top") outputDir
          status with
        | (w2, FileEnd.saved filePath) =>
          some { world := w2, lastError := lastError, returned := some (filePath, none) }
        | (w2, FileEnd.aborted e) =>
          some { world := w2, lastError := lastError, returned := some ("", some e) }
        | (w2, FileEnd.failed e) =>
          some { world := w2, lastError := afterPollLoop maxWait poll.elapsed (some e)
                 returned := none }
      | PollEnd.failed e =>
        some { world := poll.world
               lastError := afterPollLoop maxWait poll.elapsed (some e)
               returned := none }
      | PollEnd.expired =>
        some { world := poll.world
               lastError := afterPollLoop maxWait poll.elapsed lastError
               returned := none } := by
  unfold attemptRegion
  simp only [hnew, hsub, ne_eq, not_true_eq_false, if_false, hok, hid, Bool.true_eq_false,
    or_self, hpoll]

/-- C14 (as amended): for the poll loop of DownloadFromService with a positive
interval I and maxWait above 2*I, when the first two status checks report a
status other than done and error and the third reports done, the loop ends
after 3 checks with the done status (its final URL included) and the
accumulated elapsed time is exactly 3*I, one interval being slept before each
check. -/
theorem pollUntilTerminal_done_on_third (env : ServiceEnv) (statusURL : String)
    (maxWait pollInterval : Int) (w : World) (s1 s2 s3 : DoubleDoubleStatusResponse)
    (hI : 0 < pollInterval) (hwait : 2 * pollInterval < maxWait)
    (hnew : env.newRequestErr statusURL = none)
    (h1 : env.status w.requests.length statusURL = .response 200 (.ok s1))
    (h2 : env.status (w.requests.length + 1) statusURL = .response 200 (.ok s2))
    (h3 : env.status (w.requests.length + 2) statusURL = .response 200 (.ok s3))
    (hp1 : s1.Status ≠ "done" ∧ s1.Status ≠ "error")
    (hp2 : s2.Status ≠ "done" ∧ s2.Status ≠ "error")
    (hd : s3.Status = "done") :
    pollUntilTerminal env statusURL maxWait pollInterval w =
      some { world := ((w.request statusURL).request statusURL).request statusURL
             elapsed := 3 * pollInterval
             ticks := 3
             ending := PollEnd.done s3 } := by
  have hfuel : 3 ≤ ticksNeeded maxWait pollInterval := by
    unfold ticksNeeded
    have : (3 : Int) ≤ (maxWait + pollInterval - 1) / pollInterval :=
      Int.le_ediv_of_mul_le hI (by omega)
    omega
  have hc1 := statusCheck_keeps env statusURL w s1 hnew h1 hp1.1 hp1.2
  have hc2 := statusCheck_keeps env statusURL (w.request statusURL) s2 hnew
    (by simpa [World.request] using h2) hp2.1 hp2.2
  have hc3 := statusCheck_done env statusURL ((w.request statusURL).request statusURL) s3 hnew
    (by simpa [World.request] using h3) hd
  have hrun : pollLoop env statusURL maxWait pollInterval 3 0 0 w =
      some { world := ((w.request statusURL).request statusURL).request statusURL
             elapsed := 3 * pollInterval
             ticks := 3
             ending := PollEnd.done s3 } := by
    have e0 : (0 : Int) < maxWait := by omega
    have e1 : 0 + pollInterval < maxWait := by omega
    have e2 : 0 + pollInterval + pollInterval < maxWait := by omega
    simp only [pollLoop, e0, e1, e2, if_true, hc1, hc2, hc3]
    have : 0 + pollInterval + pollInterval + pollInterval = 3 * pollInterval := by ring
    rw [this]
  unfold pollUntilTerminal
  exact pollLoop_mono_le env statusURL maxWait pollInterval 3 _ hfuel 0 0 w _ hrun

/-- C14 witness: the reference policy (3-second interval, 300-second limit)
with statuses processing, processing, done: the loop ends at elapsed = 9
seconds. -/
theorem pollUntilTerminal_done_on_third_witness :
    pollUntilTerminal
        (serviceEnv (fun _ => accepted)
          (fun k => if k < 2 then jobStatus "processing" "" else jobStatus "done" "")
          (.response 200 [] none))
        "https://us.doubledouble.top/dl/42" (300 * second) (3 * second) emptyWorld =
      some { world := ((emptyWorld.request "https://us.doubledouble.top/dl/42").request
                "https://us.doubledouble.top/dl/42").request "https://us.doubledouble.top/dl/42"
             elapsed := 3 * (3 * second)
             ticks := 3
             ending := PollEnd.done
               { Status := "done", FriendlyStatus := "", URL := "/files/a.flac"
                 CurrentName := "So What", CurrentArtist := "Miles Davis" } } :=
  pollUntilTerminal_done_on_third
    (serviceEnv (fun _ => accepted)
      (fun k => if k < 2 then jobStatus "processing" "" else jobStatus "done" "")
      (.response 200 [] none))
    "https://us.doubledouble.top/dl/42" (300 * second) (3 * second) emptyWorld
    { Status := "processing", FriendlyStatus := "", URL := "/files/a.flac"
      CurrentName := "So What", CurrentArtist := "Miles Davis" }
    { Status := "processing", FriendlyStatus := "", URL := "/files/a.flac"
      CurrentName := "So What", CurrentArtist := "Miles Davis" }
    { Status := "done", FriendlyStatus := "", URL := "/files/a.flac"
      CurrentName := "So What", CurrentArtist := "Miles Davis" }
    (by decide) (by decide) rfl rfl rfl rfl (by decide) (by decide) rfl

/-- C14 counterexample: under the reference policy, statuses processing,
processing, done end the loop with elapsed = 9 seconds, which is 3*I and not
below it. -/
theorem pollUntilTerminal_elapsed_not_below_three_intervals :
    (pollUntilTerminal
        (serviceEnv (fun _ => accepted)
          (fun k => if k < 2 then jobStatus "processing" "" else jobStatus "done" "")
          (.response 200 [] none))
        "https://us.doubledouble.top/dl/42" (300 * second) (3 * second) emptyWorld).map
        (fun r => (r.elapsed, r.ticks, r.ending))
      = some (9000000000, 3, PollEnd.done
          { Status := "done", FriendlyStatus := "", URL := "/files/a.flac"
            CurrentName := "So What", CurrentArtist := "Miles Davis" }) ∧
    ¬ ((9000000000 : Int) < 3 * (3 * second)) := by
  constructor <;> decide

/-- C15: for a positive interval and a job whose status checks never report
done or error (whatever else they report, failures included), the poll loop
ends by its condition after exactly maxWait / interval rounded up iterations,
one status check each (100 under the reference policy of 3 and 300 seconds),
with elapsed = ticks * interval >= maxWait, and the region fails with the
error "download timeout". -/
theorem attemptRegion_timeout (env : ServiceEnv) (maxWait pollInterval : Int)
    (amazonURL outputDir region : String) (lastError : Option String) (w : World)
    (submitResp : DoubleDoubleSubmitResponse) (hI : 0 < pollInterval)
    (hnew : env.newRequestErr
      ("https://" ++ region ++ ".doubledouble.top" ++ "/dl?url=" ++ env.queryEscape amazonURL)
      = none)
    (hsub : env.submit w.requests.length
      ("https://" ++ region ++ ".doubledouble.top" ++ "/dl?url=" ++ env.queryEscape amazonURL)
      = .response 200 (.ok submitResp))
    (hok : submitResp.Success = true) (hid : submitResp.ID ≠ "")
    (hq : ∀ k : Nat, (env.status k
      ("https://" ++ region ++ ".doubledouble.top" ++ "/dl/" ++ submitResp.ID)).quiet = true) :
    ∃ poll : PollResult,
      pollUntilTerminal env
        ("https://" ++ region ++ ".doubledouble.top" ++ "/dl/" ++ submitResp.ID) maxWait
        pollInterval
        (w.request
          ("https://" ++ region ++ ".doubledouble.top" ++ "/dl?url=" ++ env.queryEscape amazonURL))
        = some poll ∧
      poll.ending = PollEnd.expired ∧
      poll.ticks = ticksNeeded maxWait pollInterval ∧
      (ticksNeeded maxWait pollInterval : Int) = max 0 ((maxWait + pollInterval - 1) / pollInterval) ∧
      poll.elapsed = (poll.ticks : Int) * pollInterval ∧
      maxWait ≤ poll.elapsed ∧
      (env.newRequestErr
          ("https://" ++ region ++ ".doubledouble.top" ++ "/dl/" ++ submitResp.ID) = none →
        poll.world.requests =
          (w.request ("https://" ++ region ++ ".doubledouble.top" ++ "/dl?url="
              ++ env.queryEscape amazonURL)).requests ++
            List.replicate poll.ticks
              ("https://" ++ region ++ ".doubledouble.top" ++ "/dl/" ++ submitResp.ID)) ∧
      attemptRegion env maxWait pollInterval amazonURL outputDir region lastError w =
        some { world := poll.world, lastError := some "download timeout", returned := none } ∧
      ticksNeeded (300 * second) (3 * second) = 100 := by
  obtain ⟨w1, hw1⟩ := pollUntilTerminal_quiet env
    ("https://" ++ region ++ ".doubledouble.top" ++ "/dl/" ++ submitResp.ID) maxWait pollInterval
    hI hq
    (w.request
      ("https://" ++ region ++ ".doubledouble.top" ++ "/dl?url=" ++ env.queryEscape amazonURL))
  have hreach := ticksNeeded_reaches maxWait pollInterval hI
  refine ⟨_, hw1, rfl, rfl, ?_, rfl, hreach, ?_, ?_, by decide⟩
  · unfold ticksNeeded
    omega
  · intro hnr
    have := (pollLoop_requests env _ maxWait pollInterval hnr _ 0 0 _ _ hw1).2
    simpa using this
  · rw [attemptRegion_submitted env maxWait pollInterval amazonURL outputDir region lastError w
      submitResp hnew hsub hok hid _ hw1]
    simp only [afterPollLoop, ge_iff_le, hreach, if_true]

/-- C15 witness: all-processing statuses with maxWait = 3*I (I = 1 second):
the region times out after 3 checks at elapsed = 3 seconds. -/
theorem attemptRegion_timeout_witness :
    (pollUntilTerminal (serviceEnv (fun _ => accepted) (fun _ => jobStatus "processing" "")
        (.response 200 [] none))
        "https://us.doubledouble.top/dl/42" (3 * second) second
        (emptyWorld.request "https://us.doubledouble.top/dl?url=track")).map
        (fun r => (r.elapsed, r.ticks, r.ending))
      = some (3 * second, 3, PollEnd.expired) ∧
    ∃ poll : PollResult,
      attemptRegion (serviceEnv (fun _ => accepted) (fun _ => jobStatus "processing" "")
          (.response 200 [] none)) (3 * second) second "track" "out" "us" none emptyWorld =
        some { world := poll.world, lastError := some "download timeout", returned := none } := by
  refine ⟨by decide, ?_⟩
  obtain ⟨poll, _, _, _, _, _, _, _, h, _⟩ :=
    attemptRegion_timeout (serviceEnv (fun _ => accepted) (fun _ => jobStatus "processing" "")
      (.response 200 [] none)) (3 * second) second "track" "out" "us" none emptyWorld
      { Success := true, ID := "42" } (by decide) rfl rfl rfl (by decide) (by intro k; rfl)
  exact ⟨poll, h⟩

/-! ## Falling back across regions -/

theorem afterPollLoop_some (maxWait elapsed : Int) (e : String) :
    ∃ e1, afterPollLoop maxWait elapsed (some e) = some e1 := by
  unfold afterPollLoop
  split
  · exact ⟨_, rfl⟩
  · exact ⟨_, rfl⟩

theorem attemptRegion_lastError_fresh (env : ServiceEnv) (maxWait pollInterval : Int)
    (amazonURL outputDir region : String) (lastError : Option String) (w : World)
    (r : RegionResult)
    (h : attemptRegion env maxWait pollInterval amazonURL outputDir region lastError w = some r)
    (hret : r.returned = none) :
    ∃ e : String,
      ∀ lastError1 : Option String,
        attemptRegion env maxWait pollInterval amazonURL outputDir region lastError1 w =
          some { world := r.world, lastError := some e, returned := none } := by
  unfold attemptRegion at h
  unfold attemptRegion
  cases hN : env.newRequestErr
      ("https://" ++ region ++ ".doubledouble.top" ++ "/dl?url=" ++ env.queryEscape amazonURL) with
  | some e =>
    simp only [hN, Option.some.injEq] at h ⊢
    exact ⟨_, fun _ => by rw [← h]⟩
  | none =>
    simp only [hN] at h ⊢
    cases hS : env.submit w.requests.length
        ("https://" ++ region ++ ".doubledouble.top" ++ "/dl?url=" ++ env.queryEscape amazonURL) with
    | transportError e =>
      simp only [hS, Option.some.injEq] at h ⊢
      exact ⟨_, fun _ => by rw [← h]⟩
    | response statusCode decoded =>
      simp only [hS] at h ⊢
      by_cases hcode : statusCode = 200
      · cases decoded with
        | error e =>
          simp only [hcode, ne_eq, not_true_eq_false, if_false, Option.some.injEq] at h ⊢
          exact ⟨_, fun _ => by rw [← h]⟩
        | ok submitResp =>
          simp only [hcode, ne_eq, not_true_eq_false, if_false] at h ⊢
          by_cases hacc : submitResp.Success = false ∨ submitResp.ID = ""
          · simp only [hacc, if_true, Option.some.injEq] at h ⊢
            exact ⟨_, fun _ => by rw [← h]⟩
          · simp only [hacc, if_false] at h ⊢
            cases hp : pollUntilTerminal env
                ("https://" ++ region ++ ".doubledouble.top" ++ "/dl/" ++ submitResp.ID)
                maxWait pollInterval
                (w.request ("https://" ++ region ++ ".doubledouble.top" ++ "/dl?url="
                  ++ env.queryEscape amazonURL)) with
            | none => simp [hp] at h
            | some poll =>
              simp only [hp] at h ⊢
              cases hend : poll.ending with
              | done status =>
                simp only [hend] at h ⊢
                cases hf : fetchFile env poll.world ("https://" ++ region ++ ".doubledouble.top")
                    outputDir status with
                | mk w2 fileEnd =>
                  cases fileEnd with
                  | saved filePath =>
                    simp only [hf, Option.some.injEq] at h
                    rw [← h] at hret
                    exact absurd hret (by simp)
                  | aborted e =>
                    simp only [hf, Option.some.injEq] at h
                    rw [← h] at hret
                    exact absurd hret (by simp)
                  | failed e =>
                    simp only [hf, Option.some.injEq] at h ⊢
                    obtain ⟨e1, he1⟩ := afterPollLoop_some maxWait poll.elapsed e
                    exact ⟨e1, fun _ => by rw [← h, he1]⟩
              | failed e =>
                simp only [hend, Option.some.injEq] at h ⊢
                obtain ⟨e1, he1⟩ := afterPollLoop_some maxWait poll.elapsed e
                exact ⟨e1, fun _ => by rw [← h, he1]⟩
              | expired =>
                simp only [hend, Option.some.injEq] at h ⊢
                have hel := pollLoop_expired_elapsed env _ maxWait pollInterval _ 0 0 _ poll hp hend
                refine ⟨"download timeout", fun _ => ?_⟩
                rw [← h]
                simp only [afterPollLoop, ge_iff_le, hel, if_true]
      · simp only [ne_eq, hcode, not_false_eq_true, if_true, Option.some.injEq] at h ⊢
        exact ⟨_, fun _ => by rw [← h]⟩

theorem regionLoop_failThrough (env : ServiceEnv) (maxWait pollInterval : Int)
    (amazonURL outputDir : String) (rest : List String) :
    ∀ (pre : List String) (lastError : Option String) (w : World) (lastError1 : Option String)
      (w1 : World),
      failThrough env maxWait pollInterval amazonURL outputDir pre lastError w
        = some (lastError1, w1) →
      regionLoop env maxWait pollInterval amazonURL outputDir (pre ++ rest) lastError w
        = regionLoop env maxWait pollInterval amazonURL outputDir rest lastError1 w1 := by
  intro pre
  induction pre with
  | nil =>
    intro lastError w lastError1 w1 h
    simp only [failThrough, Option.some.injEq, Prod.mk.injEq] at h
    rw [h.1, h.2]
    rfl
  | cons region pre ih =>
    intro lastError w lastError1 w1 h
    rw [List.cons_append, regionLoop]
    rw [failThrough] at h
    cases ha : attemptRegion env maxWait pollInterval amazonURL outputDir region lastError w with
    | none => simp [ha] at h
    | some r =>
      simp only [ha] at h ⊢
      cases hr : r.returned with
      | some v => simp [hr] at h
      | none =>
        simp only [hr] at h ⊢
        exact ih _ _ _ _ h

/-- C12: DownloadFromService tries the regions in list order.  Once the
regions before some region have all failed without ending the call: if that
region succeeds, the call stops there and returns its file path, whatever
regions follow; if it is the last one and fails, the returned error is "all
regions failed. Last error: " followed by the failure of that region, which
does not depend on the failures before it; if it ends the call with an error,
that error is returned. -/
theorem DownloadFromService_fallback (env : ServiceEnv) (regionsBefore regionsAfter : List String)
    (region amazonURL outputDir : String) (w w1 : World) (lastError1 : Option String)
    (r : RegionResult)
    (hpre : failThrough env (300 * second) (3 * second) amazonURL outputDir regionsBefore none w
      = some (lastError1, w1))
    (hr : attemptRegion env (300 * second) (3 * second) amazonURL outputDir region lastError1 w1
      = some r) :
    (∀ filePath : String, r.returned = some (filePath, none) →
      DownloadFromService env (regionsBefore ++ region :: regionsAfter) amazonURL outputDir w
        = some { world := r.world, filePath := filePath, err := none }) ∧
    (r.returned = none →
      ∃ e : String,
        (∀ earlier : Option String,
          attemptRegion env (300 * second) (3 * second) amazonURL outputDir region earlier w1
            = some { world := r.world, lastError := some e, returned := none }) ∧
        DownloadFromService env (regionsBefore ++ [region]) amazonURL outputDir w
          = some { world := r.world, filePath := ""
                   err := some ("all regions failed. Last error: " ++ e) }) ∧
    (∀ (filePath e : String), r.returned = some (filePath, some e) →
      DownloadFromService env (regionsBefore ++ region :: regionsAfter) amazonURL outputDir w
        = some { world := r.world, filePath := filePath, err := some e }) := by
  have hloop := regionLoop_failThrough env (300 * second) (3 * second) amazonURL outputDir
  refine ⟨?_, ?_, ?_⟩
  · intro filePath hret
    unfold DownloadFromService
    rw [hloop (region :: regionsAfter) regionsBefore none w lastError1 w1 hpre, regionLoop]
    simp only [hr, hret]
  · intro hret
    obtain ⟨e, he⟩ := attemptRegion_lastError_fresh env (300 * second) (3 * second) amazonURL
      outputDir region lastError1 w1 r hr hret
    refine ⟨e, he, ?_⟩
    unfold DownloadFromService
    rw [hloop [region] regionsBefore none w lastError1 w1 hpre, regionLoop]
    simp only [he lastError1, regionLoop, Option.getD_some]
  · intro filePath e hret
    unfold DownloadFromService
    rw [hloop (region :: regionsAfter) regionsBefore none w lastError1 w1 hpre, regionLoop]
    simp only [hr, hret]

/-- C12 witness: regions us and eu, us refusing the submit with status 503:
when eu delivers the file the call returns eu's path, and when eu's job reports
an error the final error names eu's failure, not the 503 of us. -/
theorem DownloadFromService_fallback_witness :
    (DownloadFromService
        (serviceEnv (fun k => if k = 0 then .response 503 (.error "") else accepted)
          (fun _ => jobStatus "done" "") (.response 200 [1, 2, 3] none))
        (["us"] ++ "eu" :: []) "track" "out" emptyWorld).map (fun x => (x.filePath, x.err))
      = some ("out/Miles Davis - So What.flac", none) ∧
    (DownloadFromService
        (serviceEnv (fun k => if k = 0 then .response 503 (.error "") else accepted)
          (fun _ => jobStatus "error" "Track unavailable") (.response 200 [1, 2, 3] none))
        (["us"] ++ ["eu"]) "track" "out" emptyWorld).map (fun x => (x.filePath, x.err))
      = some ("", some "all regions failed. Last error: processing failed: Track unavailable") := by
  constructor
  · obtain ⟨r, hr⟩ := Option.isSome_iff_exists.mp
      (show (attemptRegion
        (serviceEnv (fun k => if k = 0 then .response 503 (.error "") else accepted)
          (fun _ => jobStatus "done" "") (.response 200 [1, 2, 3] none))
        (300 * second) (3 * second) "track" "out" "eu" (some "submit failed with status 503")
        (emptyWorld.request "https://us.doubledouble.top/dl?url=track")).isSome = true by decide)
    have hret : r.returned = some ("out/Miles Davis - So What.flac", none) := by
      have hmap : (attemptRegion
          (serviceEnv (fun k => if k = 0 then .response 503 (.error "") else accepted)
            (fun _ => jobStatus "done" "") (.response 200 [1, 2, 3] none))
          (300 * second) (3 * second) "track" "out" "eu" (some "submit failed with status 503")
          (emptyWorld.request "https://us.doubledouble.top/dl?url=track")).map
            (fun x => x.returned) = some (some ("out/Miles Davis - So What.flac", none)) := by
        decide
      rw [hr] at hmap
      simpa using hmap
    have h := (DownloadFromService_fallback
      (serviceEnv (fun k => if k = 0 then .response 503 (.error "") else accepted)
        (fun _ => jobStatus "done" "") (.response 200 [1, 2, 3] none))
      ["us"] [] "eu" "track" "out" emptyWorld
      (emptyWorld.request "https://us.doubledouble.top/dl?url=track")
      (some "submit failed with status 503") r rfl hr).1 _ hret
    rw [h]
    rfl
  · decide

/-- C13 (evaluation at the failing input): with regions us and eu, us accepts
the job, reports it done at the first check and serves the file with status
200, but the copy to disk stops with an error: the call returns "failed to
write file: ..." at once, and the request log holds the three requests to us
only; eu is never tried. -/
theorem DownloadFromService_write_failure_ends_call :
    (DownloadFromService
        (serviceEnv (fun _ => accepted) (fun _ => jobStatus "done" "")
          (.response 200 [1, 2] (some "no space left on device")))
        ["us", "eu"] "track" "out" emptyWorld).map
        (fun x => (x.filePath, x.err, x.world.requests))
      = some ("", some "failed to write file: no space left on device",
          ["https://us.doubledouble.top/dl?url=track", "https://us.doubledouble.top/dl/42",
           "https://us.doubledouble.top/files/a.flac"]) := by
  decide

/-- C16 (evaluation at the failing input): with us refusing the submit and the
job of eu reporting status error at its 100th check, the failure recorded for
eu, and returned, is "download timeout"; the same error status one check
earlier is recorded as "processing failed: Track unavailable". -/
theorem DownloadFromService_error_at_last_tick :
    (DownloadFromService
        (serviceEnv (fun k => if k = 0 then .response 503 (.error "") else accepted)
          (fun k => if k < 101 then jobStatus "processing" ""
            else jobStatus "error" "Track unavailable")
          (.response 200 [] none))
        ["us", "eu"] "track" "out" emptyWorld).map (fun x => x.err)
      = some (some "all regions failed. Last error: download timeout") ∧
    (DownloadFromService
        (serviceEnv (fun k => if k = 0 then .response 503 (.error "") else accepted)
          (fun k => if k < 100 then jobStatus "processing" ""
            else jobStatus "error" "Track unavailable")
          (.response 200 [] none))
        ["us", "eu"] "track" "out" emptyWorld).map (fun x => x.err)
      = some (some "all regions failed. Last error: processing failed: Track unavailable") := by
  constructor <;> decide

/-! ## Direct downloads -/

theorem TidalDownloader_DownloadFile_plain (env : DownloadEnv) (w : World) (url filepath : String)
    (hplain : hasPrefix url "MANIFEST:" = false) :
    TidalDownloader.DownloadFile env w url filepath = some (downloadDirect env w url filepath) := by
  unfold TidalDownloader.DownloadFile downloadDirect
  simp only [hplain, Bool.false_eq_true, if_false]
  cases env.get w.requests.length url with
  | transportError e => rfl
  | response statusCode body copyErr =>
    simp only
    split
    · rfl
    · cases env.createErr filepath with
      | some e => rfl
      | none =>
        cases copyErr with
        | some e => rfl
        | none => rfl

theorem QobuzDownloader_DownloadFile_eq (env : DownloadEnv) (w : World) (url filepath : String) :
    QobuzDownloader.DownloadFile env w url filepath = downloadDirect env w url filepath := by
  unfold QobuzDownloader.DownloadFile downloadDirect
  rfl

theorem DownloadFromManifest_bts (env : DownloadEnv) (w : World)
    (manifestB64 outputPath manifestStr url : String) (bts : TidalBTSManifest) (rest : List String)
    (hdec : env.decoders.base64Decode manifestB64 = .ok manifestStr)
    (hobj : hasPrefix manifestStr "\x7b" = true)
    (hjson : env.decoders.jsonUnmarshalBTS manifestStr = .ok bts)
    (hurls : bts.URLs = url :: rest) (hurl : url ≠ "") :
    DownloadFromManifest env w manifestB64 outputPath =
      some (downloadDirect env w url outputPath) := by
  unfold DownloadFromManifest parseManifest
  simp [hdec, hobj, hjson, hurls, hurl]

theorem downloadDirect_rejected (env : DownloadEnv) (w : World) (url outputPath : String)
    (statusCode : Int) (body : Bytes) (copyErr : Option String)
    (hget : env.get w.requests.length url = .response statusCode body copyErr)
    (hstatus : statusCode ≠ 200) :
    downloadDirect env w url outputPath =
      { world := w.request url
        err := some ("download failed with status " ++ decimal statusCode) } := by
  unfold downloadDirect
  simp [hget, hstatus]

theorem downloadDirect_accepted (env : DownloadEnv) (w : World) (url outputPath : String)
    (body : Bytes)
    (hget : env.get w.requests.length url = .response 200 body none)
    (hcreate : env.createErr outputPath = none) :
    downloadDirect env w url outputPath =
      { world := ((w.request url).create outputPath).append outputPath body, err := none } := by
  unfold downloadDirect
  simp [hget, hcreate]


/-- C21 (as amended): direct retrieval status check.  For a plain URL handed to
TidalDownloader.DownloadFile, the same URL as first entry of a BTS manifest
handed to DownloadFromManifest, and the same URL handed to
QobuzDownloader.DownloadFile, the three calls end alike once the request is
answered with a response: with a status other than 200 they return the error
"download failed with status N" and leave every file as it was (the output
path is neither created nor truncated); with status 200, when the output file
can be created, the file at the output path holds exactly the body bytes the
copy delivered, every other file is as it was, and the call returns nil when
the copy ended without error ("failed to write file" otherwise). -/
theorem direct_download_status_check (env : DownloadEnv) (w : World)
    (url outputPath manifestB64 manifestStr : String) (bts : TidalBTSManifest)
    (rest : List String) (statusCode : Int) (body : Bytes) (copyErr : Option String)
    (hplain : hasPrefix url "MANIFEST:" = false)
    (hdec : env.decoders.base64Decode manifestB64 = .ok manifestStr)
    (hobj : hasPrefix manifestStr "\x7b" = true)
    (hjson : env.decoders.jsonUnmarshalBTS manifestStr = .ok bts)
    (hurls : bts.URLs = url :: rest) (hurl : url ≠ "")
    (hget : env.get w.requests.length url = .response statusCode body copyErr) :
    ∃ r : Outcome,
      TidalDownloader.DownloadFile env w url outputPath = some r ∧
      DownloadFromManifest env w manifestB64 outputPath = some r ∧
      QobuzDownloader.DownloadFile env w url outputPath = r ∧
      r.world.requests = w.requests ++ [url] ∧
      (statusCode ≠ 200 →
        r.err = some ("download failed with status " ++ decimal statusCode) ∧
        r.world.files = w.files) ∧
      (statusCode = 200 → env.createErr outputPath = none →
        r.world.files outputPath = some body ∧
        (∀ p : String, p ≠ outputPath → r.world.files p = w.files p) ∧
        r.err = copyErr.map (fun e => "failed to write file: " ++ e)) := by
  refine ⟨downloadDirect env w url outputPath,
    TidalDownloader_DownloadFile_plain env w url outputPath hplain,
    DownloadFromManifest_bts env w manifestB64 outputPath manifestStr url bts rest hdec hobj
      hjson hurls hurl,
    QobuzDownloader_DownloadFile_eq env w url outputPath, ?_, ?_, ?_⟩
  · unfold downloadDirect
    simp only [hget]
    split
    · rfl
    · cases env.createErr outputPath with
      | some e => rfl
      | none => cases copyErr <;> rfl
  · intro hstatus
    rw [downloadDirect_rejected env w url outputPath statusCode body copyErr hget hstatus]
    exact ⟨rfl, rfl⟩
  · intro hstatus hcreate
    subst hstatus
    unfold downloadDirect
    simp only [hget, ne_eq, not_true_eq_false, if_false, hcreate]
    cases copyErr with
    | some e =>
      refine ⟨?_, ?_, rfl⟩
      · simp [World.append, World.create, World.request]
      · intro p hp
        simp [World.append, World.create, World.request, hp]
    | none =>
      refine ⟨?_, ?_, rfl⟩
      · simp [World.append, World.create, World.request]
      · intro p hp
        simp [World.append, World.create, World.request, hp]

/-- C21 witness: the scenario-1 URL answered with status 200 and two bytes,
written over an output file that held three other bytes. -/
theorem direct_download_status_check_witness :
    ∃ r : Outcome,
      TidalDownloader.DownloadFile (directEnv (.response 200 [9, 8] none)) usedWorld
        "https://host/a.flac" "out.flac" = some r ∧
      DownloadFromManifest (directEnv (.response 200 [9, 8] none)) usedWorld "bts" "out.flac"
        = some r ∧
      QobuzDownloader.DownloadFile (directEnv (.response 200 [9, 8] none)) usedWorld
        "https://host/a.flac" "out.flac" = r ∧
      r.world.requests = usedWorld.requests ++ ["https://host/a.flac"] ∧
      ((200 : Int) ≠ 200 →
        r.err = some ("download failed with status " ++ decimal 200) ∧
        r.world.files = usedWorld.files) ∧
      ((200 : Int) = 200 → (directEnv (.response 200 [9, 8] none)).createErr "out.flac" = none →
        r.world.files "out.flac" = some [9, 8] ∧
        (∀ p : String, p ≠ "out.flac" → r.world.files p = usedWorld.files p) ∧
        r.err = (none : Option String).map (fun e => "failed to write file: " ++ e)) :=
  direct_download_status_check (directEnv (.response 200 [9, 8] none)) usedWorld
    "https://host/a.flac" "out.flac" "bts" sampleBtsText
    { MimeType := "", Codecs := "", EncryptionType := "", URLs := ["https://host/a.flac"] }
    [] 200 [9, 8] none (by decide) rfl (by decide) rfl rfl (by decide) rfl

/-- C21 counterexample: the scenario-1 URL answered with status 206, a success
status, and two bytes, over an output file that holds three other bytes: each
of the three calls returns "download failed with status 206" and the output
file keeps its three bytes instead of receiving the body. -/
theorem direct_download_rejects_partial_content :
    (TidalDownloader.DownloadFile (directEnv (.response 206 [9, 8] none)) usedWorld
        "https://host/a.flac" "out.flac").map (fun r => (r.err, r.world.files "out.flac"))
      = some (some "download failed with status 206", some [1, 2, 3]) ∧
    (DownloadFromManifest (directEnv (.response 206 [9, 8] none)) usedWorld "bts"
        "out.flac").map (fun r => (r.err, r.world.files "out.flac"))
      = some (some "download failed with status 206", some [1, 2, 3]) ∧
    ((QobuzDownloader.DownloadFile (directEnv (.response 206 [9, 8] none)) usedWorld
        "https://host/a.flac" "out.flac").err,
      (QobuzDownloader.DownloadFile (directEnv (.response 206 [9, 8] none)) usedWorld
        "https://host/a.flac" "out.flac").world.files "out.flac")
      = (some "download failed with status 206", some [1, 2, 3]) := by
  refine ⟨by decide, by decide, by decide⟩

/-! ## The two endpoints of `GetDownloadURL` -/

/-- C23: ManifestResolver idempotence.  Two calls of parseManifest on the same
encoded manifest m, in each of which the library decoders read m and the text
decoded from it alike, return identical results: the same outcome (both fail
with the same error, both succeed, or neither returns) and, when they return,
the same direct URL, the same initialization URL and the same ordered list of
media URLs.  The result is a function of m and of the library's reading of m
alone; nothing else the decoders would answer, and no other state, enters. -/
theorem parseManifest_idempotent (dec dec2 : Decoders) (m : String)
    (hb : dec2.base64Decode m = dec.base64Decode m)
    (hj : ∀ text : String, dec.base64Decode m = .ok text →
      dec2.jsonUnmarshalBTS text = dec.jsonUnmarshalBTS text)
    (hx : ∀ text : String, dec.base64Decode m = .ok text →
      dec2.xmlUnmarshalMPD text = dec.xmlUnmarshalMPD text) :
    parseManifest dec2 m = parseManifest dec m ∧
    ∀ r1 r2 : ManifestResult, parseManifest dec m = some r1 → parseManifest dec2 m = some r2 →
      r1.directURL = r2.directURL ∧ r1.initURL = r2.initURL ∧ r1.mediaURLs = r2.mediaURLs ∧
      r1.err = r2.err := by
  have heq : parseManifest dec2 m = parseManifest dec m := by
    unfold parseManifest
    rw [hb]
    cases hd : dec.base64Decode m with
    | error e => rfl
    | ok manifestStr =>
      simp only
      rw [hj manifestStr hd, hx manifestStr hd]
  refine ⟨heq, ?_⟩
  intro r1 r2 h1 h2
  rw [heq, h1] at h2
  simp only [Option.some.injEq] at h2
  subst h2
  exact ⟨rfl, rfl, rfl, rfl⟩

/-- C23 witness: the scenario-2 manifest read once by the sample decoders and
once by decoders that answer every other input differently. -/
theorem parseManifest_idempotent_witness :
    parseManifest
        { base64Decode := fun s => if s = "dash" then .ok (dashText "2") else .ok s
          jsonUnmarshalBTS := fun _ => .error "invalid character"
          xmlUnmarshalMPD := fun s => if s = dashText "2" then .ok (dashMPD 2) else .ok (dashMPD 5) }
        "dash" = parseManifest sampleDashDecoders "dash" ∧
    ∀ r1 r2 : ManifestResult, parseManifest sampleDashDecoders "dash" = some r1 →
      parseManifest
        { base64Decode := fun s => if s = "dash" then .ok (dashText "2") else .ok s
          jsonUnmarshalBTS := fun _ => .error "invalid character"
          xmlUnmarshalMPD := fun s => if s = dashText "2" then .ok (dashMPD 2) else .ok (dashMPD 5) }
        "dash" = some r2 →
      r1.directURL = r2.directURL ∧ r1.initURL = r2.initURL ∧ r1.mediaURLs = r2.mediaURLs ∧
      r1.err = r2.err :=
  parseManifest_idempotent sampleDashDecoders
    { base64Decode := fun s => if s = "dash" then .ok (dashText "2") else .ok s
      jsonUnmarshalBTS := fun _ => .error "invalid character"
      xmlUnmarshalMPD := fun s => if s = dashText "2" then .ok (dashMPD 2) else .ok (dashMPD 5) }
    "dash" rfl
    (by
      intro text h
      have ht : text = dashText "2" := by
        have h2 : sampleDashDecoders.base64Decode "dash" = .ok (dashText "2") := rfl
        rw [h2] at h
        simp only [Except.ok.injEq] at h
        exact h.symm
      subst ht
      rfl)
    (by
      intro text h
      have ht : text = dashText "2" := by
        have h2 : sampleDashDecoders.base64Decode "dash" = .ok (dashText "2") := rfl
        rw [h2] at h
        simp only [Except.ok.injEq] at h
        exact h.symm
      subst ht
      rfl)

/-! ## Status checks that fail -/

theorem checkFailed_quiet (x : JsonExchange DoubleDoubleStatusResponse)
    (h : x.checkFailed = true) : x.quiet = true := by
  cases x with
  | transportError e => rfl
  | response statusCode decoded =>
    cases decoded with
    | error e => simp [JsonExchange.quiet]
    | ok status =>
      simp only [JsonExchange.checkFailed, Bool.or_false, decide_eq_true_eq] at h
      simp [JsonExchange.quiet, h]

theorem statusCheck_quiet_at (env : ServiceEnv) (statusURL : String) (w : World)
    (hnew : env.newRequestErr statusURL = none)
    (hq : (env.status w.requests.length statusURL).quiet = true) :
    statusCheck env statusURL w = (w.request statusURL, none) := by
  unfold statusCheck
  simp only [hnew]
  cases hs : env.status w.requests.length statusURL with
  | transportError e => rfl
  | response statusCode decoded =>
    rw [hs] at hq
    simp only
    by_cases hcode : statusCode = 200
    · subst hcode
      cases decoded with
      | error e => rfl
      | ok status =>
        simp only [JsonExchange.quiet, ne_eq, not_true_eq_false, decide_False, Bool.false_or,
          Bool.and_eq_true, decide_eq_true_eq] at hq
        simp [hq.1, hq.2]
    · simp [hcode]

theorem pollLoop_quiet_then_done (env : ServiceEnv) (statusURL : String)
    (maxWait pollInterval : Int) (status : DoubleDoubleStatusResponse)
    (hI : 0 ≤ pollInterval) (hnew : env.newRequestErr statusURL = none)
    (hd : status.Status = "done") :
    ∀ (k fuel : Nat) (elapsed : Int) (ticks : Nat) (w : World),
      k + 1 ≤ fuel →
      (∀ j : Nat, j < k → (env.status (w.requests.length + j) statusURL).quiet = true) →
      env.status (w.requests.length + k) statusURL = .response 200 (.ok status) →
      elapsed + (k : Int) * pollInterval < maxWait →
      ∃ w1 : World,
        pollLoop env statusURL maxWait pollInterval fuel elapsed ticks w =
          some { world := w1, elapsed := elapsed + ((k : Int) + 1) * pollInterval
                 ticks := ticks + (k + 1), ending := PollEnd.done status } ∧
        w1.requests = w.requests ++ List.replicate (k + 1) statusURL ∧ w1.files = w.files := by
  intro k
  induction k with
  | zero =>
    intro fuel elapsed ticks w hfuel _ hdone hwait
    cases fuel with
    | zero => omega
    | succ fuel =>
      simp only [Nat.cast_zero, zero_mul, add_zero] at hwait
      have hc := statusCheck_done env statusURL w status hnew (by simpa using hdone) hd
      refine ⟨w.request statusURL, ?_, ?_, rfl⟩
      · simp only [pollLoop, hwait, if_true, hc, Nat.cast_zero, zero_add, one_mul]
      · simp [World.request]
  | succ k ih =>
    intro fuel elapsed ticks w hfuel hquiet hdone hwait
    cases fuel with
    | zero => omega
    | succ fuel =>
      have hk : (0 : Int) ≤ ((k + 1 : Nat) : Int) * pollInterval :=
        mul_nonneg (Int.natCast_nonneg _) hI
      have hlt : elapsed < maxWait := by omega
      have hc := statusCheck_quiet_at env statusURL w hnew (by simpa using hquiet 0 (by omega))
      have hcast : elapsed + ((k + 1 : Nat) : Int) * pollInterval
          = elapsed + pollInterval + (k : Int) * pollInterval := by
        push_cast
        ring
      obtain ⟨w1, hrun, hreq, hfiles⟩ := ih fuel (elapsed + pollInterval) (ticks + 1)
        (w.request statusURL) (by omega)
        (by
          intro j hj
          have := hquiet (j + 1) (by omega)
          simpa [World.request, Nat.add_assoc, Nat.add_comm 1 j] using this)
        (by simpa [World.request, Nat.add_assoc, Nat.add_comm 1 k] using hdone)
        (by rw [← hcast]; exact hwait)
      refine ⟨w1, ?_, ?_, hfiles⟩
      · simp only [pollLoop, hlt, if_true, hc, hrun]
        have e1 : elapsed + pollInterval + ((k : Int) + 1) * pollInterval
            = elapsed + (((k + 1 : Nat) : Int) + 1) * pollInterval := by
          push_cast
          ring
        have e2 : ticks + 1 + (k + 1) = ticks + (k + 1 + 1) := by omega
        rw [e1, e2]
      · rw [hreq]
        simp [World.request, List.replicate_succ]

/-- C24: transient status failures.  In a region whose submit was accepted,
with a positive poll interval I: when the first k status checks fail (no
response, a status other than 200, or an undecodable body) and check k+1
reports done, where k*I < maxWait so that the loop is still entered for tick
k+1, none of the failed checks ends the loop: it makes k+1 ticks with one
status request each, every tick adds I to elapsed (elapsed = (k+1)*I at the
end), and it ends with the done status.  The failed checks leave the region's
error alone: when the file is then saved, the region returns its path with a
nil error and lastError is the value the region was entered with. -/
theorem attemptRegion_transient_status_failures (env : ServiceEnv)
    (maxWait pollInterval : Int) (amazonURL outputDir region : String)
    (lastError : Option String) (w : World) (submitResp : DoubleDoubleSubmitResponse)
    (k : Nat) (status : DoubleDoubleStatusResponse) (hI : 0 < pollInterval)
    (hnew : env.newRequestErr
      ("https://" ++ region ++ ".doubledouble.top" ++ "/dl?url=" ++ env.queryEscape amazonURL)
      = none)
    (hsub : env.submit w.requests.length
      ("https://" ++ region ++ ".doubledouble.top" ++ "/dl?url=" ++ env.queryEscape amazonURL)
      = .response 200 (.ok submitResp))
    (hok : submitResp.Success = true) (hid : submitResp.ID ≠ "")
    (hnewStatus : env.newRequestErr
      ("https://" ++ region ++ ".doubledouble.top" ++ "/dl/" ++ submitResp.ID) = none)
    (hfail : ∀ j : Nat, j < k →
      (env.status (w.requests.length + 1 + j)
        ("https://" ++ region ++ ".doubledouble.top" ++ "/dl/" ++ submitResp.ID)).checkFailed
        = true)
    (hdone : env.status (w.requests.length + 1 + k)
      ("https://" ++ region ++ ".doubledouble.top" ++ "/dl/" ++ submitResp.ID)
      = .response 200 (.ok status))
    (hd : status.Status = "done") (hwait : (k : Int) * pollInterval < maxWait) :
    ∃ poll : PollResult,
      pollUntilTerminal env ("https://" ++ region ++ ".doubledouble.top" ++ "/dl/" ++ submitResp.ID)
        maxWait pollInterval
        (w.request
          ("https://" ++ region ++ ".doubledouble.top" ++ "/dl?url=" ++ env.queryEscape amazonURL))
        = some poll ∧
      poll.ending = PollEnd.done status ∧
      poll.ticks = k + 1 ∧
      poll.elapsed = ((k : Int) + 1) * pollInterval ∧
      poll.world.requests = w.requests ++
        ("https://" ++ region ++ ".doubledouble.top" ++ "/dl?url=" ++ env.queryEscape amazonURL) ::
          List.replicate (k + 1)
            ("https://" ++ region ++ ".doubledouble.top" ++ "/dl/" ++ submitResp.ID) ∧
      poll.world.files = w.files ∧
      ∀ (w2 : World) (filePath : String),
        fetchFile env poll.world ("https://" ++ region ++ ".doubledouble.top") outputDir status
          = (w2, FileEnd.saved filePath) →
        attemptRegion env maxWait pollInterval amazonURL outputDir region lastError w =
          some { world := w2, lastError := lastError, returned := some (filePath, none) } := by
  have hfuel : k + 1 ≤ ticksNeeded maxWait pollInterval := by
    have hreach := ticksNeeded_reaches maxWait pollInterval hI
    have hlt : (k : Int) * pollInterval < (ticksNeeded maxWait pollInterval : Int) * pollInterval :=
      lt_of_lt_of_le hwait hreach
    have := lt_of_mul_lt_mul_right hlt (le_of_lt hI)
    omega
  obtain ⟨w1, hrun, hreq, hfiles⟩ := pollLoop_quiet_then_done env
    ("https://" ++ region ++ ".doubledouble.top" ++ "/dl/" ++ submitResp.ID) maxWait pollInterval
    status (le_of_lt hI) hnewStatus hd k (ticksNeeded maxWait pollInterval) 0 0
    (w.request
      ("https://" ++ region ++ ".doubledouble.top" ++ "/dl?url=" ++ env.queryEscape amazonURL))
    hfuel
    (by
      intro j hj
      have := checkFailed_quiet _ (hfail j hj)
      simpa [World.request] using this)
    (by simpa [World.request] using hdone)
    (by simpa using hwait)
  have hpoll : pollUntilTerminal env
      ("https://" ++ region ++ ".doubledouble.top" ++ "/dl/" ++ submitResp.ID) maxWait pollInterval
      (w.request
        ("https://" ++ region ++ ".doubledouble.top" ++ "/dl?url=" ++ env.queryEscape amazonURL))
      = some { world := w1, elapsed := ((k : Int) + 1) * pollInterval, ticks := k + 1
               ending := PollEnd.done status } := by
    unfold pollUntilTerminal
    rw [hrun]
    simp
  refine ⟨_, hpoll, rfl, rfl, rfl, ?_, hfiles, ?_⟩
  · show w1.requests = _
    rw [hreq]
    simp [World.request]
  · intro w2 filePath hfetch
    rw [attemptRegion_submitted env maxWait pollInterval amazonURL outputDir region lastError w
      submitResp hnew hsub hok hid _ hpoll]
    simp only [hfetch]

/-- C24 witness: the reference policy in region us; the status checks fail by
a transport error, by status 503 and by an undecodable body, and the fourth
reports done: four ticks, elapsed = 12 seconds, and the file is returned. -/
theorem attemptRegion_transient_status_failures_witness :
    ∃ poll : PollResult,
      pollUntilTerminal (serviceEnv (fun _ => accepted) flakyStatus (.response 200 [1, 2] none))
        ("https://" ++ "us" ++ ".doubledouble.top" ++ "/dl/" ++ "42") (300 * second) (3 * second)
        (emptyWorld.request
          ("https://" ++ "us" ++ ".doubledouble.top" ++ "/dl?url=" ++
            (serviceEnv (fun _ => accepted) flakyStatus (.response 200 [1, 2] none)).queryEscape
              "https://music.amazon.com/tracks/B0"))
        = some poll ∧
      poll.ending = PollEnd.done
        { Status := "done", FriendlyStatus := "", URL := "/files/a.flac"
          CurrentName := "So What", CurrentArtist := "Miles Davis" } ∧
      poll.ticks = 3 + 1 ∧
      poll.elapsed = (((3 : Nat) : Int) + 1) * (3 * second) ∧
      poll.world.requests = emptyWorld.requests ++
        ("https://" ++ "us" ++ ".doubledouble.top" ++ "/dl?url=" ++
            (serviceEnv (fun _ => accepted) flakyStatus (.response 200 [1, 2] none)).queryEscape
              "https://music.amazon.com/tracks/B0") ::
          List.replicate (3 + 1) ("https://" ++ "us" ++ ".doubledouble.top" ++ "/dl/" ++ "42") ∧
      poll.world.files = emptyWorld.files ∧
      ∀ (w2 : World) (filePath : String),
        fetchFile (serviceEnv (fun _ => accepted) flakyStatus (.response 200 [1, 2] none))
            poll.world ("https://" ++ "us" ++ ".doubledouble.top") "out"
            { Status := "done", FriendlyStatus := "", URL := "/files/a.flac"
              CurrentName := "So What", CurrentArtist := "Miles Davis" }
          = (w2, FileEnd.saved filePath) →
        attemptRegion (serviceEnv (fun _ => accepted) flakyStatus (.response 200 [1, 2] none))
            (300 * second) (3 * second) "https://music.amazon.com/tracks/B0" "out" "us" none
            emptyWorld =
          some { world := w2, lastError := none, returned := some (filePath, none) } :=
  attemptRegion_transient_status_failures
    (serviceEnv (fun _ => accepted) flakyStatus (.response 200 [1, 2] none))
    (300 * second) (3 * second) "https://music.amazon.com/tracks/B0" "out" "us" none emptyWorld
    { Success := true, ID := "42" } 3
    { Status := "done", FriendlyStatus := "", URL := "/files/a.flac"
      CurrentName := "So What", CurrentArtist := "Miles Davis" }
    (by decide) rfl rfl rfl (by decide) rfl (by decide) rfl rfl (by decide)

/-! ## Bookkeeping of upstream requests -/

theorem rateLimitWait_keeps (env : AmazonEnv) (s : Session) :
    (rateLimitWait env s).recorded = s.recorded ∧
    (rateLimitWait env s).a.lastAPICallTime = s.a.lastAPICallTime := by
  constructor
  · unfold rateLimitWait
    simp only [Session.timeNow]
    rw [(spacingWait_same env _ _).1, (quotaWait_same env _ _).1, (resetWindow_same _ _).1]
  · unfold rateLimitWait
    simp only [Session.timeNow]
    rw [(spacingWait_same env _ _).2.1, (quotaWait_same env _ _).2.1, (resetWindow_same _ _).2.1]

theorem GetAmazonURLFromSpotify_transport_error (env : AmazonEnv)
    (spotifyTrackID : String) (s : Session) (e : String)
    (hresp : env.respond s.requests spotifyTrackID = .error e) :
    (GetAmazonURLFromSpotify env spotifyTrackID s).2 = .error ("failed to get Amazon URL: " ++ e) ∧
    (GetAmazonURLFromSpotify env spotifyTrackID s).1.requests = s.requests + 1 ∧
    (GetAmazonURLFromSpotify env spotifyTrackID s).1.a.lastAPICallTime = s.a.lastAPICallTime ∧
    (GetAmazonURLFromSpotify env spotifyTrackID s).1.a.apiCallCount
      = (rateLimitWait env s).a.apiCallCount ∧
    (GetAmazonURLFromSpotify env spotifyTrackID s).1.recorded = s.recorded := by
  have hreq := (rateLimitWait_requests env s).1
  have hloop := requestLoop_transport env spotifyTrackID 3 2 0 none (rateLimitWait env s) e
    (by rw [hreq]; exact hresp)
  have hcall := GetAmazonURLFromSpotify_of_loop_error env spotifyTrackID s _ _ hloop
  rw [hcall]
  refine ⟨rfl, ?_, ?_, rfl, ?_⟩
  · show (rateLimitWait env s).requests + 1 = s.requests + 1
    rw [hreq]
  · exact (rateLimitWait_keeps env s).2
  · exact (rateLimitWait_keeps env s).1

/-- C25: the request that GetAmazonURLFromSpotify issues is not recorded when
it ends in a transport error, since line 113 returns before lines 116-117 run.
A downloader that has made one recorded call at time 0 makes a second call
whose request meets a connection reset: the call returns "failed to get Amazon
URL", two requests have gone upstream, and the downloader still counts one
call, made at time 0. -/
theorem GetAmazonURLFromSpotify_transport_error_unrecorded :
    (GetAmazonURLFromSpotify (failingEnv 0 (.error "connection reset")) "b"
        (GetAmazonURLFromSpotify (throttledEnv 0) "a" (newSession 0)).1).2
      = .error ("failed to get Amazon URL: " ++ "connection reset") ∧
    (GetAmazonURLFromSpotify (failingEnv 0 (.error "connection reset")) "b"
        (GetAmazonURLFromSpotify (throttledEnv 0) "a" (newSession 0)).1).1.requests = 1 + 1 ∧
    (GetAmazonURLFromSpotify (failingEnv 0 (.error "connection reset")) "b"
        (GetAmazonURLFromSpotify (throttledEnv 0) "a" (newSession 0)).1).1.a.lastAPICallTime
      = some 0 ∧
    (GetAmazonURLFromSpotify (failingEnv 0 (.error "connection reset")) "b"
        (GetAmazonURLFromSpotify (throttledEnv 0) "a" (newSession 0)).1).1.a.apiCallCount = 1 ∧
    (GetAmazonURLFromSpotify (failingEnv 0 (.error "connection reset")) "b"
        (GetAmazonURLFromSpotify (throttledEnv 0) "a" (newSession 0)).1).1.recorded = [0] :=
  GetAmazonURLFromSpotify_transport_error (failingEnv 0 (.error "connection reset")) "b"
    (GetAmazonURLFromSpotify (throttledEnv 0) "a" (newSession 0)).1 "connection reset" rfl

/-! ## What the mirror workers send -/

theorem mirrorWorker_single (env : MirrorEnv) (trackID : Int) (quality api : String) :
    ∃ r : manifestResult, mirrorWorker env trackID quality api = [r] ∧ r.apiURL = api ∧
      (r.err ≠ none ∨ r.manifest ≠ "") := by
  unfold mirrorWorker
  simp only
  cases env.get (api ++ "/track/?id=" ++ decimal trackID ++ "&quality=" ++ quality) with
  | transportError e => exact ⟨_, rfl, rfl, Or.inl (by simp)⟩
  | response statusCode body readErr =>
    simp only
    split
    · exact ⟨_, rfl, rfl, Or.inl (by simp)⟩
    · cases readErr with
      | some e => exact ⟨_, rfl, rfl, Or.inl (by simp)⟩
      | none =>
        simp only
        split
        · rename_i hm
          exact ⟨_, rfl, rfl, Or.inr hm⟩
        · cases firstTrackURL env body with
          | some trackURL =>
            refine ⟨_, rfl, rfl, Or.inr ?_⟩
            intro h
            have := congrArg String.length h
            simp only [String.length_append] at this
            have h7 : "DIRECT:".length = 7 := by decide
            rw [h7] at this
            have h0 : "".length = 0 := by decide
            rw [h0] at this
            omega
          | none => exact ⟨_, rfl, rfl, Or.inl (by simp)⟩

theorem mirrorWorker_sends (env : MirrorEnv) (trackID : Int) (quality : String)
    (apis : List String) :
    (apis.flatMap (mirrorWorker env trackID quality)).length = apis.length ∧
    ∀ r ∈ apis.flatMap (mirrorWorker env trackID quality), r.err ≠ none ∨ r.manifest ≠ "" := by
  induction apis with
  | nil => simp
  | cons api rest ih =>
    obtain ⟨r, hr, _, hsafe⟩ := mirrorWorker_single env trackID quality api
    simp only [List.flatMap_cons, hr, List.singleton_append, List.length_cons, ih.1,
      List.mem_cons, true_and]
    intro x hx
    rcases hx with hx | hx
    · rw [hx]
      exact hsafe
    · exact ih.2 x hx

theorem drainResults_safe (n : Nat) :
    ∀ (fuel : Nat) (arrivals : List manifestResult) (lastError : Option String)
      (errors : List String),
      fuel ≤ arrivals.length →
      (∀ r ∈ arrivals, r.err ≠ none ∨ r.manifest ≠ "") →
      (drainResults n fuel arrivals lastError errors).ending ≠ RaceEnd.panicked ∧
      (drainResults n fuel arrivals lastError errors).ending ≠ RaceEnd.blocked := by
  intro fuel
  induction fuel with
  | zero =>
    intro arrivals lastError errors _ _
    simp [drainResults]
  | succ fuel ih =>
    intro arrivals lastError errors hlen hsafe
    cases arrivals with
    | nil => simp at hlen
    | cons result rest =>
      simp only [drainResults]
      split
      · split <;> simp
      · rename_i hnot
        cases herr : result.err with
        | none =>
          have := hsafe result (List.mem_cons_self _ _)
          rcases this with h | h
          · exact absurd herr h
          · exact absurd ⟨herr, h⟩ hnot
        | some errMsg =>
          simp only
          exact ih rest _ _ (by simpa using hlen)
            (fun r hr => hsafe r (List.mem_cons_of_mem _ hr))

theorem runChannel_room (capacity : Nat) :
    ∀ (schedule : List ChanEvent) (queued : List manifestResult),
      queued.length + (schedule.filterMap ChanEvent.sent).length ≤ capacity →
      runChannel capacity schedule queued ≠ none := by
  intro schedule
  induction schedule with
  | nil =>
    intro queued _
    simp [runChannel]
  | cons event rest ih =>
    intro queued hroom
    cases event with
    | send r =>
      simp only [List.filterMap_cons, ChanEvent.sent, List.length_cons] at hroom
      have hlt : queued.length < capacity := by omega
      simp only [runChannel, hlt, if_true]
      exact ih _ (by simp only [List.length_append, List.length_singleton]; omega)
    | receive =>
      simp only [List.filterMap_cons, ChanEvent.sent] at hroom
      simp only [runChannel]
      exact ih _ (by
        have : queued.tail.length ≤ queued.length := by simp
        omega)

/-- C26: mirror race safety.  Every worker of getDownloadURLParallel sends
exactly one value on the result channel, whatever its request meets, and that
value carries its mirror and has a non-nil error or a non-empty manifest.
Hence, for the values the workers send delivered in any order, the coordinator
returns: it never calls Error() on a nil error and never waits for a value
that no worker sends; and in every interleaving of the workers' sends with the
coordinator's receives, each send finds room in the buffer of capacity
len(apis). -/
theorem getDownloadURLParallel_safe (env : MirrorEnv) (trackID : Int) (quality : String)
    (apis : List String) (arrivals : List manifestResult) (schedule : List ChanEvent)
    (harrive : arrivals.Perm (apis.flatMap (mirrorWorker env trackID quality)))
    (hsched : (schedule.filterMap ChanEvent.sent).Subperm
      (apis.flatMap (mirrorWorker env trackID quality))) :
    (∀ api : String, ∃ r : manifestResult,
      mirrorWorker env trackID quality api = [r] ∧ r.apiURL = api ∧
      (r.err ≠ none ∨ r.manifest ≠ "")) ∧
    (getDownloadURLParallel apis arrivals).ending ≠ RaceEnd.panicked ∧
    (getDownloadURLParallel apis arrivals).ending ≠ RaceEnd.blocked ∧
    runChannel apis.length schedule [] ≠ none := by
  have hsends := mirrorWorker_sends env trackID quality apis
  have hlen : arrivals.length = apis.length := by
    rw [harrive.length_eq, hsends.1]
  have hsafe : ∀ r ∈ arrivals, r.err ≠ none ∨ r.manifest ≠ "" :=
    fun r hr => hsends.2 r (harrive.mem_iff.mp hr)
  refine ⟨mirrorWorker_single env trackID quality, ?_, ?_, ?_⟩
  · unfold getDownloadURLParallel
    split
    · simp
    · exact (drainResults_safe apis.length apis.length arrivals none [] (by omega) hsafe).1
  · unfold getDownloadURLParallel
    split
    · simp
    · exact (drainResults_safe apis.length apis.length arrivals none [] (by omega) hsafe).2
  · apply runChannel_room
    have := hsched.length_le
    rw [hsends.1] at this
    simpa using this

/-- C26 witness: three mirrors, of which a does not answer, b answers with
status 503 and c with a manifest; b is delivered first, and the coordinator
takes its first value when two have been sent. -/
theorem getDownloadURLParallel_safe_witness :
    (∀ api : String, ∃ r : manifestResult,
      mirrorWorker sampleMirrors 7 "LOSSLESS" api = [r] ∧ r.apiURL = api ∧
      (r.err ≠ none ∨ r.manifest ≠ "")) ∧
    (getDownloadURLParallel ["a", "b", "c"]
      [{ apiURL := "b", manifest := "", err := some "HTTP 503" },
       { apiURL := "a", manifest := "", err := some "timeout" },
       { apiURL := "c", manifest := "bts", err := none }]).ending ≠ RaceEnd.panicked ∧
    (getDownloadURLParallel ["a", "b", "c"]
      [{ apiURL := "b", manifest := "", err := some "HTTP 503" },
       { apiURL := "a", manifest := "", err := some "timeout" },
       { apiURL := "c", manifest := "bts", err := none }]).ending ≠ RaceEnd.blocked ∧
    runChannel ["a", "b", "c"].length
      [ChanEvent.send { apiURL := "b", manifest := "", err := some "HTTP 503" },
       ChanEvent.send { apiURL := "a", manifest := "", err := some "timeout" },
       ChanEvent.receive,
       ChanEvent.send { apiURL := "c", manifest := "bts", err := none },
       ChanEvent.receive, ChanEvent.receive] [] ≠ none :=
  getDownloadURLParallel_safe sampleMirrors 7 "LOSSLESS" ["a", "b", "c"]
    [{ apiURL := "b", manifest := "", err := some "HTTP 503" },
     { apiURL := "a", manifest := "", err := some "timeout" },
     { apiURL := "c", manifest := "bts", err := none }]
    [ChanEvent.send { apiURL := "b", manifest := "", err := some "HTTP 503" },
     ChanEvent.send { apiURL := "a", manifest := "", err := some "timeout" },
     ChanEvent.receive,
     ChanEvent.send { apiURL := "c", manifest := "bts", err := none },
     ChanEvent.receive, ChanEvent.receive]
    (by decide) (by decide)

/-! ## A BTS manifest with an empty URL -/

/-- C27: the BTS manifest whose urls list is [""] is resolved without error to
an empty direct URL and an empty initialization URL, so neither of the two is
non-empty; DownloadFromManifest then takes the segmented path for this direct
manifest: its one request is for the empty initialization URL and its error
is the one of the initialization segment. -/
theorem parseManifest_empty_direct_url :
    parseManifest emptyUrlBtsDecoders "bts" =
      some { directURL := "", initURL := "", mediaURLs := [], err := none } ∧
    (DownloadFromManifest emptyUrlEnv emptyWorld "bts" "out.flac").map
        (fun r => (r.world.requests, r.err)) =
      some ([""],
        some "failed to download init segment: Get \"\": unsupported protocol scheme \"\"") := by
  constructor <;> decide

/-! ## The file name of a finished job -/

theorem replaceAllChars_remove (c : Char) (l : List Char) :
    replaceAllChars [c] [] 0 l = l.filter (fun x => x != c) := by
  induction l with
  | nil => rfl
  | cons x xs ih =>
    rw [replaceAllChars]
    by_cases hx : x = c
    · subst hx
      simp [List.isPrefixOf, ih]
    · have hne : (c == x) = false := by
        simp only [beq_eq_false_iff_ne, ne_eq]
        exact fun h => hx h.symm
      simp [List.isPrefixOf, hne, ih, hx]

theorem removeChars_foldl (chars : List Char) :
    ∀ s : String,
      chars.foldl (fun name char => replaceAll name (String.singleton char) "") s =
        String.mk (s.data.filter (fun x => !chars.contains x)) := by
  induction chars with
  | nil =>
    intro s
    simp
  | cons c cs ih =>
    intro s
    rw [List.foldl_cons, ih]
    have hdata : (replaceAll s (String.singleton c) "").data = s.data.filter (fun x => x != c) := by
      unfold replaceAll
      exact replaceAllChars_remove c s.data
    rw [hdata, List.filter_filter]
    congr 1
    apply List.filter_congr
    intro x _
    simp only [List.contains_cons, Bool.not_or, bne, Bool.and_comm]

theorem dropWhile_append_kept (p : Char → Bool) (z : Char) (zs : List Char) (hz : p z = false) :
    ∀ ys : List Char, (ys ++ z :: zs).dropWhile p = ys.dropWhile p ++ z :: zs := by
  intro ys
  induction ys with
  | nil => simp [List.dropWhile, hz]
  | cons y ys ih =>
    by_cases hy : p y = true
    · simp [List.dropWhile, hy, ih]
    · simp [List.dropWhile, hy]

theorem trimSpace_flac (ys : List Char) :
    trimSpace (String.mk (ys ++ ".flac".data)) =
      String.mk (ys.dropWhile isSpace ++ ".flac".data) := by
  have hflac : ".flac".data = ['.', 'f', 'l', 'a', 'c'] := rfl
  have hdot : isSpace '.' = false := by decide
  have hc : isSpace 'c' = false := by decide
  unfold trimSpace
  rw [hflac]
  simp only
  rw [dropWhile_append_kept isSpace '.' _ hdot]
  congr 1
  rw [List.reverse_append]
  simp only [List.reverse_cons, List.reverse_nil, List.nil_append, List.cons_append,
    List.singleton_append]
  rw [List.dropWhile_cons_of_neg (by simp [hc])]
  simp

theorem sanitizeFileName_eq (artist trackName : String) :
    sanitizeFileName artist trackName =
      String.mk
        ((((artist ++ " - " ++ trackName).data.filter
          (fun x => !"<>:\"/\\|?*".data.contains x)).dropWhile isSpace) ++ ".flac".data) := by
  unfold sanitizeFileName
  simp only
  rw [removeChars_foldl]
  have hsplit : (artist ++ " - " ++ trackName ++ ".flac").data
      = (artist ++ " - " ++ trackName).data ++ ".flac".data := String.data_append _ _
  have hkeep : ".flac".data.filter (fun x => !"<>:\"/\\|?*".data.contains x) = ".flac".data := by
    decide
  rw [hsplit, List.filter_append, hkeep, trimSpace_flac]

/-- C28: job output file name.  For every artist and track name in a job
status, the file name DownloadFromService derives from them contains none of
the characters < > : " / \ | ? * (so no path separator), begins and ends with
a character that is not white space, and ends in ".flac" (so it is neither
empty nor a dot name); and the only path whose content the fetch of the
finished file changes is that name joined to outputDir. -/
theorem sanitizeFileName_confined (env : ServiceEnv) (w : World) (baseURL outputDir : String)
    (status : DoubleDoubleStatusResponse) :
    (∀ c ∈ "<>:\"/\\|?*".data,
      c ∉ (sanitizeFileName status.CurrentArtist status.CurrentName).data) ∧
    (∀ c : Char, (sanitizeFileName status.CurrentArtist status.CurrentName).data.head? = some c →
      isSpace c = false) ∧
    (∀ c : Char, (sanitizeFileName status.CurrentArtist status.CurrentName).data.getLast? = some c →
      isSpace c = false) ∧
    hasSuffix (sanitizeFileName status.CurrentArtist status.CurrentName) ".flac" = true ∧
    (∀ p : String, (fetchFile env w baseURL outputDir status).1.files p ≠ w.files p →
      p = env.filepathJoin outputDir
        (sanitizeFileName status.CurrentArtist status.CurrentName)) := by
  have heq := sanitizeFileName_eq status.CurrentArtist status.CurrentName
  have hflac : ".flac".data = ['.', 'f', 'l', 'a', 'c'] := rfl
  refine ⟨?_, ?_, ?_, ?_, ?_⟩
  · intro c hc hmem
    rw [heq] at hmem
    simp only [List.mem_append] at hmem
    rcases hmem with hmem | hmem
    · have hin := (List.mem_filter.mp ((List.dropWhile_sublist _).subset hmem)).2
      simp only [Bool.not_eq_true', List.contains_eq_any_beq, List.any_eq_false, beq_iff_eq] at hin
      exact hin c hc rfl
    · revert hmem
      revert c
      decide
  · intro c hhead
    rw [heq] at hhead
    simp only at hhead
    cases hd : ((status.CurrentArtist ++ " - " ++ status.CurrentName).data.filter
        (fun x => !"<>:\"/\\|?*".data.contains x)).dropWhile isSpace with
    | nil =>
      rw [hd] at hhead
      simp only [List.nil_append, List.head?_cons, Option.some.injEq] at hhead
      rw [← hhead]
      decide
    | cons y ys =>
      rw [hd] at hhead
      simp only [List.cons_append, List.head?_cons, Option.some.injEq] at hhead
      rw [← hhead]
      have := List.head_dropWhile_not isSpace
        ((status.CurrentArtist ++ " - " ++ status.CurrentName).data.filter
          (fun x => !"<>:\"/\\|?*".data.contains x)) (by rw [hd]; simp)
      simp only [hd, List.head_cons] at this
      exact this
  · intro c hlast
    rw [heq, hflac] at hlast
    simp only [List.getLast?_append_cons, List.getLast?_cons_cons, List.getLast?_singleton,
      Option.some.injEq] at hlast
    rw [← hlast]
    decide
  · rw [heq]
    unfold hasSuffix
    simp only [List.isSuffixOf_iff_suffix]
    exact List.suffix_append _ _
  · intro p hp
    by_contra hne
    apply hp
    unfold fetchFile
    simp only
    cases env.newRequestErr (resolveFileURL baseURL status.URL) with
    | some e => rfl
    | none =>
      simp only
      cases env.download w.requests.length (resolveFileURL baseURL status.URL) with
      | transportError e => rfl
      | response statusCode body copyErr =>
        simp only
        split
        · rfl
        · cases env.createErr (env.filepathJoin outputDir
            (sanitizeFileName status.CurrentArtist status.CurrentName)) with
          | some e => rfl
          | none =>
            cases copyErr with
            | some e => simp [World.append, World.create, World.request, hne]
            | none => simp [World.append, World.create, World.request, hne]

/-- C28 witness: artist " AC/DC" and track "Back: In Black?", fetched into the
directory out of an empty disk. -/
theorem sanitizeFileName_confined_witness :
    (∀ c ∈ "<>:\"/\\|?*".data,
      c ∉ (sanitizeFileName sampleDone.CurrentArtist sampleDone.CurrentName).data) ∧
    (∀ c : Char,
      (sanitizeFileName sampleDone.CurrentArtist sampleDone.CurrentName).data.head? = some c →
      isSpace c = false) ∧
    (∀ c : Char,
      (sanitizeFileName sampleDone.CurrentArtist sampleDone.CurrentName).data.getLast? = some c →
      isSpace c = false) ∧
    hasSuffix (sanitizeFileName sampleDone.CurrentArtist sampleDone.CurrentName) ".flac" = true ∧
    (∀ p : String,
      (fetchFile (serviceEnv (fun _ => accepted) (fun _ => jobStatus "done" "")
          (.response 200 [1, 2] none)) emptyWorld "https://us.doubledouble.top" "out"
        sampleDone).1.files p ≠ emptyWorld.files p →
      p = (serviceEnv (fun _ => accepted) (fun _ => jobStatus "done" "")
          (.response 200 [1, 2] none)).filepathJoin "out"
        (sanitizeFileName sampleDone.CurrentArtist sampleDone.CurrentName)) :=
  sanitizeFileName_confined
    (serviceEnv (fun _ => accepted) (fun _ => jobStatus "done" "") (.response 200 [1, 2] none))
    emptyWorld "https://us.doubledouble.top" "out" sampleDone

theorem sanitizeFileName_sample :
    sanitizeFileName " AC/DC" "Back: In Black?" = "ACDC - Back In Black.flac" := by
  decide

/-! ## Decimal text -/

theorem digitChar_value (m : Nat) (hm : m < 10) :
    (Nat.digitChar m).toNat - 48 = m ∧ isDigit (Nat.digitChar m) = true := by
  interval_cases m <;> exact ⟨by decide, by decide⟩

theorem toDigitsCore_value :
    ∀ (fuel n : Nat) (acc : List Char), n < fuel →
      (Nat.toDigitsCore 10 fuel n acc).foldl (fun a c => a * 10 + (c.toNat - 48)) 0
        = acc.foldl (fun a c => a * 10 + (c.toNat - 48)) n := by
  intro fuel
  induction fuel with
  | zero =>
    intro n acc h
    omega
  | succ fuel ih =>
    intro n acc h
    rw [Nat.toDigitsCore]
    have hd := (digitChar_value (n % 10) (Nat.mod_lt _ (by omega))).1
    by_cases h0 : n / 10 = 0
    · simp only [h0, if_true, List.foldl_cons, Nat.zero_mul, Nat.zero_add, hd]
      have : n % 10 = n := Nat.mod_eq_of_lt (by omega)
      rw [this]
    · simp only [h0, if_false]
      rw [ih (n / 10) _ (by omega)]
      simp only [List.foldl_cons, hd]
      have : n / 10 * 10 + n % 10 = n := by omega
      rw [this]

theorem toDigitsCore_digits :
    ∀ (fuel n : Nat) (acc : List Char), (∀ c ∈ acc, isDigit c = true) →
      ∀ c ∈ Nat.toDigitsCore 10 fuel n acc, isDigit c = true := by
  intro fuel
  induction fuel with
  | zero =>
    intro n acc hacc c hc
    rw [Nat.toDigitsCore] at hc
    exact hacc c hc
  | succ fuel ih =>
    intro n acc hacc c hc
    rw [Nat.toDigitsCore] at hc
    have hd := (digitChar_value (n % 10) (Nat.mod_lt _ (by omega))).2
    have hacc2 : ∀ x ∈ Nat.digitChar (n % 10) :: acc, isDigit x = true := by
      intro x hx
      rcases List.mem_cons.mp hx with hx | hx
      · rw [hx]
        exact hd
      · exact hacc x hx
    by_cases h0 : n / 10 = 0
    · simp only [h0, if_true] at hc
      exact hacc2 c hc
    · simp only [h0, if_false] at hc
      exact ih _ _ hacc2 c hc

theorem toDigitsCore_ne_nil (fuel n : Nat) (acc : List Char) :
    Nat.toDigitsCore 10 (fuel + 1) n acc ≠ [] := by
  induction fuel generalizing n acc with
  | zero =>
    rw [Nat.toDigitsCore]
    split <;> simp [Nat.toDigitsCore]
  | succ fuel ih =>
    rw [Nat.toDigitsCore]
    split
    · simp
    · exact ih _ _

theorem decimal_digits (n : Nat) :
    (decimal (n : Int)).data ≠ [] ∧ (∀ c ∈ (decimal (n : Int)).data, isDigit c = true) ∧
    digitsValue (decimal (n : Int)).data = n := by
  have hdata : (decimal (n : Int)).data = Nat.toDigitsCore 10 (n + 1) n [] := rfl
  rw [hdata]
  refine ⟨toDigitsCore_ne_nil n n [], toDigitsCore_digits (n + 1) n [] (by simp), ?_⟩
  unfold digitsValue
  rw [toDigitsCore_value (n + 1) n [] (by omega)]
  rfl

/-! ## Splitting at a separator -/

theorem splitChars_skip (sep : List Char) :
    ∀ (k : Nat) (cur xs : List Char), k ≤ xs.length →
      splitChars sep k cur xs = splitChars sep 0 cur (xs.drop k) := by
  intro k
  induction k with
  | zero =>
    intro cur xs _
    rfl
  | succ k ih =>
    intro cur xs hk
    cases xs with
    | nil => simp at hk
    | cons x xs =>
      rw [splitChars]
      exact ih cur xs (by simpa using hk)

theorem splitChars_no_match (sep : List Char) (rest : List Char) :
    ∀ (ys cur : List Char),
      (∀ t : List Char, t ≠ [] → t <:+ ys → sep.isPrefixOf (t ++ rest) = false) →
      splitChars sep 0 cur (ys ++ rest) = splitChars sep 0 (cur ++ ys) rest := by
  intro ys
  induction ys with
  | nil =>
    intro cur _
    simp
  | cons y ys ih =>
    intro cur hno
    have hhead := hno (y :: ys) (by simp) (List.suffix_refl _)
    rw [List.cons_append] at hhead ⊢
    rw [splitChars]
    simp only [hhead, Bool.false_eq_true, if_false]
    rw [ih (cur ++ [y]) (fun t ht hsuf => hno t ht (List.suffix_cons_iff.mpr (Or.inr hsuf)))]
    simp

theorem splitChars_head (sep : List Char) :
    ∀ (xs cur : List Char) (k : Nat),
      ∃ (piece : List Char) (more : List (List Char)),
        splitChars sep k cur xs = (cur ++ piece) :: more := by
  intro xs
  induction xs with
  | nil =>
    intro cur k
    exact ⟨[], [], by cases k <;> simp [splitChars]⟩
  | cons x xs ih =>
    intro cur k
    cases k with
    | succ k =>
      rw [splitChars]
      exact ih cur k
    | zero =>
      rw [splitChars]
      split
      · exact ⟨[], splitChars sep (sep.length - 1) [] xs, by simp⟩
      · obtain ⟨piece, more, h⟩ := ih (cur ++ [x]) 0
        exact ⟨x :: piece, more, by rw [h]; simp⟩

theorem isPrefixOf_other_head (s0 : Char) (ss : List Char) (c : Char) (cs : List Char)
    (h : c ≠ s0) : (s0 :: ss).isPrefixOf (c :: cs) = false := by
  have : (s0 == c) = false := by
    simp only [beq_eq_false_iff_ne, ne_eq]
    exact fun e => h e.symm
  simp [List.isPrefixOf, this]

theorem splitChars_other_chars (s0 : Char) (ss rest : List Char) (ys cur : List Char)
    (hys : ∀ c ∈ ys, c ≠ s0) :
    splitChars (s0 :: ss) 0 cur (ys ++ rest) = splitChars (s0 :: ss) 0 (cur ++ ys) rest := by
  apply splitChars_no_match
  intro t ht hsuf
  cases t with
  | nil => exact absurd rfl ht
  | cons c cs =>
    rw [List.cons_append]
    exact isPrefixOf_other_head s0 ss c _ (hys c (hsuf.subset (List.mem_cons_self _ _)))

theorem containsStr_false (s sub : String) (h : containsStr s sub = false) (t : List Char)
    (ht : t <:+ s.data) : sub.data.isPrefixOf t = false := by
  unfold containsStr at h
  rw [List.any_eq_false] at h
  have := h t ((List.mem_tails _ _).mpr ht)
  cases hb : sub.data.isPrefixOf t with
  | false => rfl
  | true => exact absurd hb this

/-! ## Track ids -/

theorem isDigit_facts (c : Char) (h : isDigit c = true) :
    c ≠ '/' ∧ c ≠ '?' ∧ c ≠ '+' ∧ c ≠ '-' ∧ isSpace c = false := by
  unfold isDigit at h
  simp only [Bool.and_eq_true, decide_eq_true_eq] at h
  refine ⟨?_, ?_, ?_, ?_, ?_⟩
  · rintro rfl
    exact absurd h.1 (by decide)
  · rintro rfl
    exact absurd h.2 (by decide)
  · rintro rfl
    exact absurd h.1 (by decide)
  · rintro rfl
    exact absurd h.1 (by decide)
  · unfold isSpace
    have h1 := h.1
    have h2 := h.2
    simp only [List.contains_eq_any_beq, List.any_cons, List.any_nil, Bool.or_false,
      Bool.or_eq_false_iff, Bool.and_eq_false_imp, decide_eq_true_eq, decide_eq_false_iff_not,
      beq_eq_false_iff_ne, ne_eq]
    refine ⟨⟨?_, ?_, ?_, ?_, ?_, ?_, ?_, ?_, ?_, ?_, ?_, ?_, ?_, ?_⟩, ?_⟩ <;> omega

theorem trimSpace_decimal (n : Nat) : trimSpace (decimal (n : Int)) = decimal (n : Int) := by
  obtain ⟨hne, hdig, _⟩ := decimal_digits n
  have hkeep : ∀ l : List Char, (∀ c ∈ l, isDigit c = true) → l.dropWhile isSpace = l := by
    intro l hl
    cases l with
    | nil => rfl
    | cons c cs =>
      have := (isDigit_facts c (hl c (List.mem_cons_self _ _))).2.2.2.2
      simp [List.dropWhile, this]
  unfold trimSpace
  rw [hkeep _ hdig, hkeep _ (by
    intro c hc
    exact hdig c (List.mem_reverse.mp hc)), List.reverse_reverse]

theorem sscanInt64_decimal (n : Nat) (hmax : (n : Int) ≤ maxInt64) :
    sscanInt64 (decimal (n : Int)).data = .ok (n : Int) := by
  obtain ⟨hne, hdig, hval⟩ := decimal_digits n
  cases hd : (decimal (n : Int)).data with
  | nil => exact absurd hd hne
  | cons c cs =>
    rw [hd] at hdig hval
    have hc := isDigit_facts c (hdig c (List.mem_cons_self _ _))
    have htake : (c :: cs).takeWhile isDigit = c :: cs := List.takeWhile_eq_self_iff.mpr hdig
    unfold sscanInt64
    simp only [hc.2.2.1, hc.2.2.2.1, or_self, if_false, List.length_nil, List.drop_zero, htake,
      hval]
    have hmin : minInt64 ≤ (n : Int) := by
      unfold minInt64
      omega
    simp [hmin, hmax]

theorem track_prefix_no_match (p : String) (rest : List Char)
    (hp : containsStr (p ++ "/track") "/track/" = false) (t : List Char) (ht : t ≠ [])
    (hsuf : t <:+ p.data) :
    ['/', 't', 'r', 'a', 'c', 'k', '/'].isPrefixOf
      (t ++ (['/', 't', 'r', 'a', 'c', 'k', '/'] ++ rest)) = false := by
  have hsuf2 : t ++ ['/', 't', 'r', 'a', 'c', 'k'] <:+ (p ++ "/track").data := by
    rw [String.data_append]
    obtain ⟨front, hfront⟩ := hsuf
    exact ⟨front, by rw [← hfront]; simp⟩
  have hno := containsStr_false (p ++ "/track") "/track/" hp _ hsuf2
  cases hb : ['/', 't', 'r', 'a', 'c', 'k', '/'].isPrefixOf
      (t ++ (['/', 't', 'r', 'a', 'c', 'k', '/'] ++ rest)) with
  | false => rfl
  | true =>
    have h1 : ['/', 't', 'r', 'a', 'c', 'k', '/'] <+:
        t ++ (['/', 't', 'r', 'a', 'c', 'k', '/'] ++ rest) := List.isPrefixOf_iff_prefix.mp hb
    have h2 : t ++ ['/', 't', 'r', 'a', 'c', 'k'] <+:
        t ++ (['/', 't', 'r', 'a', 'c', 'k', '/'] ++ rest) :=
      ⟨'/' :: rest, by simp⟩
    have hlen : 0 < t.length := List.length_pos.mpr ht
    have h3 := List.prefix_of_prefix_length_le h1 h2 (by
      simp only [List.length_cons, List.length_nil, List.length_append]
      omega)
    have h4 : "/track/".data.isPrefixOf (t ++ ['/', 't', 'r', 'a', 'c', 'k']) = true :=
      List.isPrefixOf_iff_prefix.mpr h3
    rw [hno] at h4
    exact absurd h4 (by simp)

theorem split_at_track (p : String) (rest : List Char)
    (hp : containsStr (p ++ "/track") "/track/" = false) :
    splitChars "/track/".data 0 [] (p.data ++ ("/track/".data ++ rest)) =
      p.data :: splitChars "/track/".data 0 [] rest := by
  have hsep : "/track/".data = ['/', 't', 'r', 'a', 'c', 'k', '/'] := rfl
  rw [hsep]
  rw [splitChars_no_match _ _ p.data [] (track_prefix_no_match p rest hp)]
  simp only [List.nil_append, List.cons_append]
  rw [splitChars]
  have hmatch : ['/', 't', 'r', 'a', 'c', 'k', '/'].isPrefixOf
      ('/' :: 't' :: 'r' :: 'a' :: 'c' :: 'k' :: '/' :: rest) = true := by
    simp [List.isPrefixOf]
  simp only [hmatch, if_true]
  congr 1

theorem GetTrackIDFromURL_of_pieces (url : String) (first second : List Char)
    (more : List (List Char)) (n : Nat) (hmax : (n : Int) ≤ maxInt64)
    (hsplit : splitChars "/track/".data 0 [] url.data = first :: second :: more)
    (hid : (split (String.mk second) "?").headD "" = decimal (n : Int)) :
    GetTrackIDFromURL url = .ok (n : Int) := by
  unfold GetTrackIDFromURL
  have h : split url "/track/" = String.mk first :: String.mk second :: more.map String.mk := by
    unfold split
    rw [hsplit]
    simp
  rw [h]
  simp only [hid, trimSpace_decimal, sscanInt64_decimal n hmax]

/-- C29 (as amended): track-id parsing round trip.  For every integer n with
0 <= n <= 2^63 - 1, every prefix p such that "/track/" does not occur in p
followed by "/track" (p neither contains "/track/" nor ends in "/track", so
that the separator written after p is the first one in the URL) and every
query string q, GetTrackIDFromURL returns n without error both on
p + "/track/" + decimal(n) + "?" + q and on p + "/track/" + decimal(n); and a
URL that does not contain "/track/" is rejected with the error "invalid tidal
URL format". -/
theorem GetTrackIDFromURL_round_trip (n : Int) (p q : String) (h0 : 0 ≤ n)
    (hmax : n ≤ maxInt64) (hp : containsStr (p ++ "/track") "/track/" = false) :
    GetTrackIDFromURL (p ++ "/track/" ++ decimal n ++ "?" ++ q) = .ok n ∧
    GetTrackIDFromURL (p ++ "/track/" ++ decimal n) = .ok n ∧
    ∀ url : String, containsStr url "/track/" = false →
      GetTrackIDFromURL url = .error "invalid tidal URL format" := by
  obtain ⟨m, rfl⟩ := Int.eq_ofNat_of_zero_le h0
  obtain ⟨hne, hdig, _⟩ := decimal_digits m
  have hslash : ∀ c ∈ (decimal (m : Int)).data, c ≠ '/' := fun c hc => (isDigit_facts c (hdig c hc)).1
  have hquest : ∀ c ∈ (decimal (m : Int)).data, c ≠ '?' :=
    fun c hc => (isDigit_facts c (hdig c hc)).2.1
  have hsepq : "?".data = ['?'] := rfl
  have hsep : "/track/".data = ['/', 't', 'r', 'a', 'c', 'k', '/'] := rfl
  refine ⟨?_, ?_, ?_⟩
  · have hdata : (p ++ "/track/" ++ decimal (m : Int) ++ "?" ++ q).data
        = p.data ++ ("/track/".data ++ (((decimal (m : Int)).data ++ ['?']) ++ q.data)) := by
      simp only [String.data_append, hsepq, List.append_assoc]
    have hrest : ∃ (piece : List Char) (more : List (List Char)),
        splitChars "/track/".data 0 [] (((decimal (m : Int)).data ++ ['?']) ++ q.data)
          = ((decimal (m : Int)).data ++ ['?'] ++ piece) :: more := by
      rw [hsep, splitChars_other_chars '/' _ q.data ((decimal (m : Int)).data ++ ['?']) [] (by
        intro c hc
        rcases List.mem_append.mp hc with hc | hc
        · exact hslash c hc
        · simp only [List.mem_singleton] at hc
          rw [hc]
          decide)]
      obtain ⟨piece, more, h⟩ := splitChars_head ['/', 't', 'r', 'a', 'c', 'k', '/'] q.data
        ([] ++ ((decimal (m : Int)).data ++ ['?'])) 0
      exact ⟨piece, more, by rw [h]; simp⟩
    obtain ⟨piece, more, hpiece⟩ := hrest
    apply GetTrackIDFromURL_of_pieces _ p.data ((decimal (m : Int)).data ++ ['?'] ++ piece) more
      m hmax
    · rw [hdata, split_at_track p _ hp, hpiece]
    · unfold split
      simp only [hsepq]
      rw [show (decimal (m : Int)).data ++ ['?'] ++ piece
          = (decimal (m : Int)).data ++ ('?' :: piece) by simp]
      rw [splitChars_other_chars '?' [] ('?' :: piece) (decimal (m : Int)).data [] hquest]
      rw [splitChars]
      simp [List.isPrefixOf]
  · have hdata : (p ++ "/track/" ++ decimal (m : Int)).data
        = p.data ++ ("/track/".data ++ ((decimal (m : Int)).data ++ [])) := by
      simp only [String.data_append, List.append_assoc, List.append_nil]
    have hrest : splitChars "/track/".data 0 [] ((decimal (m : Int)).data ++ [])
        = [(decimal (m : Int)).data] := by
      rw [hsep, splitChars_other_chars '/' _ [] (decimal (m : Int)).data [] hslash]
      simp [splitChars]
    unfold GetTrackIDFromURL
    have h : split (p ++ "/track/" ++ decimal (m : Int)) "/track/" = [p, decimal (m : Int)] := by
      unfold split
      rw [hdata, split_at_track p _ hp, hrest]
      rfl
    rw [h]
    have hid : (split (decimal (m : Int)) "?").headD "" = decimal (m : Int) := by
      unfold split
      simp only [hsepq]
      have := splitChars_other_chars '?' [] [] (decimal (m : Int)).data [] hquest
      simp only [List.append_nil, List.nil_append] at this
      rw [this]
      simp [splitChars]
    simp only [hid, trimSpace_decimal, sscanInt64_decimal m hmax]
  · intro url hurl
    have hno : splitChars "/track/".data 0 [] (url.data ++ []) = [url.data] := by
      rw [splitChars_no_match "/track/".data [] url.data [] (by
        intro t _ hsuf
        rw [List.append_nil]
        exact containsStr_false url "/track/" hurl t hsuf)]
      simp [splitChars]
    rw [List.append_nil] at hno
    unfold GetTrackIDFromURL split
    rw [hno]
    rfl

/-- C29 witness: the track page of id 9223372036854775807, the largest 64-bit
id, with and without a query string. -/
theorem GetTrackIDFromURL_round_trip_witness :
    GetTrackIDFromURL ("https://tidal.com/browse" ++ "/track/" ++ decimal 9223372036854775807
        ++ "?" ++ "u=/track/1") = .ok 9223372036854775807 ∧
    GetTrackIDFromURL ("https://tidal.com/browse" ++ "/track/" ++ decimal 9223372036854775807)
      = .ok 9223372036854775807 ∧
    ∀ url : String, containsStr url "/track/" = false →
      GetTrackIDFromURL url = .error "invalid tidal URL format" :=
  GetTrackIDFromURL_round_trip 9223372036854775807 "https://tidal.com/browse" "u=/track/1"
    (by decide) (by decide) (by decide)

/-- C29 counterexample: the prefix "x/track" does not contain "/track/", yet
the URL made of it, "/track/" and the decimal text of 7 is split at the
separator that starts inside the prefix, and the call ends with an error
instead of returning 7. -/
theorem GetTrackIDFromURL_prefix_ending_in_track :
    containsStr "x/track" "/track/" = false ∧
    GetTrackIDFromURL ("x/track" ++ "/track/" ++ decimal 7)
      = .error "failed to parse track ID: expected integer" ∧
    GetTrackIDFromURL ("x/track" ++ "/track/" ++ decimal 7) ≠ .ok 7 := by
  have h : GetTrackIDFromURL ("x/track" ++ "/track/" ++ decimal 7)
      = .error "failed to parse track ID: expected integer" := rfl
  refine ⟨by decide, h, ?_⟩
  rw [h]
  intro hc
  cases hc

end SpotiFLAC
